import Mathlib

/-!
# Route policies: identity, ordering, wire round trip and validation

A shallow embedding of `config/policy.go`.  Go strings are Lean `String`s, pointers are
`Option`s, machine integers are `Int`/`Nat`, and functions that live outside the
embedded source (hashing, URL parsing, file access, ...) are explicit parameters.
-/

set_option maxRecDepth 100000

namespace Pomerium

/-! ## Strings -/

/-- Go's `a < b` on the characters of two strings: lexicographic, a proper prefix first.
Go compares bytewise, which on UTF-8 text is the order of the code points. -/
def charsLess : List Char → List Char → Bool
  | [], [] => false
  | [], _ :: _ => true
  | _ :: _, [] => false
  | a :: as, b :: bs => if a < b then true else if b < a then false else charsLess as bs

/-- Go's `a < b` on strings. -/
def stringLess (a b : String) : Bool := charsLess a.data b.data

/-! ## Data model -/

/-- The `*url.Userinfo` of a URL: user name and optional password. -/
structure Userinfo where
  username : String
  password : String
  passwordSet : Bool
deriving DecidableEq, Repr

/-- Go's `url.URL`. -/
structure URL where
  Scheme : String := ""
  Opaque : String := ""
  User : Option Userinfo := none
  Host : String := ""
  Path : String := ""
  RawPath : String := ""
  OmitHost : Bool := false
  ForceQuery : Bool := false
  RawQuery : String := ""
  Fragment : String := ""
  RawFragment : String := ""
deriving DecidableEq, Repr

/-- Go's `WeightedURL`: an upstream URL with its load-balancing weight (`uint32`). -/
structure WeightedURL where
  URL : URL
  LbWeight : Nat := 0
deriving DecidableEq, Repr

/-- Go's `PolicyRedirect`: a route redirect action; every field is a Go pointer. -/
structure PolicyRedirect where
  HTTPSRedirect : Option Bool := none
  SchemeRedirect : Option String := none
  HostRedirect : Option String := none
  PortRedirect : Option Nat := none
  PathRedirect : Option String := none
  PrefixRewrite : Option String := none
  ResponseCode : Option Int := none
  StripQuery : Option Bool := none
deriving DecidableEq, Repr

/-- Go's `DirectResponse`: the response to an HTTP request (`Status` is a Go `int`). -/
structure DirectResponse where
  Status : Int := 0
  Body : String := ""
deriving DecidableEq, Repr

/-- A value of a type declared outside `config/policy.go` that the code only carries
around (claims maps, circuit breaker thresholds, certificates, ...). -/
structure Foreign where
  content : String := ""
deriving DecidableEq, Repr

/-- The Envoy cluster options of a route: the code reads and writes `Name` only. -/
structure Cluster where
  Name : String := ""
  Settings : Foreign := {}
deriving DecidableEq, Repr

/-- Go's `OAuth2Endpoint`. -/
structure OAuth2Endpoint where
  AuthURL : String := ""
  TokenURL : String := ""
  AuthStyle : String := ""
deriving DecidableEq, Repr

/-- Go's `UpstreamOAuth2`. -/
structure UpstreamOAuth2 where
  ClientID : String := ""
  ClientSecret : String := ""
  Endpoint : OAuth2Endpoint := {}
  Scopes : List String := []
deriving DecidableEq, Repr

/-- Go's `MCPServer`: configuration of an MCP server route. -/
structure MCPServer where
  UpstreamOAuth2 : Option UpstreamOAuth2 := none
  MaxRequestBytes : Option Nat := none
  Path : Option String := none
deriving DecidableEq, Repr

/-- Go's `MCPClient`: configuration of an MCP client route (an empty struct). -/
structure MCPClient where
deriving DecidableEq, Repr

/-- Go's `MCP`: the Model Context Protocol block of a route. -/
structure MCP where
  Server : Option MCPServer := none
  Client : Option MCPClient := none
deriving DecidableEq, Repr

/-- Go's `RewriteHeader`: rewrite of an HTTP response header. -/
structure RewriteHeader where
  Header : String := ""
  Prefix : String := ""
  Value : String := ""
deriving DecidableEq, Repr

/-- Go's `SubPolicy`: a protobuf Policy within a protobuf Route. -/
structure SubPolicy where
  ID : String := ""
  Name : String := ""
  AllowedUsers : Option (List String) := none
  AllowedDomains : Option (List String) := none
  AllowedIDPClaims : List (String × List String) := []
  Rego : List String := []
  SourcePPL : String := ""
  Explanation : String := ""
  Remediation : String := ""
deriving DecidableEq, Repr

/-- Go's `Policy`: route specific configuration and access settings.  Slices that the code
tests against `nil` are `Option (List _)`; `time.Duration` is an `Int` of nanoseconds;
`identity.FlattenedClaims` (a map from claim name to values) is an association list.
The Go field `Policy *PPLPolicy` is named `PPLPolicy` here. -/
structure Policy where
  ID : String := ""
  Name : String := ""
  Description : String := ""
  LogoURL : String := ""
  From : String := ""
  To : List WeightedURL := []
  Redirect : Option PolicyRedirect := none
  Response : Option DirectResponse := none
  LbWeights : List Nat := []
  AllowedUsers : Option (List String) := none
  AllowedDomains : Option (List String) := none
  AllowedIDPClaims : List (String × List String) := []
  Prefix : String := ""
  Path : String := ""
  Regex : String := ""
  RegexPriorityOrder : Option Int := none
  compiledRegex : Option Foreign := none
  PrefixRewrite : String := ""
  RegexRewritePattern : String := ""
  RegexRewriteSubstitution : String := ""
  HostRewrite : String := ""
  HostRewriteHeader : String := ""
  HostPathRegexRewritePattern : String := ""
  HostPathRegexRewriteSubstitution : String := ""
  CORSAllowPreflight : Bool := false
  AllowPublicUnauthenticatedAccess : Bool := false
  AllowAnyAuthenticatedUser : Bool := false
  UpstreamTimeout : Option Int := none
  IdleTimeout : Option Int := none
  AllowWebsockets : Bool := false
  AllowSPDY : Bool := false
  TLSSkipVerify : Bool := false
  TLSServerName : String := ""
  TLSDownstreamServerName : String := ""
  TLSUpstreamServerName : String := ""
  TLSCustomCA : String := ""
  TLSCustomCAFile : String := ""
  TLSClientCert : String := ""
  TLSClientKey : String := ""
  TLSClientCertFile : String := ""
  TLSClientKeyFile : String := ""
  ClientCertificate : Option Foreign := none
  TLSDownstreamClientCA : String := ""
  TLSDownstreamClientCAFile : String := ""
  TLSUpstreamAllowRenegotiation : Bool := false
  SetRequestHeaders : List (String × String) := []
  RemoveRequestHeaders : List String := []
  PreserveHostHeader : Bool := false
  PassIdentityHeaders : Option Bool := none
  KubernetesServiceAccountToken : String := ""
  KubernetesServiceAccountTokenFile : String := ""
  EnableGoogleCloudServerlessAuthentication : Bool := false
  JWTIssuerFormat : String := ""
  BearerTokenFormat : Option String := none
  JWTGroupsFilter : Foreign := {}
  SubPolicies : List SubPolicy := []
  EnvoyOpts : Option Cluster := none
  RewriteResponseHeaders : List RewriteHeader := []
  SetResponseHeaders : List (String × String) := []
  IDPClientID : String := ""
  IDPClientSecret : String := ""
  IDPAccessTokenAllowedAudiences : Option (List String) := none
  ShowErrorDetails : Bool := false
  PPLPolicy : Option Foreign := none
  DependsOn : List String := []
  MCP : Option MCP := none
  CircuitBreakerThresholds : Option Foreign := none
deriving DecidableEq, Repr

/-! ## Wire form -/

/-- Go's `durationpb.Duration`: whole seconds and a nanosecond remainder. -/
structure PBDuration where
  Seconds : Int := 0
  Nanos : Int := 0
deriving DecidableEq, Repr

/-- Go's `configpb.RouteRedirect`. -/
structure RouteRedirect where
  HttpsRedirect : Option Bool := none
  SchemeRedirect : Option String := none
  HostRedirect : Option String := none
  PortRedirect : Option Nat := none
  PathRedirect : Option String := none
  PrefixRewrite : Option String := none
  ResponseCode : Option Int := none
  StripQuery : Option Bool := none
deriving DecidableEq, Repr

/-- Go's `configpb.RouteDirectResponse` (`Status` is a `uint32`). -/
structure RouteDirectResponse where
  Status : Nat := 0
  Body : String := ""
deriving DecidableEq, Repr

/-- Go's `configpb.RouteRewriteHeader` with its prefix matcher. -/
structure RouteRewriteHeader where
  Header : String := ""
  Prefix : String := ""
  Value : String := ""
deriving DecidableEq, Repr

/-- Go's `configpb.Policy`: a sub-policy on the wire. -/
structure PBPolicy where
  Id : String := ""
  Name : String := ""
  AllowedUsers : Option (List String) := none
  AllowedDomains : Option (List String) := none
  AllowedIdpClaims : Foreign := {}
  Explanation : String := ""
  Remediation : String := ""
  Rego : List String := []
  SourcePpl : Option String := none
deriving DecidableEq, Repr

/-- Go's `configpb.Route`: the wire form of a policy.  Fields with presence are `Option`s. -/
structure Route where
  AllowAnyAuthenticatedUser : Bool := false
  AllowedDomains : Option (List String) := none
  AllowedIdpClaims : Foreign := {}
  AllowedUsers : Option (List String) := none
  AllowPublicUnauthenticatedAccess : Bool := false
  AllowSpdy : Bool := false
  AllowWebsockets : Bool := false
  CircuitBreakerThresholds : Option Foreign := none
  CorsAllowPreflight : Bool := false
  Description : String := ""
  DependsOn : List String := []
  EnableGoogleCloudServerlessAuthentication : Bool := false
  EnvoyOpts : Option Cluster := none
  From : String := ""
  Id : String := ""
  IdleTimeout : Option PBDuration := none
  JwtGroupsFilter : Foreign := {}
  JwtIssuerFormat : Option Foreign := none
  KubernetesServiceAccountToken : String := ""
  KubernetesServiceAccountTokenFile : String := ""
  LogoUrl : String := ""
  Mcp : Option Foreign := none
  Name : String := ""
  PassIdentityHeaders : Option Bool := none
  Path : String := ""
  Policies : List PBPolicy := []
  Prefix : String := ""
  PrefixRewrite : String := ""
  PreserveHostHeader : Bool := false
  Regex : String := ""
  RegexPriorityOrder : Option Int := none
  RegexRewritePattern : String := ""
  RegexRewriteSubstitution : String := ""
  RemoveRequestHeaders : List String := []
  SetRequestHeaders : List (String × String) := []
  SetResponseHeaders : List (String × String) := []
  ShowErrorDetails : Bool := false
  Timeout : Option PBDuration := none
  TlsClientCert : String := ""
  TlsClientCertFile : String := ""
  TlsClientKey : String := ""
  TlsClientKeyFile : String := ""
  TlsCustomCa : String := ""
  TlsCustomCaFile : String := ""
  TlsDownstreamClientCa : String := ""
  TlsDownstreamClientCaFile : String := ""
  TlsDownstreamServerName : String := ""
  TlsServerName : String := ""
  TlsSkipVerify : Bool := false
  TlsUpstreamAllowRenegotiation : Bool := false
  TlsUpstreamServerName : String := ""
  HostPathRegexRewritePattern : Option String := none
  HostPathRegexRewriteSubstitution : Option String := none
  HostRewrite : Option String := none
  HostRewriteHeader : Option String := none
  IdpClientId : Option String := none
  IdpClientSecret : Option String := none
  IdpAccessTokenAllowedAudiences : Option (List String) := none
  Redirect : Option RouteRedirect := none
  Response : Option RouteDirectResponse := none
  To : List String := []
  LoadBalancingWeights : List Nat := []
  BearerTokenFormat : Option Foreign := none
  RewriteResponseHeaders : List RouteRewriteHeader := []
deriving DecidableEq, Repr

/-! ## Errors -/

/-- The errors returned by the embedded functions, one constructor per `return` site.
`eitherToOrRedirectOrResponseRequired` is `errEitherToOrRedirectOrResponseRequired`;
`emptyUrls` is `errEmptyUrls`; `external` is an error made outside these sources. -/
inductive Error where
  | external (msg : String)
  | emptyUrls
  | eitherToOrRedirectOrResponseRequired
  | badSourceURL (err : Error)
  | sourceURLHasPath (source : String)
  | invalidTo (url : String) (err : Error)
  | mixTCP
  | mixUDP
  | unsupportedRedirectCode (code : Int)
  | redirectInvalid (err : Error)
  | publicWithWhitelists
  | anyAuthenticatedWithWhitelists
  | clientCertIncomplete
  | clientCertDecode (err : Error)
  | clientCertLoad (err : Error)
  | customCADecode (err : Error)
  | customCALoad (err : Error)
  | downstreamClientCADecode (err : Error)
  | downstreamClientCALoad (err : Error)
  | bothKubernetesTokens
  | bothRewrites
  | unsupportedJWTIssuerFormat (format : String)
  | tooManyDependsOn (dependsOn : List String)
  | unsupportedDependsOn (value : String)
  | mcpNeitherServerNorClient
  | parsingToURLs (err : Error)
deriving DecidableEq, Repr

deriving instance DecidableEq for Except

/-- Go's `errors.Is(err, errEmptyUrls)`: the error is `errEmptyUrls` or wraps it. -/
def Error.isEmptyUrls : Error → Bool
  | .emptyUrls => true
  | .badSourceURL e | .invalidTo _ e | .redirectInvalid e | .clientCertDecode e
  | .clientCertLoad e | .customCADecode e | .customCALoad e | .downstreamClientCADecode e
  | .downstreamClientCALoad e | .parsingToURLs e => e.isEmptyUrls
  | _ => false

/-! ## Collaborators outside the embedded sources -/

/-- One method call on a `hashutil.Digest`, with its argument. -/
inductive DigestWrite where
  | Write (bytes : List Nat)
  | WriteStringWithLen (s : String)
  | WriteInt32 (v : Int)
  | WriteUint32 (v : Nat)
  | WriteBool (b : Bool)
  | WriteBoolPtr (b : Option Bool)
  | WriteStringPtrWithLen (s : Option String)
  | WriteUint32Ptr (v : Option Nat)
  | WriteInt32Ptr (v : Option Int)
deriving DecidableEq, Repr

/-- The `hashutil.Digest` used for route IDs, as a state machine: the fresh state of
`NewDigest`, the effect of each method call, and `hex.EncodeToString(hash.Sum(nil))`.
Its implementation is outside the embedded sources, so it is a parameter. -/
structure Digest (σ : Type) where
  NewDigest : σ
  call : σ → DigestWrite → σ
  SumHex : σ → String

/-- The functions and constants that `config/policy.go` uses and that are defined
elsewhere (Go's standard library, other packages of the repository, the file system).
Go functions returning `(value, error)` whose value is used on the error path too return
a pair here. -/
structure Env where
  DefaultUpstreamTimeout : Int
  durationpbNew : Int → PBDuration
  AsDuration : PBDuration → Int
  errorText : Error → String
  URLString : URL → String
  urlParse : String → Except Error URL
  ParseAndValidateURL : String → Except Error URL
  ParseWeightedUrls : List String → List WeightedURL × Option Error
  Flatten : List WeightedURL → Except Error (List String × List Nat)
  WeightedURLValidate : WeightedURL → Option Error
  RedirectIsSet : Option RouteRedirect → Bool
  NewFlattenedClaimsFromPB : Foreign → List (String × List String)
  FlattenedClaimsToPB : List (String × List String) → Foreign
  CircuitBreakerThresholdsFromPB : Option Foreign → Option Foreign
  CircuitBreakerThresholdsToPB : Option Foreign → Option Foreign
  NewJWTGroupsFilter : Foreign → Foreign
  JWTGroupsFilterToSlice : Foreign → Foreign
  JWTIssuerFormatFromPB : Option Foreign → String
  JWTIssuerFormatToPB : String → Option Foreign
  JWTIssuerFormatValid : String → Bool
  MCPFromPB : Option Foreign → Option MCP
  MCPToPB : Option MCP → Option Foreign
  BearerTokenFormatFromPB : Option Foreign → Option String
  BearerTokenFormatToPB : Option String → Option Foreign
  CertificateFromBase64 : String → String → Option Foreign × Option Error
  CertificateFromFile : String → String → Option Foreign × Option Error
  base64Decode : String → Except Error (List Nat)
  base64Encode : List Nat → String
  ReadFile : String → Except Error (List Nat)
  regexpCompile : String → Option Foreign
  regexpMatchString : Foreign → String → Bool
  FromURLMatchesRequestURL : URL → URL → Bool → Bool

/-! ## Machine integers -/

/-- Conversion to `int32`: the low 32 bits, read as a signed number. -/
def toInt32 (n : Int) : Int := (n + 2 ^ 31) % 2 ^ 32 - 2 ^ 31

/-- Conversion to `uint32`: the low 32 bits. -/
def toUint32 (n : Int) : Nat := (n % 2 ^ 32).toNat

/-! ## Route identity -/

/-- The calls `generateRouteID` makes for one destination (the body of its loop). -/
def hashTo {σ : Type} (D : Digest σ) (hash : σ) (dst : WeightedURL) : σ :=
  let hash := D.call hash (.WriteStringWithLen dst.URL.Scheme)
  let hash := D.call hash (.WriteStringWithLen dst.URL.Opaque)
  let hash :=
    match dst.URL.User with
    | none => D.call hash (.Write [0])
    | some user =>
      let hash := D.call hash (.Write [1])
      let hash := D.call hash (.WriteStringWithLen user.username)
      D.call hash (.WriteStringWithLen user.password)
  let hash := D.call hash (.WriteStringWithLen dst.URL.Host)
  let hash := D.call hash (.WriteStringWithLen dst.URL.Path)
  let hash := D.call hash (.WriteStringWithLen dst.URL.RawPath)
  let hash := D.call hash (.WriteBool dst.URL.OmitHost)
  let hash := D.call hash (.WriteBool dst.URL.ForceQuery)
  let hash := D.call hash (.WriteStringWithLen dst.URL.Fragment)
  let hash := D.call hash (.WriteStringWithLen dst.URL.RawFragment)
  D.call hash (.WriteUint32 dst.LbWeight)

/-- Go's `Policy.generateRouteID`: hash the identity fields and hex-encode the digest. -/
def Policy.generateRouteID {σ : Type} (D : Digest σ) (p : Policy) : Except Error String :=
  let hash := D.NewDigest
  let hash := D.call hash (.WriteStringWithLen p.From)
  let hash := D.call hash (.WriteStringWithLen p.Prefix)
  let hash := D.call hash (.WriteStringWithLen p.Path)
  let hash := D.call hash (.WriteStringWithLen p.Regex)
  if p.To.length > 0 then
    let hash := D.call hash (.Write [1])
    let hash := D.call hash (.WriteInt32 (toInt32 p.To.length))
    let hash := p.To.foldl (hashTo D) hash
    .ok (D.SumHex hash)
  else
    match p.Redirect with
    | some redirect =>
      let hash := D.call hash (.Write [2])
      let hash := D.call hash (.WriteBoolPtr redirect.HTTPSRedirect)
      let hash := D.call hash (.WriteStringPtrWithLen redirect.SchemeRedirect)
      let hash := D.call hash (.WriteStringPtrWithLen redirect.HostRedirect)
      let hash := D.call hash (.WriteUint32Ptr redirect.PortRedirect)
      let hash := D.call hash (.WriteStringPtrWithLen redirect.PathRedirect)
      let hash := D.call hash (.WriteStringPtrWithLen redirect.PrefixRewrite)
      let hash := D.call hash (.WriteInt32Ptr redirect.ResponseCode)
      let hash := D.call hash (.WriteBoolPtr redirect.StripQuery)
      .ok (D.SumHex hash)
    | none =>
      match p.Response with
      | some response =>
        let hash := D.call hash (.Write [3])
        let hash := D.call hash (.WriteInt32 (toInt32 response.Status))
        let hash := D.call hash (.WriteStringWithLen response.Body)
        .ok (D.SumHex hash)
      | none => .error .eitherToOrRedirectOrResponseRequired

/-- Go's `Policy.RouteID`: the ID field when it is set, the generated ID otherwise. -/
def Policy.RouteID {σ : Type} (D : Digest σ) (p : Policy) : Except Error String :=
  if p.ID ≠ "" then .ok p.ID else p.generateRouteID D

/-! ## Ordering -/

/-- The closure `strDesc` of `SortPolicies`: `(a > b, a == b)`. -/
def strDesc (a b : String) : Bool × Bool := (stringLess b a, decide (a = b))

/-- The closure `strAsc` of `SortPolicies`: `(a < b, a == b)`. -/
def strAsc (a b : String) : Bool × Bool := (stringLess a b, decide (a = b))

/-- The closure `intPDesc` of `SortPolicies` on `*int64`. -/
def intPDesc (a b : Option Int) : Bool × Bool :=
  match a, b with
  | none, none => (false, true)
  | none, some _ => (false, false)
  | some _, none => (true, false)
  | some x, some y => (decide (x > y), decide (x = y))

/-- The `less` function that `SortPolicies` hands to `sort.SliceStable`, on the two
policies `pp[i]` and `pp[j]`. -/
def policyLess (pi pj : Policy) : Bool :=
  if ¬ (strAsc pi.From pj.From).2 then (strAsc pi.From pj.From).1
  else if ¬ (strDesc pi.Path pj.Path).2 then (strDesc pi.Path pj.Path).1
  else if ¬ (intPDesc pi.RegexPriorityOrder pj.RegexPriorityOrder).2 then
    (intPDesc pi.RegexPriorityOrder pj.RegexPriorityOrder).1
  else if ¬ (strDesc pi.Regex pj.Regex).2 then (strDesc pi.Regex pj.Regex).1
  else if ¬ (strDesc pi.Prefix pj.Prefix).2 then (strDesc pi.Prefix pj.Prefix).1
  else stringLess pi.ID pj.ID

/-- Go's `sort.SliceStable(x, less)` on a list.  The standard library's algorithm is
outside the embedded sources; it is a stable sort, here insertion sort: an element is
moved behind exactly the elements that are `less` than it, never past another one. -/
def SliceStable {α : Type} (less : α → α → Bool) (x : List α) : List α :=
  x.insertionSort (fun a b => less b a = false)

/-- Go's `SortPolicies`: the policies in the order of `policyLess`, ties in input order. -/
def SortPolicies (pp : List Policy) : List Policy := SliceStable policyLess pp

/-! ## Conversion from and to the wire form -/

/-- In `NewPolicyFromProto`, the struct literal `p := &Policy{...}` with the two timeouts
computed before it. -/
def Route.policyLiteral (E : Env) (pb : Route) : Policy :=
  let timeout : Option Int := pb.Timeout.map E.AsDuration
  let idleTimeout : Option Int := pb.IdleTimeout.map E.AsDuration
  { AllowAnyAuthenticatedUser := pb.AllowAnyAuthenticatedUser
    AllowedDomains := pb.AllowedDomains
    AllowedIDPClaims := E.NewFlattenedClaimsFromPB pb.AllowedIdpClaims
    AllowedUsers := pb.AllowedUsers
    AllowPublicUnauthenticatedAccess := pb.AllowPublicUnauthenticatedAccess
    AllowSPDY := pb.AllowSpdy
    AllowWebsockets := pb.AllowWebsockets
    CircuitBreakerThresholds := E.CircuitBreakerThresholdsFromPB pb.CircuitBreakerThresholds
    CORSAllowPreflight := pb.CorsAllowPreflight
    Description := pb.Description
    DependsOn := pb.DependsOn
    EnableGoogleCloudServerlessAuthentication := pb.EnableGoogleCloudServerlessAuthentication
    From := pb.From
    HostPathRegexRewritePattern := pb.HostPathRegexRewritePattern.getD ""
    HostPathRegexRewriteSubstitution := pb.HostPathRegexRewriteSubstitution.getD ""
    HostRewrite := pb.HostRewrite.getD ""
    HostRewriteHeader := pb.HostRewriteHeader.getD ""
    ID := pb.Id
    IdleTimeout := idleTimeout
    IDPClientID := pb.IdpClientId.getD ""
    IDPClientSecret := pb.IdpClientSecret.getD ""
    JWTGroupsFilter := E.NewJWTGroupsFilter pb.JwtGroupsFilter
    JWTIssuerFormat := E.JWTIssuerFormatFromPB pb.JwtIssuerFormat
    KubernetesServiceAccountToken := pb.KubernetesServiceAccountToken
    KubernetesServiceAccountTokenFile := pb.KubernetesServiceAccountTokenFile
    LogoURL := pb.LogoUrl
    MCP := E.MCPFromPB pb.Mcp
    Name := pb.Name
    PassIdentityHeaders := pb.PassIdentityHeaders
    Path := pb.Path
    Prefix := pb.Prefix
    PrefixRewrite := pb.PrefixRewrite
    PreserveHostHeader := pb.PreserveHostHeader
    Regex := pb.Regex
    RegexPriorityOrder := pb.RegexPriorityOrder
    RegexRewritePattern := pb.RegexRewritePattern
    RegexRewriteSubstitution := pb.RegexRewriteSubstitution
    RemoveRequestHeaders := pb.RemoveRequestHeaders
    SetRequestHeaders := pb.SetRequestHeaders
    SetResponseHeaders := pb.SetResponseHeaders
    ShowErrorDetails := pb.ShowErrorDetails
    TLSClientCert := pb.TlsClientCert
    TLSClientCertFile := pb.TlsClientCertFile
    TLSClientKey := pb.TlsClientKey
    TLSClientKeyFile := pb.TlsClientKeyFile
    TLSCustomCA := pb.TlsCustomCa
    TLSCustomCAFile := pb.TlsCustomCaFile
    TLSDownstreamClientCA := pb.TlsDownstreamClientCa
    TLSDownstreamClientCAFile := pb.TlsDownstreamClientCaFile
    TLSDownstreamServerName := pb.TlsDownstreamServerName
    TLSServerName := pb.TlsServerName
    TLSSkipVerify := pb.TlsSkipVerify
    TLSUpstreamAllowRenegotiation := pb.TlsUpstreamAllowRenegotiation
    TLSUpstreamServerName := pb.TlsUpstreamServerName
    UpstreamTimeout := timeout }

/-- In `NewPolicyFromProto`, the allowed audiences: a clone of the values when present. -/
def Route.setAudiences (pb : Route) (p : Policy) : Policy :=
  match pb.IdpAccessTokenAllowedAudiences with
  | some values => { p with IDPAccessTokenAllowedAudiences := some values }
  | none => { p with IDPAccessTokenAllowedAudiences := none }

/-- The weights of `pb.LoadBalancingWeights` put on the parsed destinations, when there
are as many weights as destinations. -/
def setLbWeights (weights : List Nat) (dsts : List WeightedURL) : List WeightedURL :=
  if weights.length = dsts.length then
    List.zipWith (fun u w => { u with LbWeight := w }) dsts weights
  else dsts

/-- In `NewPolicyFromProto`, the action: the redirect when `pb.Redirect.IsSet()`, else the
response when there is one, else the parsed destinations with their weights; a parse
error other than `errEmptyUrls` is returned.  (`IsSet` is defined with the protobuf
types; were it true of a nil redirect, Go would stop on the nil dereference where this
model reads absent fields.) -/
def Route.setAction (E : Env) (pb : Route) (p : Policy) : Except Error Policy :=
  if E.RedirectIsSet pb.Redirect then
    .ok { p with
      Redirect := some
        { HTTPSRedirect := pb.Redirect.bind (·.HttpsRedirect)
          SchemeRedirect := pb.Redirect.bind (·.SchemeRedirect)
          HostRedirect := pb.Redirect.bind (·.HostRedirect)
          PortRedirect := pb.Redirect.bind (·.PortRedirect)
          PathRedirect := pb.Redirect.bind (·.PathRedirect)
          PrefixRewrite := pb.Redirect.bind (·.PrefixRewrite)
          ResponseCode := pb.Redirect.bind (·.ResponseCode)
          StripQuery := pb.Redirect.bind (·.StripQuery) } }
  else
    match pb.Response with
    | some response =>
      .ok { p with Response := some { Status := (response.Status : Int), Body := response.Body } }
    | none =>
      match (E.ParseWeightedUrls pb.To).2.filter (fun err => !err.isEmptyUrls) with
      | some err => .error (.parsingToURLs err)
      | none => .ok { p with To := setLbWeights pb.LoadBalancingWeights (E.ParseWeightedUrls pb.To).1 }

/-- In `NewPolicyFromProto`, the Envoy options: those of the route or fresh ones, named
after the route when they have no name. -/
def Route.setEnvoyOpts (pb : Route) (p : Policy) : Policy :=
  let opts : Cluster := pb.EnvoyOpts.getD {}
  let opts : Cluster := if pb.Name ≠ "" ∧ opts.Name = "" then { opts with Name := pb.Name } else opts
  { p with EnvoyOpts := some opts }

/-- In `NewPolicyFromProto`, the end: bearer token format, response header rewrites and
sub-policies. -/
def Route.setTrailer (E : Env) (pb : Route) (p : Policy) : Policy :=
  let p : Policy := { p with BearerTokenFormat := E.BearerTokenFormatFromPB pb.BearerTokenFormat }
  let rwhs : List RewriteHeader := pb.RewriteResponseHeaders.map fun rwh =>
    { Header := rwh.Header, Prefix := rwh.Prefix, Value := rwh.Value }
  let p : Policy := { p with RewriteResponseHeaders := p.RewriteResponseHeaders ++ rwhs }
  let sps : List SubPolicy := pb.Policies.map fun sp =>
    { ID := sp.Id
      Name := sp.Name
      AllowedUsers := sp.AllowedUsers
      AllowedDomains := sp.AllowedDomains
      AllowedIDPClaims := E.NewFlattenedClaimsFromPB sp.AllowedIdpClaims
      Rego := sp.Rego
      SourcePPL := sp.SourcePpl.getD ""
      Explanation := sp.Explanation
      Remediation := sp.Remediation }
  { p with SubPolicies := p.SubPolicies ++ sps }

/-- Go's `NewPolicyFromProto`: a policy from a protobuf route, block by block in the order of
the source. -/
def NewPolicyFromProto (E : Env) (pb : Route) : Except Error Policy :=
  match pb.setAction E (pb.setAudiences (pb.policyLiteral E)) with
  | .error err => .error err
  | .ok p => .ok (pb.setTrailer E (pb.setEnvoyOpts p))

/-- Go's `fmt.Sprint(id, err)` on the two results of `RouteID`: the operands are
printed one after the other (no space, as one of them is a string), a nil error as
`<nil>`. -/
def sprintRouteID (E : Env) (r : Except Error String) : String :=
  match r with
  | .ok id => id ++ "<nil>"
  | .error err => "" ++ E.errorText err

/-- In `ToProto`, the struct literal `pb := &configpb.Route{...}` with the timeouts and the
sub-policies computed before it. -/
def Policy.routeLiteral (E : Env) (p : Policy) : Route :=
  let timeout : Option PBDuration :=
    match p.UpstreamTimeout with
    | none => some (E.durationpbNew E.DefaultUpstreamTimeout)
    | some t => some (E.durationpbNew t)
  let idleTimeout : Option PBDuration := p.IdleTimeout.map E.durationpbNew
  let sps : List PBPolicy := p.SubPolicies.map fun sp =>
    { Id := sp.ID
      Name := sp.Name
      AllowedUsers := sp.AllowedUsers
      AllowedDomains := sp.AllowedDomains
      AllowedIdpClaims := E.FlattenedClaimsToPB sp.AllowedIDPClaims
      Explanation := sp.Explanation
      Remediation := sp.Remediation
      Rego := sp.Rego
      SourcePpl := if sp.SourcePPL ≠ "" then some sp.SourcePPL else none }
  { AllowAnyAuthenticatedUser := p.AllowAnyAuthenticatedUser
    AllowedDomains := p.AllowedDomains
    AllowedIdpClaims := E.FlattenedClaimsToPB p.AllowedIDPClaims
    AllowedUsers := p.AllowedUsers
    AllowPublicUnauthenticatedAccess := p.AllowPublicUnauthenticatedAccess
    AllowSpdy := p.AllowSPDY
    AllowWebsockets := p.AllowWebsockets
    CircuitBreakerThresholds := E.CircuitBreakerThresholdsToPB p.CircuitBreakerThresholds
    CorsAllowPreflight := p.CORSAllowPreflight
    Description := p.Description
    DependsOn := p.DependsOn
    EnableGoogleCloudServerlessAuthentication := p.EnableGoogleCloudServerlessAuthentication
    EnvoyOpts := p.EnvoyOpts
    From := p.From
    Id := p.ID
    IdleTimeout := idleTimeout
    JwtGroupsFilter := E.JWTGroupsFilterToSlice p.JWTGroupsFilter
    JwtIssuerFormat := E.JWTIssuerFormatToPB p.JWTIssuerFormat
    KubernetesServiceAccountToken := p.KubernetesServiceAccountToken
    KubernetesServiceAccountTokenFile := p.KubernetesServiceAccountTokenFile
    LogoUrl := p.LogoURL
    Mcp := E.MCPToPB p.MCP
    Name := p.Name
    PassIdentityHeaders := p.PassIdentityHeaders
    Path := p.Path
    Policies := sps
    Prefix := p.Prefix
    PrefixRewrite := p.PrefixRewrite
    PreserveHostHeader := p.PreserveHostHeader
    Regex := p.Regex
    RegexPriorityOrder := p.RegexPriorityOrder
    RegexRewritePattern := p.RegexRewritePattern
    RegexRewriteSubstitution := p.RegexRewriteSubstitution
    RemoveRequestHeaders := p.RemoveRequestHeaders
    SetRequestHeaders := p.SetRequestHeaders
    SetResponseHeaders := p.SetResponseHeaders
    ShowErrorDetails := p.ShowErrorDetails
    Timeout := timeout
    TlsClientCert := p.TLSClientCert
    TlsClientCertFile := p.TLSClientCertFile
    TlsClientKey := p.TLSClientKey
    TlsClientKeyFile := p.TLSClientKeyFile
    TlsCustomCa := p.TLSCustomCA
    TlsCustomCaFile := p.TLSCustomCAFile
    TlsDownstreamClientCa := p.TLSDownstreamClientCA
    TlsDownstreamClientCaFile := p.TLSDownstreamClientCAFile
    TlsDownstreamServerName := p.TLSDownstreamServerName
    TlsServerName := p.TLSServerName
    TlsSkipVerify := p.TLSSkipVerify
    TlsUpstreamAllowRenegotiation := p.TLSUpstreamAllowRenegotiation
    TlsUpstreamServerName := p.TLSUpstreamServerName }

/-- In `ToProto`, the name: `if pb.Name == "" { pb.Name = fmt.Sprint(p.RouteID()) }`. -/
def Policy.setName {σ : Type} (E : Env) (D : Digest σ) (p : Policy) (pb : Route) : Route :=
  if pb.Name = "" then { pb with Name := sprintRouteID E (p.RouteID D) } else pb

/-- In `ToProto`, the optional strings: each `if p.X != "" { pb.X = proto.String(p.X) }`
assigns `pb.X` when `p.X` is not empty and leaves it as it is otherwise. -/
def Policy.setOptionalStrings (p : Policy) (pb : Route) : Route :=
  { pb with
    HostPathRegexRewritePattern :=
      if p.HostPathRegexRewritePattern ≠ "" then some p.HostPathRegexRewritePattern
      else pb.HostPathRegexRewritePattern
    HostPathRegexRewriteSubstitution :=
      if p.HostPathRegexRewriteSubstitution ≠ "" then some p.HostPathRegexRewriteSubstitution
      else pb.HostPathRegexRewriteSubstitution
    HostRewrite := if p.HostRewrite ≠ "" then some p.HostRewrite else pb.HostRewrite
    HostRewriteHeader :=
      if p.HostRewriteHeader ≠ "" then some p.HostRewriteHeader else pb.HostRewriteHeader
    IdpClientId := if p.IDPClientID ≠ "" then some p.IDPClientID else pb.IdpClientId
    IdpClientSecret := if p.IDPClientSecret ≠ "" then some p.IDPClientSecret else pb.IdpClientSecret }

/-- In `ToProto`, the allowed audiences: a clone of the values when present. -/
def Policy.setAudiences (p : Policy) (pb : Route) : Route :=
  match p.IDPAccessTokenAllowedAudiences with
  | some values => { pb with IdpAccessTokenAllowedAudiences := some values }
  | none => { pb with IdpAccessTokenAllowedAudiences := none }

/-- In `ToProto`, the action: the redirect when there is one, else the response when there
is one, else the flattened destinations; the error of `Flatten` is returned. -/
def Policy.setAction (E : Env) (p : Policy) (pb : Route) : Except Error Route :=
  match p.Redirect with
  | some redirect =>
    .ok { pb with
      Redirect := some
        { HttpsRedirect := redirect.HTTPSRedirect
          SchemeRedirect := redirect.SchemeRedirect
          HostRedirect := redirect.HostRedirect
          PortRedirect := redirect.PortRedirect
          PathRedirect := redirect.PathRedirect
          PrefixRewrite := redirect.PrefixRewrite
          ResponseCode := redirect.ResponseCode
          StripQuery := redirect.StripQuery } }
  | none =>
    match p.Response with
    | some response =>
      .ok { pb with Response := some { Status := toUint32 response.Status, Body := response.Body } }
    | none =>
      match E.Flatten p.To with
      | .error err => .error err
      | .ok flat => .ok { pb with To := flat.1, LoadBalancingWeights := flat.2 }

/-- In `ToProto`, the end: bearer token format and response header rewrites. -/
def Policy.setTrailer (E : Env) (p : Policy) (pb : Route) : Route :=
  let pb : Route := { pb with BearerTokenFormat := E.BearerTokenFormatToPB p.BearerTokenFormat }
  let rwhs : List RouteRewriteHeader := p.RewriteResponseHeaders.map fun rwh =>
    { Header := rwh.Header, Prefix := rwh.Prefix, Value := rwh.Value }
  { pb with RewriteResponseHeaders := pb.RewriteResponseHeaders ++ rwhs }

/-- Go's `Policy.ToProto`: the policy as a protobuf route, block by block in the order of the
source. -/
def Policy.ToProto {σ : Type} (E : Env) (D : Digest σ) (p : Policy) : Except Error Route :=
  match p.setAction E (p.setAudiences (p.setOptionalStrings (p.setName E D (p.routeLiteral E)))) with
  | .error err => .error err
  | .ok pb => .ok (p.setTrailer E pb)

/-! ## Validation -/

/-- Envoy's `RedirectAction_RedirectResponseCode`; its zero value is
`MOVED_PERMANENTLY`. -/
inductive RedirectResponseCode where
  | MOVED_PERMANENTLY
  | FOUND
  | SEE_OTHER
  | TEMPORARY_REDIRECT
  | PERMANENT_REDIRECT
deriving DecidableEq, Repr

/-- Go's `PolicyRedirect.GetEnvoyResponseCode`, on a possibly nil redirect. -/
def PolicyRedirect.GetEnvoyResponseCode (r : Option PolicyRedirect) :
    Except Error RedirectResponseCode :=
  match r.bind (·.ResponseCode) with
  | none => .ok .MOVED_PERMANENTLY
  | some code =>
    if code = 301 then .ok .MOVED_PERMANENTLY
    else if code = 302 then .ok .FOUND
    else if code = 303 then .ok .SEE_OTHER
    else if code = 307 then .ok .TEMPORARY_REDIRECT
    else if code = 308 then .ok .PERMANENT_REDIRECT
    else .error (.unsupportedRedirectCode code)

/-- Go's `PolicyRedirect.validate`, on a possibly nil redirect. -/
def PolicyRedirect.validate (r : Option PolicyRedirect) : Option Error :=
  match r with
  | none => none
  | some _ =>
    match PolicyRedirect.GetEnvoyResponseCode r with
    | .error err => some err
    | .ok _ => none

/-- Go's `strings.HasPrefix`. -/
def hasPrefix (s pre : String) : Bool := pre.data.isPrefixOf s.data

/-- Go's `strings.HasSuffix`. -/
def hasSuffix (s suf : String) : Bool := suf.data.isSuffixOf s.data

/-- Go's `strings.Contains(s, "/")`. -/
def containsSlash (s : String) : Bool := s.data.contains '/'

/-- The loop of `Validate` over `DependsOn`: entries with a `/` are replaced by the
host of their URL; the first one that cannot be stops the loop, the entries before it
already replaced. -/
def validateDependsOn (E : Env) : List String → List String × Option Error
  | [] => ([], none)
  | v :: rest =>
    if containsSlash v then
      match E.urlParse v with
      | .ok u =>
        if u.Scheme ≠ "" ∧ u.Host ≠ "" then
          ((u.Host :: (validateDependsOn E rest).1), (validateDependsOn E rest).2)
        else (v :: rest, some (.unsupportedDependsOn v))
      | .error _ => (v :: rest, some (.unsupportedDependsOn v))
    else ((v :: (validateDependsOn E rest).1), (validateDependsOn E rest).2)

/-- The anchored form of a route regex that `Validate` compiles. -/
def anchoredRegex (regex : String) : String :=
  let rawRE := regex
  let rawRE := if ¬ hasPrefix rawRE "^" then "^" ++ rawRE else rawRE
  let rawRE := if ¬ hasSuffix rawRE "$" then rawRE ++ "$" else rawRE
  rawRE

/-- One block of `Validate`: the policy as the block leaves it, and the error with which
it makes `Validate` return (`none` when `Validate` goes on). -/
abbrev Check := Policy → Policy × Option Error

/-- Run the blocks of `Validate` in order, up to the first one that returns an error. -/
def runChecks : List Check → Policy → Policy × Option Error
  | [], p => (p, none)
  | check :: rest, p =>
    match (check p).2 with
    | some err => ((check p).1, some err)
    | none => runChecks rest (check p).1

/-- In `Validate`, the source URL: it has to parse, and an http or https source has no
path other than the empty one and `/`. -/
def validateSource (E : Env) : Check := fun p =>
  match E.ParseAndValidateURL p.From with
  | .error err => (p, some (.badSourceURL err))
  | .ok source =>
    if (source.Scheme = "http" ∨ source.Scheme = "https") ∧
        ¬ (source.Path = "" ∨ source.Path = "/") then
      (p, some (.sourceURLHasPath (E.URLString source)))
    else (p, none)

/-- In `Validate`, the action:
`len(p.To) == 0 && p.Redirect == nil && p.Response == nil` is an error. -/
def validateAction : Check := fun p =>
  if p.To.length = 0 ∧ p.Redirect = none ∧ p.Response = none then
    (p, some .eitherToOrRedirectOrResponseRequired)
  else (p, none)

/-- In `Validate`, the destinations: each one is validated, in order, and its scheme
collected in the set `toSchemes`; tcp and udp do not mix with another scheme. -/
def validateTo (E : Env) : Check := fun p =>
  match p.To.findSome? (fun u =>
      (E.WeightedURLValidate u).map (Error.invalidTo (E.URLString u.URL))) with
  | some err => (p, some err)
  | none =>
    let toSchemes : List String := (p.To.map (·.URL.Scheme)).dedup
    if "tcp" ∈ toSchemes ∧ toSchemes.length > 1 then (p, some .mixTCP)
    else if "udp" ∈ toSchemes ∧ toSchemes.length > 1 then (p, some .mixUDP)
    else (p, none)

/-- In `Validate`, the redirect: `p.Redirect.validate()`. -/
def validateRedirect : Check := fun p =>
  match PolicyRedirect.validate p.Redirect with
  | some err => (p, some (.redirectInvalid err))
  | none => (p, none)

/-- In `Validate`, the allowlists: public access and access for any authenticated user
exclude the user and domain allowlists. -/
def validateAllowlists : Check := fun p =>
  if p.AllowPublicUnauthenticatedAccess ∧
      (p.AllowAnyAuthenticatedUser ∨ p.AllowedDomains ≠ none ∨ p.AllowedUsers ≠ none) then
    (p, some .publicWithWhitelists)
  else if p.AllowAnyAuthenticatedUser ∧ (p.AllowedDomains ≠ none ∨ p.AllowedUsers ≠ none) then
    (p, some .anyAuthenticatedWithWhitelists)
  else (p, none)

/-- In `Validate`, the client certificate: key and certificate come together, and are
loaded into `ClientCertificate` (which is assigned also when loading fails). -/
def validateClientCertificate (E : Env) : Check := fun p =>
  if (p.TLSClientCert = "" ∧ p.TLSClientKey ≠ "") ∨ (p.TLSClientCert ≠ "" ∧ p.TLSClientKey = "") ∨
      (p.TLSClientCertFile = "" ∧ p.TLSClientKeyFile ≠ "") ∨
      (p.TLSClientCertFile ≠ "" ∧ p.TLSClientKeyFile = "") then
    (p, some .clientCertIncomplete)
  else if p.TLSClientCert ≠ "" ∧ p.TLSClientKey ≠ "" then
    let r := E.CertificateFromBase64 p.TLSClientCert p.TLSClientKey
    ({ p with ClientCertificate := r.1 }, r.2.map Error.clientCertDecode)
  else if p.TLSClientCertFile ≠ "" ∧ p.TLSClientKeyFile ≠ "" then
    let r := E.CertificateFromFile p.TLSClientCertFile p.TLSClientKeyFile
    ({ p with ClientCertificate := r.1 }, r.2.map Error.clientCertLoad)
  else (p, none)

/-- In `Validate`, the custom CA: an inline one has to decode, otherwise a file is read
and stored inline. -/
def validateCustomCA (E : Env) : Check := fun p =>
  if p.TLSCustomCA ≠ "" then
    match E.base64Decode p.TLSCustomCA with
    | .error err => (p, some (.customCADecode err))
    | .ok _ => (p, none)
  else if p.TLSCustomCAFile ≠ "" then
    match E.ReadFile p.TLSCustomCAFile with
    | .error err => (p, some (.customCALoad err))
    | .ok ca => ({ p with TLSCustomCA := E.base64Encode ca }, none)
  else (p, none)

/-- In `Validate`, the inline downstream client CA: it has to decode. -/
def validateDownstreamClientCA (E : Env) : Check := fun p =>
  if p.TLSDownstreamClientCA ≠ "" then
    match E.base64Decode p.TLSDownstreamClientCA with
    | .error err => (p, some (.downstreamClientCADecode err))
    | .ok _ => (p, none)
  else (p, none)

/-- In `Validate`, the downstream client CA file: it is read and stored inline. -/
def validateDownstreamClientCAFile (E : Env) : Check := fun p =>
  if p.TLSDownstreamClientCAFile ≠ "" then
    match E.ReadFile p.TLSDownstreamClientCAFile with
    | .error err => (p, some (.downstreamClientCALoad err))
    | .ok bs => ({ p with TLSDownstreamClientCA := E.base64Encode bs }, none)
  else (p, none)

/-- In `Validate`, the Kubernetes token: not both the token and its file. -/
def validateKubernetesToken : Check := fun p =>
  if p.KubernetesServiceAccountTokenFile ≠ "" ∧ p.KubernetesServiceAccountToken ≠ "" then
    (p, some .bothKubernetesTokens)
  else (p, none)

/-- In `Validate`, the rewrites: not both a prefix rewrite and a regex rewrite pattern. -/
def validateRewrite : Check := fun p =>
  if p.PrefixRewrite ≠ "" ∧ p.RegexRewritePattern ≠ "" then (p, some .bothRewrites)
  else (p, none)

/-- In `Validate`, the regex: `p.compiledRegex, _ = regexp.Compile(rawRE)` on the anchored
regex; the error of `Compile` is dropped. -/
def validateRegex (E : Env) : Check := fun p =>
  if p.Regex ≠ "" then
    ({ p with compiledRegex := E.regexpCompile (anchoredRegex p.Regex) }, none)
  else (p, none)

/-- In `Validate`, the JWT issuer format. -/
def validateJWTIssuerFormat (E : Env) : Check := fun p =>
  if ¬ E.JWTIssuerFormatValid p.JWTIssuerFormat then
    (p, some (.unsupportedJWTIssuerFormat p.JWTIssuerFormat))
  else (p, none)

/-- In `Validate`, the dependencies: at most five, each with a `/` replaced by its host. -/
def validateDependencies (E : Env) : Check := fun p =>
  if p.DependsOn.length > 5 then (p, some (.tooManyDependsOn p.DependsOn))
  else
    ({ p with DependsOn := (validateDependsOn E p.DependsOn).1 },
      (validateDependsOn E p.DependsOn).2)

/-- In `Validate`, the MCP block: `p.MCP != nil && p.MCP.Server == nil && p.MCP.Client == nil`
is an error. -/
def validateMCP : Check := fun p =>
  if p.MCP.isSome ∧ (p.MCP.bind (·.Server)).isNone ∧ (p.MCP.bind (·.Client)).isNone then
    (p, some .mcpNeitherServerNorClient)
  else (p, none)

/-- Go's `Policy.Validate`, block by block in the order of the source: the policy as the call
leaves it, and the error it returns (`none` for `nil`).  Log messages are not modelled. -/
def Policy.Validate (E : Env) (p : Policy) : Policy × Option Error :=
  runChecks
    [validateSource E, validateAction, validateTo E, validateRedirect, validateAllowlists,
     validateClientCertificate E, validateCustomCA E, validateDownstreamClientCA E,
     validateDownstreamClientCAFile E, validateKubernetesToken, validateRewrite,
     validateRegex E, validateJWTIssuerFormat E, validateDependencies E, validateMCP] p

/-! ## The ordering and the hash input as the specification words them -/

/-- The order `DESC NULLS LAST` on an optional integer: a set value before an unset one, the
larger of two set values first. -/
def descNullsLast : Option Int → Option Int → Bool
  | some x, some y => decide (y < x)
  | some _, none => true
  | none, _ => false

/-- The ordering `ORDER BY from ASC, path DESC NULLS LAST, regex_priority_order DESC
NULLS LAST, regex DESC NULLS LAST, prefix DESC NULLS LAST, id ASC`: whether `a` sorts
strictly before `b`.  An empty string is the null of a string column. -/
def orderByLess (a b : Policy) : Bool :=
  stringLess a.From b.From || (a.From == b.From &&
    (stringLess b.Path a.Path || (a.Path == b.Path &&
      (descNullsLast a.RegexPriorityOrder b.RegexPriorityOrder ||
        (a.RegexPriorityOrder == b.RegexPriorityOrder &&
          (stringLess b.Regex a.Regex || (a.Regex == b.Regex &&
            (stringLess b.Prefix a.Prefix || (a.Prefix == b.Prefix &&
              stringLess a.ID b.ID)))))))))

/-- Two policies have the same sort key: they agree on the six fields of the ordering. -/
def sameSortKey (a b : Policy) : Bool :=
  a.From == b.From && a.Path == b.Path && a.RegexPriorityOrder == b.RegexPriorityOrder &&
    a.Regex == b.Regex && a.Prefix == b.Prefix && a.ID == b.ID

/-- The hash input of one destination, in the order of the specification: scheme,
opaque, userinfo presence byte (with user name and password), host, path, raw path,
omit-host, force-query, fragment, raw fragment, weight. -/
def destinationInput (dst : WeightedURL) : List DigestWrite :=
  [.WriteStringWithLen dst.URL.Scheme, .WriteStringWithLen dst.URL.Opaque] ++
  (match dst.URL.User with
   | none => [.Write [0]]
   | some user =>
     [.Write [1], .WriteStringWithLen user.username, .WriteStringWithLen user.password]) ++
  [.WriteStringWithLen dst.URL.Host, .WriteStringWithLen dst.URL.Path,
   .WriteStringWithLen dst.URL.RawPath, .WriteBool dst.URL.OmitHost,
   .WriteBool dst.URL.ForceQuery, .WriteStringWithLen dst.URL.Fragment,
   .WriteStringWithLen dst.URL.RawFragment, .WriteUint32 dst.LbWeight]

/-- The discriminant byte and the payload of the action branch, in the words of the
specification: `0x01` and the destinations when `To` is non-empty, otherwise `0x02` and
the eight optional redirect fields, otherwise `0x03`, the status and the body; nothing
when no action is set. -/
def branchInput (p : Policy) : Option (List DigestWrite) :=
  if p.To ≠ [] then
    some ([.Write [1], .WriteInt32 (toInt32 p.To.length)] ++ (p.To.map destinationInput).flatten)
  else
    match p.Redirect, p.Response with
    | some redirect, _ =>
      some [.Write [2], .WriteBoolPtr redirect.HTTPSRedirect,
        .WriteStringPtrWithLen redirect.SchemeRedirect, .WriteStringPtrWithLen redirect.HostRedirect,
        .WriteUint32Ptr redirect.PortRedirect, .WriteStringPtrWithLen redirect.PathRedirect,
        .WriteStringPtrWithLen redirect.PrefixRewrite, .WriteInt32Ptr redirect.ResponseCode,
        .WriteBoolPtr redirect.StripQuery]
    | none, some response =>
      some [.Write [3], .WriteInt32 (toInt32 response.Status), .WriteStringWithLen response.Body]
    | none, none => none

/-- The whole hash input of a policy: the four length-prefixed match fields, then the
action branch. -/
def hashInput (p : Policy) : Option (List DigestWrite) :=
  (branchInput p).map fun branch =>
    [.WriteStringWithLen p.From, .WriteStringWithLen p.Prefix, .WriteStringWithLen p.Path,
     .WriteStringWithLen p.Regex] ++ branch

/-- The digest state after a sequence of calls on a fresh digest. -/
def Digest.run {σ : Type} (D : Digest σ) (calls : List DigestWrite) : σ :=
  calls.foldl D.call D.NewDigest

/-! ## A concrete digest and a concrete environment, to evaluate the definitions -/

/-- Four little-endian bytes of a 32-bit number. -/
def le32 (n : Nat) : List Nat :=
  [n % 256, n / 256 % 256, n / 65536 % 256, n / 16777216 % 256]

/-- The bytes of one digest call in a plain encoding: strings as their length and
their characters, numbers as four bytes, Booleans as one byte, pointers as a presence
byte and the value. -/
def plainBytes : DigestWrite → List Nat
  | .Write bytes => bytes
  | .WriteStringWithLen s => le32 s.data.length ++ s.data.map Char.toNat
  | .WriteInt32 v => le32 (toUint32 v)
  | .WriteUint32 v => le32 v
  | .WriteBool b => [if b then 1 else 0]
  | .WriteBoolPtr none => [0]
  | .WriteBoolPtr (some b) => [1, if b then 1 else 0]
  | .WriteStringPtrWithLen none => [0]
  | .WriteStringPtrWithLen (some s) => 1 :: (le32 s.data.length ++ s.data.map Char.toNat)
  | .WriteUint32Ptr none => [0]
  | .WriteUint32Ptr (some v) => 1 :: le32 v
  | .WriteInt32Ptr none => [0]
  | .WriteInt32Ptr (some v) => 1 :: le32 (toUint32 v)

/-- The hexadecimal digit of a number below sixteen. -/
def hexDigit (n : Nat) : Char :=
  if n < 10 then Char.ofNat (48 + n) else Char.ofNat (87 + n)

/-- The `hex.EncodeToString` of a list of bytes. -/
def hexEncode (bytes : List Nat) : String :=
  String.mk (bytes.flatMap fun b => [hexDigit (b / 16 % 16), hexDigit (b % 16)])

/-- A digest that keeps every byte it is given: its sum is its whole input.  It tells
any two different inputs apart. -/
def plainDigest : Digest (List Nat) where
  NewDigest := []
  call := fun bytes w => bytes ++ plainBytes w
  SumHex := hexEncode

/-- Split `scheme://rest` at the first `://`. -/
def splitScheme : List Char → Option (List Char × List Char)
  | [] => none
  | c :: rest =>
    match c, rest with
    | ':', '/' :: '/' :: tail => some ([], tail)
    | _, _ => (splitScheme rest).map fun r => (c :: r.1, r.2)

/-- A small URL parser: `scheme://host` followed by an optional path that starts at the
first `/`; scheme and host have to be non-empty. -/
def parseSimpleURL (s : String) : Except Error URL :=
  match splitScheme s.data with
  | none => .error (.external "missing scheme")
  | some (scheme, rest) =>
    let host := rest.takeWhile (· ≠ '/')
    let path := rest.dropWhile (· ≠ '/')
    if scheme = [] ∨ host = [] then .error (.external "missing scheme or host")
    else .ok { Scheme := String.mk scheme, Host := String.mk host, Path := String.mk path }

/-- The parsed URLs of a list of strings, or the first error. -/
def parseSimpleURLs : List String → Except Error (List WeightedURL)
  | [] => .ok []
  | s :: rest =>
    match parseSimpleURL s, parseSimpleURLs rest with
    | .error err, _ => .error err
    | _, .error err => .error err
    | .ok u, .ok us => .ok ({ URL := u } :: us)

/-- A small concrete environment: thirty seconds of default timeout, the small URL
parser, a redirect that is set when one of its fields is, a file system without files. -/
def simpleEnv : Env where
  DefaultUpstreamTimeout := 30000000000
  durationpbNew := fun d => { Seconds := d.tdiv 1000000000, Nanos := d.tmod 1000000000 }
  AsDuration := fun x => x.Seconds * 1000000000 + x.Nanos
  errorText := fun _ => "error"
  URLString := fun u => u.Scheme ++ "://" ++ u.Host ++ u.Path
  urlParse := parseSimpleURL
  ParseAndValidateURL := parseSimpleURL
  ParseWeightedUrls := fun urls =>
    if urls = [] then ([], some .emptyUrls)
    else
      match parseSimpleURLs urls with
      | .ok us => (us, none)
      | .error err => ([], some err)
  Flatten := fun urls =>
    if urls = [] then .error .emptyUrls
    else .ok (urls.map (fun u => u.URL.Scheme ++ "://" ++ u.URL.Host ++ u.URL.Path),
      urls.map (·.LbWeight))
  WeightedURLValidate := fun u => if u.URL.Host = "" then some (.external "missing host") else none
  RedirectIsSet := fun r =>
    match r with
    | none => false
    | some r =>
      r.StripQuery.isSome || r.ResponseCode.isSome || r.PrefixRewrite.isSome ||
        r.PathRedirect.isSome || r.PortRedirect.isSome || r.HostRedirect.isSome ||
        r.SchemeRedirect.isSome || r.HttpsRedirect.isSome
  NewFlattenedClaimsFromPB := fun _ => []
  FlattenedClaimsToPB := fun _ => {}
  CircuitBreakerThresholdsFromPB := fun t => t
  CircuitBreakerThresholdsToPB := fun t => t
  NewJWTGroupsFilter := fun f => f
  JWTGroupsFilterToSlice := fun f => f
  JWTIssuerFormatFromPB := fun f => (f.map (·.content)).getD ""
  JWTIssuerFormatToPB := fun f => if f = "" then none else some { content := f }
  JWTIssuerFormatValid := fun f => f = "" ∨ f = "hostOnly" ∨ f = "uri"
  MCPFromPB := fun _ => none
  MCPToPB := fun _ => none
  BearerTokenFormatFromPB := fun f => f.map (·.content)
  BearerTokenFormatToPB := fun f => f.map fun c => { content := c }
  CertificateFromBase64 := fun cert _ => (some { content := cert }, none)
  CertificateFromFile := fun _ _ => (none, some (.external "no such file"))
  base64Decode := fun s => .ok (s.data.map Char.toNat)
  base64Encode := fun bytes => String.mk (bytes.map Char.ofNat)
  ReadFile := fun _ => .error (.external "no such file")
  regexpCompile := fun s => some { content := s }
  regexpMatchString := fun _ _ => false
  FromURLMatchesRequestURL := fun a b _ => a.Host = b.Host

/-- A route to one upstream. -/
def routeA : Policy :=
  { From := "https://a.example.com", To := [{ URL := { Scheme := "https", Host := "backend" } }] }

/-- A route with the same match fields as `routeA` and another upstream. -/
def routeB : Policy :=
  { From := "https://a.example.com", To := [{ URL := { Scheme := "https", Host := "other" } }] }

/-- A route that carries both an upstream and a redirect. -/
def routeToAndRedirect : Policy :=
  { From := "https://a.example.com", To := [{ URL := { Scheme := "https", Host := "backend" } }],
    Redirect := some { HostRedirect := some "elsewhere.example.com" } }

/-- A route with a path and regex priority 2. -/
def routePriorityTwo : Policy :=
  { From := "https://a.example.com", Path := "/x", RegexPriorityOrder := some 2 }

/-- The same match fields with regex priority 1. -/
def routePriorityOne : Policy :=
  { From := "https://a.example.com", Path := "/x", RegexPriorityOrder := some 1 }

/-- The same match fields without a regex priority. -/
def routeNoPriority : Policy :=
  { From := "https://a.example.com", Path := "/x" }

/-- The route `routeA` with other descriptive and behavioural fields. -/
def routeADescribed : Policy :=
  { routeA with
    Name := "a", Description := "the a route", SetRequestHeaders := [("X-Route", "a")],
    UpstreamTimeout := some 5000000000, AllowedUsers := some ["alice@example.com"],
    TLSSkipVerify := true,
    SubPolicies := [{ ID := "sub", AllowedDomains := some ["example.com"] }] }

/-- A policy with an ID and no action at all. -/
def routeNamedOnly : Policy := { ID := "my-route", From := "https://a.example.com" }

/-- A route to an upstream with user information and a weight. -/
def routeWithUser : Policy :=
  { From := "https://a.example.com", Prefix := "/api",
    To := [{ URL := { Scheme := "https", Host := "backend", Path := "/v1",
                      User := some { username := "u", password := "p", passwordSet := true } },
             LbWeight := 3 }],
    Redirect := some { HostRedirect := some "elsewhere.example.com" } }

/-- The hash input expected for `routeWithUser`: its destination, not its redirect. -/
def routeWithUserInput : List DigestWrite :=
  [.WriteStringWithLen "https://a.example.com", .WriteStringWithLen "/api",
   .WriteStringWithLen "", .WriteStringWithLen "", .Write [1], .WriteInt32 1,
   .WriteStringWithLen "https", .WriteStringWithLen "", .Write [1], .WriteStringWithLen "u",
   .WriteStringWithLen "p", .WriteStringWithLen "backend", .WriteStringWithLen "/v1",
   .WriteStringWithLen "", .WriteBool false, .WriteBool false, .WriteStringWithLen "",
   .WriteStringWithLen "", .WriteUint32 3]

/-! ## The identity fields on each side of the wire -/

/-- The fields of a wire route that carry the identity of a policy and its timeout. -/
structure RouteCore where
  Id : String
  From : String
  Prefix : String
  Path : String
  Regex : String
  Timeout : Option PBDuration
  Redirect : Option RouteRedirect
  Response : Option RouteDirectResponse
  To : List String
  LoadBalancingWeights : List Nat

/-- The identity fields and the timeout of a wire route. -/
def Route.core (pb : Route) : RouteCore :=
  { Id := pb.Id, From := pb.From, Prefix := pb.Prefix, Path := pb.Path, Regex := pb.Regex,
    Timeout := pb.Timeout, Redirect := pb.Redirect, Response := pb.Response, To := pb.To,
    LoadBalancingWeights := pb.LoadBalancingWeights }

/-- The redirect of a policy on the wire. -/
def PolicyRedirect.toWire (redirect : PolicyRedirect) : RouteRedirect :=
  { HttpsRedirect := redirect.HTTPSRedirect
    SchemeRedirect := redirect.SchemeRedirect
    HostRedirect := redirect.HostRedirect
    PortRedirect := redirect.PortRedirect
    PathRedirect := redirect.PathRedirect
    PrefixRewrite := redirect.PrefixRewrite
    ResponseCode := redirect.ResponseCode
    StripQuery := redirect.StripQuery }

/-- The core of the struct literal of `ToProto`. -/
def Policy.literalCore (E : Env) (p : Policy) : RouteCore :=
  { Id := p.ID, From := p.From, Prefix := p.Prefix, Path := p.Path, Regex := p.Regex,
    Timeout := some (E.durationpbNew (p.UpstreamTimeout.getD E.DefaultUpstreamTimeout)),
    Redirect := none, Response := none, To := [], LoadBalancingWeights := [] }

/-- The fields of a policy that carry its identity, and its upstream timeout. -/
structure PolicyCore where
  ID : String
  From : String
  Prefix : String
  Path : String
  Regex : String
  UpstreamTimeout : Option Int
  To : List WeightedURL
  Redirect : Option PolicyRedirect
  Response : Option DirectResponse

/-- The identity fields and the timeout of a policy. -/
def Policy.core (p : Policy) : PolicyCore :=
  { ID := p.ID, From := p.From, Prefix := p.Prefix, Path := p.Path, Regex := p.Regex,
    UpstreamTimeout := p.UpstreamTimeout, To := p.To, Redirect := p.Redirect,
    Response := p.Response }

/-- The core of the struct literal of `NewPolicyFromProto`. -/
def Route.literalCore (E : Env) (pb : Route) : PolicyCore :=
  { ID := pb.Id, From := pb.From, Prefix := pb.Prefix, Path := pb.Path, Regex := pb.Regex,
    UpstreamTimeout := pb.Timeout.map E.AsDuration, To := [], Redirect := none,
    Response := none }

/-- The redirect of a wire route as a policy redirect. -/
def RouteRedirect.fromWire (redirect : Option RouteRedirect) : PolicyRedirect :=
  { HTTPSRedirect := redirect.bind (·.HttpsRedirect)
    SchemeRedirect := redirect.bind (·.SchemeRedirect)
    HostRedirect := redirect.bind (·.HostRedirect)
    PortRedirect := redirect.bind (·.PortRedirect)
    PathRedirect := redirect.bind (·.PathRedirect)
    PrefixRewrite := redirect.bind (·.PrefixRewrite)
    ResponseCode := redirect.bind (·.ResponseCode)
    StripQuery := redirect.bind (·.StripQuery) }

/-- The wire form of a policy and the policy read back from it. -/
def roundTrip {σ : Type} (E : Env) (D : Digest σ) (p : Policy) : Except Error Policy :=
  match p.ToProto E D with
  | .error err => .error err
  | .ok pb => NewPolicyFromProto E pb

/-- The wire form of a policy that has one (an empty route otherwise). -/
def wireOf {σ : Type} (E : Env) (D : Digest σ) (p : Policy) : Route :=
  match p.ToProto E D with
  | .ok pb => pb
  | .error _ => {}

/-- The policy read from a wire route when there is one (an empty policy otherwise). -/
def readBack (E : Env) (pb : Route) : Policy :=
  match NewPolicyFromProto E pb with
  | .ok p => p
  | .error _ => {}

/-- A policy without any action. -/
def routeNoAction : Policy := { From := "https://a.example.com" }

/-- A route that carries an upstream, a redirect and a response. -/
def routeAllActions : Policy :=
  { From := "https://a.example.com", To := [{ URL := { Scheme := "https", Host := "backend" } }],
    Redirect := some { HostRedirect := some "elsewhere.example.com" },
    Response := some { Status := 200, Body := "ok" } }

/-! ## Orders as Boolean relations -/

/-- A strict total order, as a Boolean relation. -/
structure StrictTotal {κ : Type} (val : κ → κ → Bool) : Prop where
  irrefl : ∀ x, val x x = false
  trans : ∀ x y z, val x y = true → val y z = true → val x z = true
  total : ∀ x y, x ≠ y → val x y = true ∨ val y x = true

/-- A strict weak order, as a Boolean relation: irreflexive, transitive, and being
unordered is transitive too. -/
structure StrictWeak {α : Type} (lt : α → α → Bool) : Prop where
  irrefl : ∀ a, lt a a = false
  trans : ∀ a b c, lt a b = true → lt b c = true → lt a c = true
  negTrans : ∀ a b c, lt a b = false → lt b c = false → lt a c = false

/-- The class of the elements that `less` leaves unordered with `k`. -/
def unordered {α : Type} (less : α → α → Bool) (k x : α) : Bool := !less k x && !less x k

/-- The fields of a policy that `Validate` reads and never assigns. -/
structure PolicyFrame where
  From : String
  To : List WeightedURL
  Redirect : Option PolicyRedirect
  Response : Option DirectResponse
  AllowPublicUnauthenticatedAccess : Bool
  AllowAnyAuthenticatedUser : Bool
  AllowedDomains : Option (List String)
  AllowedUsers : Option (List String)
  AllowedIDPClaims : List (String × List String)
  TLSClientCert : String
  TLSClientKey : String
  TLSClientCertFile : String
  TLSClientKeyFile : String
  TLSCustomCAFile : String
  TLSDownstreamClientCAFile : String
  KubernetesServiceAccountToken : String
  KubernetesServiceAccountTokenFile : String
  PrefixRewrite : String
  RegexRewritePattern : String
  Regex : String
  JWTIssuerFormat : String
  UpstreamTimeout : Option Int
  MCP : Option MCP

/-- The frame of a policy. -/
def Policy.frame (p : Policy) : PolicyFrame :=
  { From := p.From, To := p.To, Redirect := p.Redirect, Response := p.Response,
    AllowPublicUnauthenticatedAccess := p.AllowPublicUnauthenticatedAccess,
    AllowAnyAuthenticatedUser := p.AllowAnyAuthenticatedUser,
    AllowedDomains := p.AllowedDomains, AllowedUsers := p.AllowedUsers,
    AllowedIDPClaims := p.AllowedIDPClaims,
    TLSClientCert := p.TLSClientCert, TLSClientKey := p.TLSClientKey,
    TLSClientCertFile := p.TLSClientCertFile, TLSClientKeyFile := p.TLSClientKeyFile,
    TLSCustomCAFile := p.TLSCustomCAFile,
    TLSDownstreamClientCAFile := p.TLSDownstreamClientCAFile,
    KubernetesServiceAccountToken := p.KubernetesServiceAccountToken,
    KubernetesServiceAccountTokenFile := p.KubernetesServiceAccountTokenFile,
    PrefixRewrite := p.PrefixRewrite, RegexRewritePattern := p.RegexRewritePattern,
    Regex := p.Regex, JWTIssuerFormat := p.JWTIssuerFormat,
    UpstreamTimeout := p.UpstreamTimeout, MCP := p.MCP }

/-- The blocks of `Validate`, in order. -/
def validateChecks (E : Env) : List Check :=
  [validateSource E, validateAction, validateTo E, validateRedirect, validateAllowlists,
   validateClientCertificate E, validateCustomCA E, validateDownstreamClientCA E,
   validateDownstreamClientCAFile E, validateKubernetesToken, validateRewrite,
   validateRegex E, validateJWTIssuerFormat E, validateDependencies E, validateMCP]


/-- What the loop of `Validate` over `DependsOn` makes of one entry, in the words of the
specification: an entry without a `/` is kept; an entry with a `/` that parses as a URL
with a scheme and a host is replaced by that host. -/
def dependsOnEntry (E : Env) (v w : String) : Prop :=
  (containsSlash v = false ∧ w = v) ∨
  (containsSlash v = true ∧ ∃ u, E.urlParse v = .ok u ∧ u.Scheme ≠ "" ∧ u.Host ≠ "" ∧ w = u.Host)

/-- The nullable fields of a wire route, but for the audiences, which a block of their
own assigns. -/
def Route.nullable (pb : Route) : Option PBDuration × Option Bool × Option Int :=
  (pb.IdleTimeout, pb.PassIdentityHeaders, pb.RegexPriorityOrder)

/-- The nullable fields of a policy, but for the audiences. -/
def Policy.nullable (p : Policy) : Option Int × Option Bool × Option Int :=
  (p.IdleTimeout, p.PassIdentityHeaders, p.RegexPriorityOrder)

/-! ## Example routes of the validation and wire claims -/

/-- A wire route whose only upstream is not a URL. -/
def wireBadTo : Route :=
  { From := "https://a.example.com", To := ["not a url"] }

/-- A wire route without upstreams. -/
def wireNoTo : Route :=
  { From := "https://a.example.com" }

/-- The route `routeA` with every nullable field set to its zero value. -/
def routeZeroNullables : Policy :=
  { routeA with
    IdleTimeout := some 0, PassIdentityHeaders := some false, RegexPriorityOrder := some 0,
    IDPAccessTokenAllowedAudiences := some [] }

/-- The route `routeA` with an idle timeout of a second and a half in the past. -/
def routeNegativeIdle : Policy :=
  { routeA with IdleTimeout := some (-1500000000) }

/-- The route `routeA` with a path in its source URL. -/
def routeSourcePath : Policy :=
  { routeA with From := "https://app.example.com/foo" }

/-- A TCP route with a path in its source URL. -/
def routeTCPSourcePath : Policy :=
  { From := "tcp://a.example.com/foo", To := [{ URL := { Scheme := "tcp", Host := "backend:22" } }] }

/-- A route to an HTTPS upstream and a TCP upstream. -/
def routeMixedTCP : Policy :=
  { From := "https://a.example.com",
    To := [{ URL := { Scheme := "https", Host := "x" } },
           { URL := { Scheme := "tcp", Host := "y:22" } }] }

/-- A route to a UDP upstream and an HTTPS upstream. -/
def routeMixedUDP : Policy :=
  { From := "https://a.example.com",
    To := [{ URL := { Scheme := "udp", Host := "y:53" } },
           { URL := { Scheme := "https", Host := "x" } }] }

/-- A redirect with response code 418. -/
def routeRedirectTeapot : Policy :=
  { From := "https://a.example.com",
    Redirect := some { HostRedirect := some "elsewhere.example.com", ResponseCode := some 418 } }

/-- A public route with a list of allowed users. -/
def routePublicUsers : Policy :=
  { routeA with AllowPublicUnauthenticatedAccess := true,
                AllowedUsers := some ["alice@example.com"] }

/-- A public route without allowlists. -/
def routePublic : Policy :=
  { routeA with AllowPublicUnauthenticatedAccess := true }

/-- A public route with a non-empty set of allowed identity-provider claims. -/
def routePublicClaims : Policy :=
  { routeA with AllowPublicUnauthenticatedAccess := true,
                AllowedIDPClaims := [("groups", ["admin"])] }

/-- Whether the parentheses of a pattern are balanced, given the number of open ones. -/
def balancedParens : List Char → Nat → Bool
  | [], n => n == 0
  | '(' :: rest, n => balancedParens rest (n + 1)
  | ')' :: rest, n => n != 0 && balancedParens rest (n - 1)
  | _ :: rest, n => balancedParens rest n

/-- The environment `simpleEnv` with a regexp compiler that fails on a pattern with
unbalanced parentheses, as Go's `regexp.Compile` does (`missing closing )`). -/
def parenEnv : Env :=
  { simpleEnv with
    regexpCompile := fun s => if balancedParens s.data 0 then some { content := s } else none }

/-- The route `routeA` with a regex that is not a regular expression. -/
def routeBadRegex : Policy :=
  { routeA with Regex := "(" }

/-- The route `routeA` with a regex. -/
def routeGoodRegex : Policy :=
  { routeA with Regex := "/(a|b)" }

/-- The route `routeA` with a bare host and a URL to depend on. -/
def routeDependsOn : Policy :=
  { routeA with DependsOn := ["a.example.com", "https://b.example.com/x"] }

/-- The route `routeA` with six hosts to depend on. -/
def routeSixDependsOn : Policy :=
  { routeA with DependsOn := ["a", "b", "c", "d", "e", "f"] }

/-- The route `routeA` with a path to depend on. -/
def routePathDependsOn : Policy :=
  { routeA with DependsOn := ["/x"] }

/-! ## Example routes of the later validation claims -/

/-- A route with an MCP block that holds both a server and a client. -/
def routeMCPBoth : Policy :=
  { routeA with MCP := some { Server := some {}, Client := some {} } }

/-- A route with an MCP block that holds neither a server nor a client. -/
def routeMCPNeither : Policy :=
  { routeA with MCP := some {} }

/-- The route `routeA` with an inline client certificate and no key. -/
def routeCertOnly : Policy :=
  { routeA with TLSClientCert := "Y2VydA==" }

/-- The route `routeA` with a client key file and no certificate file. -/
def routeKeyFileOnly : Policy :=
  { routeA with TLSClientKeyFile := "/etc/tls/client.key" }

/-- The route `routeA` with an inline client certificate and its key. -/
def routeCertAndKey : Policy :=
  { routeA with TLSClientCert := "Y2VydA==", TLSClientKey := "a2V5" }

/-- The route `routeA` with a prefix rewrite and a regex rewrite pattern. -/
def routeBothRewrites : Policy :=
  { routeA with PrefixRewrite := "/api", RegexRewritePattern := "^/v1/(.*)$" }

/-- The environment `simpleEnv` with one file, `/etc/pomerium/ca.pem`, of three bytes. -/
def fileEnv : Env :=
  { simpleEnv with
    ReadFile := fun path =>
      if path = "/etc/pomerium/ca.pem" then .ok [80, 69, 77]
      else .error (.external "no such file") }

/-- The route `routeA` with certificate authorities in a file, a regex and a URL to
depend on: `Validate` assigns `TLSCustomCA`, `TLSDownstreamClientCA`, the compiled regex
and `DependsOn`. -/
def routeCAFile : Policy :=
  { routeA with
    TLSCustomCAFile := "/etc/pomerium/ca.pem", TLSDownstreamClientCAFile := "/etc/pomerium/ca.pem",
    Regex := "/(a|b)", DependsOn := ["https://b.example.com/x"] }

/-- The route `routeCAFile` with a second URL to depend on, which has no host. -/
def routeCAFileBadDependsOn : Policy :=
  { routeCAFile with DependsOn := ["https://b.example.com/x", "/y"] }

/-- A block keeps the acceptance of another: when the first accepts a policy and leaves
it as it is, it does so after the second has run on it. -/
def Keeps (c c' : Check) : Prop :=
  ∀ q, c q = (q, none) → c (c' q).1 = ((c' q).1, none)

/-! ## Criteria matchers -/

/-- Go's `parser.Value`: a value of the policy language. An object is the list of its
entries in the order in which a loop over it visits them (Go leaves the order of a map
open, so every order is a possible run). -/
inductive Value where
  | null
  | boolean (b : Bool)
  | number (n : String)
  | string (s : String)
  | array (elements : List Value)
  | object (entries : List (String × Value))

/-- Whether a value is a `parser.Array`. -/
def Value.isArray : Value → Bool
  | .array _ => true
  | _ => false

/-- Whether a value is a `parser.Object`. -/
def Value.isObject : Value → Bool
  | .object _ => true
  | _ => false

/-- The operators of the output language that the matchers use: `ast.Contains`,
`ast.EndsWith`, `ast.NotEqual`, `ast.Equal`, `ast.StartsWith`, `ast.Member`,
`ast.Equality`, `ast.GreaterThan` and `ast.Count`. -/
inductive Builtin where
  | Contains | EndsWith | NotEqual | Equal | StartsWith | Member | Equality | GreaterThan
  | Count
deriving DecidableEq, Repr

mutual
/-- The terms of the output language, as the matchers build them: each constructor is one
of the constructing functions of the `ast` package. -/
inductive Term where
  /-- The term `ast.NewTerm(v.RegoValue())` of a value of the policy language. -/
  | NewTerm (v : Value)
  /-- The term `ast.VarTerm(name)`. -/
  | VarTerm (name : String)
  /-- The term `ast.RefTerm(head, path...)`. -/
  | RefTerm (head : Term) (path : List Term)
  /-- The term `f.Call(operands...)`. -/
  | Call (f : Builtin) (operands : List Term)
  /-- The term `ast.ArrayComprehensionTerm(head, body)`. -/
  | ArrayComprehensionTerm (head : Term) (body : List Expr)
  /-- The term `ast.BooleanTerm(b)`. -/
  | BooleanTerm (b : Bool)
  /-- The term `ast.IntNumberTerm(n)`. -/
  | IntNumberTerm (n : Int)
/-- The expressions of the output language, as the matchers build them. -/
inductive Expr where
  /-- The expression `f.Expr(operands...)`. -/
  | BuiltinExpr (f : Builtin) (operands : List Term)
  /-- The expression `ast.MustParseExpr(text)`. -/
  | MustParseExpr (text : String)
end

/-- Go's `ast.Body`: the clauses of a rule, all of which have to hold. -/
abbrev Body := List Expr

/-- The errors of the matchers, one constructor for each place that makes one. -/
inductive MatchError where
  /-- The error `unknown string matcher operator: %s`. -/
  | unknownStringOperator (k : String)
  /-- The error `in matcher requires an array of strings`. -/
  | inRequiresArray
  /-- The error `unknown string list matcher operator: %s`. -/
  | unknownStringListOperator (k : String)
deriving DecidableEq, Repr

/-- Go's `matcher`: a function that appends clauses to the body `dst`; the body as the
call leaves it and the error it returns (`none` for `nil`). -/
abbrev matcher := Body → Term → Value → Body × Option MatchError

/-- Go's `matchStringContains`. -/
def matchStringContains : matcher := fun dst left right =>
  (dst ++ [.BuiltinExpr .Contains [left, .NewTerm right]], none)

/-- Go's `matchStringEndsWith`. -/
def matchStringEndsWith : matcher := fun dst left right =>
  (dst ++ [.BuiltinExpr .EndsWith [left, .NewTerm right]], none)

/-- Go's `matchStringNot`. -/
def matchStringNot : matcher := fun dst left right =>
  (dst ++ [.BuiltinExpr .NotEqual [left, .NewTerm right]], none)

/-- Go's `matchStringIs`. -/
def matchStringIs : matcher := fun dst left right =>
  (dst ++ [.BuiltinExpr .Equal [left, .NewTerm right]], none)

/-- Go's `matchStringStartsWith`. -/
def matchStringStartsWith : matcher := fun dst left right =>
  (dst ++ [.BuiltinExpr .StartsWith [left, .NewTerm right]], none)

/-- Go's `matchStringIn`: the right value has to be an array. -/
def matchStringIn : matcher := fun dst left right =>
  match right with
  | .array elements => (dst ++ [.BuiltinExpr .Member [left, .NewTerm (.array elements)]], none)
  | _ => (dst, some .inRequiresArray)

/-- The loop `for k, v := range obj` of `matchString` and of `matchStringList`: the
matcher of each key is looked up and run; an unknown key or the first error of a matcher
stops the loop, the clauses appended so far staying in the body. -/
def rangeObject (lookup : String → Option matcher) (unknown : String → MatchError)
    (left : Term) : List (String × Value) → Body → Body × Option MatchError
  | [], dst => (dst, none)
  | (k, v) :: rest, dst =>
    match lookup k with
    | none => (dst, some (unknown k))
    | some f =>
      match f dst left v with
      | (dst', some err) => (dst', some err)
      | (dst', none) => rangeObject lookup unknown left rest dst'

/-- The table `lookup` of `matchString`. -/
def matchString.lookup (k : String) : Option matcher :=
  if k = "contains" then some matchStringContains
  else if k = "ends_with" then some matchStringEndsWith
  else if k = "not" then some matchStringNot
  else if k = "is" then some matchStringIs
  else if k = "starts_with" then some matchStringStartsWith
  else if k = "in" then some matchStringIn
  else none

/-- Go's `matchString`: a value that is not an object stands for the object `{is: value}`. -/
def matchString : matcher := fun dst left right =>
  let obj : List (String × Value) :=
    match right with
    | .object entries => entries
    | _ => [("is", right)]
  rangeObject matchString.lookup .unknownStringOperator left obj dst

/-- The body of the comprehension of `matchStringListHas` and `matchStringListExclude`:
`some v`, `v = left[$0]` and the clause that `matchStringIs` appends for `v`. -/
def elementBody (left : Term) (right : Value) : Body × Option MatchError :=
  matchStringIs
    [.MustParseExpr "some v", .BuiltinExpr .Equality [.VarTerm "v", .RefTerm left [.VarTerm "$0"]]]
    (.VarTerm "v") right

/-- Go's `matchStringListHas`. -/
def matchStringListHas : matcher := fun dst left right =>
  match elementBody left right with
  | (_, some err) => (dst, some err)
  | (body, none) =>
    (dst ++ [.BuiltinExpr .GreaterThan
      [.Call .Count [.ArrayComprehensionTerm (.BooleanTerm true) body], .IntNumberTerm 0]], none)

/-- Go's `matchStringListIs`. -/
def matchStringListIs : matcher := fun dst left right =>
  matchStringListHas (dst ++ [.BuiltinExpr .Equal [.Call .Count [left], .IntNumberTerm 1]]) left right

/-- Go's `matchStringListExclude`. -/
def matchStringListExclude : matcher := fun dst left right =>
  match elementBody left right with
  | (_, some err) => (dst, some err)
  | (body, none) =>
    (dst ++ [.BuiltinExpr .Equal
      [.Call .Count [.ArrayComprehensionTerm (.BooleanTerm true) body], .IntNumberTerm 0]], none)

/-- The table `lookup` of `matchStringList`. -/
def matchStringList.lookup (k : String) : Option matcher :=
  if k = "has" then some matchStringListHas
  else if k = "is" then some matchStringListIs
  else if k = "exclude" then some matchStringListExclude
  else none

/-- Go's `matchStringList`: a value that is not an object stands for the object
`{has: value}`. -/
def matchStringList : matcher := fun dst left right =>
  let obj : List (String × Value) :=
    match right with
    | .object entries => entries
    | _ => [("has", right)]
  rangeObject matchStringList.lookup .unknownStringListOperator left obj dst

/-- The operators of a string matcher object. -/
def stringOperators : List String := ["is", "not", "contains", "starts_with", "ends_with", "in"]

/-- The operators of a string-list matcher object. -/
def stringListOperators : List String := ["has", "is", "exclude"]

/-- The term `count([true | some v; v = left[_]; v == right])` of the claims on the list
matchers, in their words: the number of elements of `left` that equal `right`. -/
def countEqual (left : Term) (right : Value) : Term :=
  .Call .Count
    [.ArrayComprehensionTerm (.BooleanTerm true)
      [.MustParseExpr "some v",
       .BuiltinExpr .Equality [.VarTerm "v", .RefTerm left [.VarTerm "$0"]],
       .BuiltinExpr .Equal [.VarTerm "v", .NewTerm right]]]

/-- Modelled from the spec: the decision engine that evaluates the clauses is an external
component. What the claims use of it: it finds a number of elements in the collection
under a `count`, a comparison of a `count` with an integer holds by that number, every
other clause holds or not as the engine says, and a body holds when all its clauses
do. -/
structure Engine where
  count : Term → Nat
  clause : Expr → Bool

/-- Whether a clause holds for an engine. -/
def Engine.holds (G : Engine) : Expr → Bool
  | .BuiltinExpr .GreaterThan [.Call .Count [t], .IntNumberTerm n] =>
    decide ((G.count t : Int) > n)
  | .BuiltinExpr .Equal [.Call .Count [t], .IntNumberTerm n] => decide ((G.count t : Int) = n)
  | e => G.clause e

/-- Whether a body holds for an engine: all its clauses do. -/
def Engine.accepts (G : Engine) (body : Body) : Bool := body.all G.holds

/-- The truth set of a body: the engines for which it holds. -/
def truthSet (body : Body) : Set Engine := { G | G.accepts body = true }

/-- An engine that finds two elements in every collection and for which every other
clause holds. -/
def twoEngine : Engine := { count := fun _ => 2, clause := fun _ => true }

/-- The term `input.user.email` as a reference. -/
def emailTerm : Term := .RefTerm (.VarTerm "input") [.NewTerm (.string "user"), .NewTerm (.string "email")]

/-- The term `input.user.groups` as a reference. -/
def groupsTerm : Term :=
  .RefTerm (.VarTerm "input") [.NewTerm (.string "user"), .NewTerm (.string "groups")]

/-- A matcher appends: what it adds to the body and the error it returns do not depend on
the body. -/
def Appends (f : matcher) : Prop :=
  ∀ dst left right, f dst left right = (dst ++ (f [] left right).1, (f [] left right).2)

/-! ## Route ID results and matching -/

/-- Go's `Policy.MustRouteID`: the ID of `RouteID`, or the panic with its error (the
error of the result stands for the panic). -/
def Policy.MustRouteID {σ : Type} (D : Digest σ) (p : Policy) : Except Error String :=
  match p.RouteID D with
  | .error err => .error err
  | .ok id => .ok id

/-- The two results of a Go function that returns a string and an error, as the
functions of the route ID return them: the string is empty when there is an error. -/
def goResults (r : Except Error String) : String × Option Error :=
  match r with
  | .ok id => (id, none)
  | .error err => ("", some err)

/-- Go's `Policy.Matches`: whether the policy would match the request URL. -/
def Policy.Matches (E : Env) (p : Policy) (requestURL : URL) (stripPort : Bool) : Bool :=
  match E.ParseAndValidateURL p.From with
  | .error _ => false
  | .ok fromURL =>
    if ¬ E.FromURLMatchesRequestURL fromURL requestURL stripPort then false
    else if p.Prefix ≠ "" ∧ ¬ hasPrefix requestURL.Path p.Prefix then false
    else if p.Path ≠ "" ∧ requestURL.Path ≠ p.Path then false
    else
      match p.compiledRegex with
      | some re => if ¬ E.regexpMatchString re requestURL.Path then false else true
      | none => true

/-- The fields that `Matches` reads besides the source, the compiled regex counted only
for a policy without a regex: no block of `Validate` changes them. -/
def Policy.matchFields (p : Policy) : String × String × Option Foreign :=
  (p.Prefix, p.Path, if p.Regex = "" then p.compiledRegex else none)

/-- The environment `parenEnv` with a matcher for patterns without operators: a compiled
`^text$` matches the string `text` only. -/
def literalEnv : Env :=
  { parenEnv with regexpMatchString := fun re s => decide (re.content = "^" ++ s ++ "$") }

/-- The route `routeA` with the regex `/health`. -/
def routeHealthRegex : Policy :=
  { routeA with Regex := "/health" }

/-- A request for `https://a.example.com/health`. -/
def requestHealth : URL := { Scheme := "https", Host := "a.example.com", Path := "/health" }

/-- A request for `https://a.example.com/other`. -/
def requestOther : URL := { Scheme := "https", Host := "a.example.com", Path := "/other" }

/-- A policy without any action and with an ID. -/
def routeNoActionWithID : Policy := { routeNoAction with ID := "route-1" }

/-! ## Order of the clauses -/

/-- A string-list matcher object whose `has` holds a string matcher object. -/
def objectHasStartsWith : Value :=
  .object [("has", .object [("starts_with", .string "admin-")])]

/-! ## Runtime flags -/

/-- Go's `RuntimeFlag`: the key of a runtime flag. -/
abbrev RuntimeFlag := String

/-- Go's `RuntimeFlags`: a map from runtime flags to booleans. -/
abbrev RuntimeFlags := RuntimeFlag → Option Bool

/-- The assignment `m[key] = value` on a Go map. -/
def RuntimeFlags.assign (m : RuntimeFlags) (key : RuntimeFlag) (value : Bool) : RuntimeFlags :=
  fun k => if k = key then some value else m k

/-- Go's `runtimeFlag`, on the registry `defaultRuntimeFlags` as it finds it: the key it
returns and the registry as it leaves it. -/
def runtimeFlag (defaultRuntimeFlags : RuntimeFlags) (txt : String) (dflt : Bool) :
    RuntimeFlag × RuntimeFlags :=
  let key : RuntimeFlag := txt
  (key, defaultRuntimeFlags.assign key dflt)

/-- The twelve declarations `RuntimeFlagX = runtimeFlag(key, default)` of the source, in
its order. -/
def declaredRuntimeFlags : List (String × Bool) :=
  [("add_extra_metrics_labels", true),
   ("authorize_use_synced_data", true),
   ("config_hot_reload", true),
   ("envoy_resource_manager", true),
   ("grpc_databroker_keepalive", false),
   ("match_any_incoming_port", true),
   ("mcp", false),
   ("pomerium_jwt_endpoint", false),
   ("refresh_session_at_id_token_expiration", true),
   ("set_envoy_concurrency_to_go_max_procs", true),
   ("ssh_allow_direct_tcpip", false),
   ("ssh_routes_portal", false)]

/-- The registry `defaultRuntimeFlags` after the initialization of the package: the empty
map `map[RuntimeFlag]bool{}` after the twelve declarations. -/
def defaultRuntimeFlags : RuntimeFlags :=
  declaredRuntimeFlags.foldl (fun m kd => (runtimeFlag m kd.1 kd.2).2) (fun _ => none)

/-- Go's `DefaultRuntimeFlags`: a copy of the registry. -/
def DefaultRuntimeFlags (registry : RuntimeFlags) : RuntimeFlags := registry

/-! ## Main listener -/

/-- Go's `envoy_config_accesslog_v3.AccessLog`: its name and its typed configuration. -/
structure AccessLog where
  Name : String := ""
  TypedConfig : Option Foreign := none
deriving DecidableEq, Repr

/-- Go's `envoy_config_listener_v3.FilterChain`: the fields that the code assigns. -/
structure FilterChain where
  Filters : List Foreign := []
  TransportSocket : Option Foreign := none
deriving DecidableEq, Repr

/-- Go's `envoy_config_listener_v3.Listener`: the fields that the code reads and assigns,
and what else its constructor put in it. -/
structure Listener where
  Name : String := ""
  Address : Option Foreign := none
  ListenerFilters : List Foreign := []
  AccessLog : List AccessLog := []
  FilterChains : List FilterChain := []
  other : Foreign := {}
deriving DecidableEq, Repr

/-- Go's `config.DownstreamMTLSSettings`: the field that the code reads. -/
structure DownstreamMTLSSettings where
  Enforcement : String := ""
deriving DecidableEq, Repr

/-- Go's `config.Options`: the fields that the code reads; durations are nanoseconds. -/
structure Options where
  Addr : String := ""
  InsecureServer : Bool := false
  UseProxyProtocol : Bool := false
  DownstreamMTLS : DownstreamMTLSSettings := {}
  GRPCClientTimeout : Int := 0
  CodecType : String := ""
  WriteTimeout : Int := 0
  IdleTimeout : Int := 0
  ReadTimeout : Int := 0
  SkipXffAppend : Bool := false
  XffNumTrustedHops : Nat := 0
  Tracing : Foreign := {}
  other : Foreign := {}
deriving DecidableEq, Repr

/-- Go's `config.Config`: the options, and what else it holds. -/
structure Config where
  Options : Options := {}
  other : Foreign := {}
deriving DecidableEq, Repr

/-- The codec types of the HTTP connection manager of Envoy. -/
inductive EnvoyCodecType where
  | AUTO | HTTP1 | HTTP2 | HTTP3
deriving DecidableEq, Repr

/-- Go's `HttpProtocolOptions` of the connection manager: the timeouts that the code
assigns. -/
structure CommonHttpProtocolOptions where
  IdleTimeout : Option PBDuration := none
  MaxStreamDuration : Option PBDuration := none
deriving DecidableEq, Repr

/-- Go's `envoy_config_core_v3.ConfigSource` of the route discovery: the API version and
the kind of source. -/
structure ConfigSource where
  ResourceApiVersion : String := ""
  ConfigSourceSpecifier : String := ""
deriving DecidableEq, Repr

/-- The route specifier of the connection manager: the route configuration itself, or the
name of one that is fetched from a configuration source. -/
inductive RouteSpecifier where
  | RouteConfig (routeConfiguration : Foreign)
  | Rds (configSource : ConfigSource) (routeConfigName : String)
deriving DecidableEq, Repr

/-- Go's `HttpConnectionManager`: the fields that the code assigns, and what else was put
in it (by `applyTracingConfig`). -/
structure HttpConnectionManager where
  AlwaysSetRequestIdInResponse : Bool := false
  StatPrefix : String := ""
  HttpFilters : List Foreign := []
  AccessLog : List AccessLog := []
  CommonHttpProtocolOptions : Option CommonHttpProtocolOptions := none
  HttpProtocolOptions : Option Foreign := none
  RequestTimeout : Option PBDuration := none
  UseRemoteAddress : Option Bool := none
  SkipXffAppend : Bool := false
  XffNumTrustedHops : Nat := 0
  LocalReplyConfig : Option Foreign := none
  NormalizePath : Option Bool := none
  CodecType : EnvoyCodecType := .AUTO
  Http3ProtocolOptions : Option Foreign := none
  RouteSpecifier : Option RouteSpecifier := none
  other : Foreign := {}
deriving DecidableEq, Repr

/-- Go's `TcpGrpcAccessLogConfig` as `newListenerAccessLog` fills it. -/
structure TcpGrpcAccessLogConfig where
  LogName : String := ""
  ClusterName : String := ""
  TransportApiVersion : String := ""
deriving DecidableEq, Repr

/-- The errors of the listener builder: those of the functions it calls, and the one it
wraps. -/
inductive BuildError where
  /-- An error of a function defined elsewhere. -/
  | external (text : String)
  /-- The error `error building quic socket: %w`. -/
  | quicSocket (err : BuildError)
deriving DecidableEq, Repr

/-- The Lua scripts of the package `luascripts` that the code names. -/
structure LuaScripts where
  RemoveImpersonateHeaders : Foreign
  SetClientCertificateMetadata : Foreign
  ExtAuthzSetCookie : Foreign
  CleanUpstream : Foreign
  RewriteHeaders : Foreign
  LocalReplyType : Foreign

/-- Go's `Builder` with the functions and constants that `listeners_main.go` uses and that
are defined elsewhere in the repository or in its libraries. -/
structure Builder where
  newTCPListener : String → String → Foreign → Listener
  newQUICListener : String → Foreign → Listener
  buildTCPAddress : String → Nat → Foreign
  buildUDPAddress : String → Nat → Foreign
  ProxyProtocolFilter : Foreign
  TLSInspectorFilter : Foreign
  buildACMETLSALPNFilterChain : FilterChain
  getAllCertificates : Config → Except BuildError (List Foreign)
  buildDownstreamQUICTransportSocket : Config → List Foreign → Except BuildError Foreign
  buildDownstreamTLSContextMulti : Config → List Foreign → Except BuildError Foreign
  newDownstreamTLSTransportSocket : Foreign → Foreign
  luascripts : LuaScripts
  LuaFilter : Foreign → Foreign
  ExtAuthzFilter : PBDuration → Foreign
  newQUICAltSvcHeaderFilter : Config → Foreign
  HTTPRouterFilter : Foreign
  BuildLocalReplyConfig : Options → Except BuildError Foreign
  buildAccessLogs : Options → List AccessLog
  durationpbNew : Int → PBDuration
  http1ProtocolOptions : Foreign
  http3ProtocolOptions : Foreign
  GetCodecType : Options → String
  ToEnvoy : String → EnvoyCodecType
  applyTracingConfig : HttpConnectionManager → Foreign → HttpConnectionManager
  buildMainRouteConfiguration : Config → Except BuildError Foreign
  HTTPConnectionManagerFilter : HttpConnectionManager → Foreign
  marshalAny : TcpGrpcAccessLogConfig → Foreign
  MTLSEnforcementRejectConnection : String
  CodecTypeHTTP3 : String
  CodecTypeAuto : String
  CodecTypeHTTP2 : String

/-- Go's `newListenerAccessLog`. -/
def Builder.newListenerAccessLog (b : Builder) : AccessLog :=
  { Name := "envoy.access_loggers.tcp_grpc"
    TypedConfig := some (b.marshalAny
      { LogName := "ingress-http-listener"
        ClusterName := "pomerium-control-plane-grpc"
        TransportApiVersion := "V3" }) }

/-- In `buildMainHTTPConnectionManagerFilter`, the variable `grpcClientTimeout`: the
configured timeout, or thirty seconds. -/
def Builder.grpcClientTimeout (b : Builder) (cfg : Config) : PBDuration :=
  if cfg.Options.GRPCClientTimeout ≠ 0 then b.durationpbNew cfg.Options.GRPCClientTimeout
  else b.durationpbNew (30 * 1000000000)

/-- In `buildMainHTTPConnectionManagerFilter`, the variable `filters` when the connection
manager is made. -/
def Builder.mainHTTPFilters (b : Builder) (cfg : Config) (useQUIC : Bool) : List Foreign :=
  let filters : List Foreign :=
    [b.LuaFilter b.luascripts.RemoveImpersonateHeaders,
     b.LuaFilter b.luascripts.SetClientCertificateMetadata,
     b.ExtAuthzFilter (b.grpcClientTimeout cfg),
     b.LuaFilter b.luascripts.ExtAuthzSetCookie,
     b.LuaFilter b.luascripts.CleanUpstream,
     b.LuaFilter b.luascripts.RewriteHeaders,
     b.LuaFilter b.luascripts.LocalReplyType]
  let filters :=
    if ¬ useQUIC ∧ cfg.Options.CodecType = b.CodecTypeHTTP3 then
      filters ++ [b.newQUICAltSvcHeaderFilter cfg]
    else filters
  filters ++ [b.HTTPRouterFilter]

/-- In `buildMainHTTPConnectionManagerFilter`, the connection manager `mgr` when the
function returns it in a filter. -/
def Builder.mainHTTPConnectionManager (b : Builder) (cfg : Config) (fullyStatic useQUIC : Bool) :
    Except BuildError HttpConnectionManager :=
  let filters := b.mainHTTPFilters cfg useQUIC
  let maxStreamDuration : Option PBDuration :=
    if cfg.Options.WriteTimeout > 0 then some (b.durationpbNew cfg.Options.WriteTimeout) else none
  match b.BuildLocalReplyConfig cfg.Options with
  | .error err => .error err
  | .ok localReply =>
    let mgr : HttpConnectionManager :=
      { AlwaysSetRequestIdInResponse := true
        StatPrefix := "ingress"
        HttpFilters := filters
        AccessLog := b.buildAccessLogs cfg.Options
        CommonHttpProtocolOptions := some
          { IdleTimeout := some (b.durationpbNew cfg.Options.IdleTimeout)
            MaxStreamDuration := maxStreamDuration }
        HttpProtocolOptions := some b.http1ProtocolOptions
        RequestTimeout := some (b.durationpbNew cfg.Options.ReadTimeout)
        UseRemoteAddress := some true
        SkipXffAppend := cfg.Options.SkipXffAppend
        XffNumTrustedHops := cfg.Options.XffNumTrustedHops
        LocalReplyConfig := some localReply
        NormalizePath := some true }
    let mgr : HttpConnectionManager :=
      if useQUIC then
        { mgr with CodecType := .HTTP3, Http3ProtocolOptions := some b.http3ProtocolOptions }
      else if b.GetCodecType cfg.Options = b.CodecTypeHTTP3 then { mgr with CodecType := .AUTO }
      else if b.GetCodecType cfg.Options = b.CodecTypeAuto ∨
          b.GetCodecType cfg.Options = b.CodecTypeHTTP2 then
        { mgr with CodecType := b.ToEnvoy (b.GetCodecType cfg.Options) }
      else { mgr with CodecType := b.ToEnvoy (b.GetCodecType cfg.Options) }
    let mgr := b.applyTracingConfig mgr cfg.Options.Tracing
    if fullyStatic then
      match b.buildMainRouteConfiguration cfg with
      | .error err => .error err
      | .ok routeConfiguration =>
        .ok { mgr with RouteSpecifier := some (.RouteConfig routeConfiguration) }
    else
      .ok { mgr with
        RouteSpecifier := some (.Rds
          { ResourceApiVersion := "V3", ConfigSourceSpecifier := "Ads" } "main") }

/-- Go's `Builder.buildMainHTTPConnectionManagerFilter`. -/
def Builder.buildMainHTTPConnectionManagerFilter (b : Builder) (cfg : Config)
    (fullyStatic useQUIC : Bool) : Except BuildError Foreign :=
  match b.mainHTTPConnectionManager cfg fullyStatic useQUIC with
  | .error err => .error err
  | .ok mgr => .ok (b.HTTPConnectionManagerFilter mgr)

/-- Go's `Builder.buildMainHTTPConnectionManagerFilterChain`. -/
def Builder.buildMainHTTPConnectionManagerFilterChain (b : Builder) (cfg : Config)
    (fullyStatic useQUIC : Bool) (transportSocket : Option Foreign) :
    Except BuildError FilterChain :=
  match b.buildMainHTTPConnectionManagerFilter cfg fullyStatic useQUIC with
  | .error err => .error err
  | .ok filter => .ok { Filters := [filter], TransportSocket := transportSocket }

/-- Go's `Builder.buildMainInsecureListener`. -/
def Builder.buildMainInsecureListener (b : Builder) (cfg : Config) (fullyStatic : Bool) :
    Except BuildError Listener :=
  let li := b.newTCPListener "http-ingress" "http-ingress" (b.buildTCPAddress cfg.Options.Addr 80)
  let li :=
    if cfg.Options.UseProxyProtocol then
      { li with ListenerFilters := li.ListenerFilters ++ [b.ProxyProtocolFilter] }
    else li
  match b.buildMainHTTPConnectionManagerFilterChain cfg fullyStatic false none with
  | .error err => .error err
  | .ok filterChain => .ok { li with FilterChains := li.FilterChains ++ [filterChain] }

/-- Go's `Builder.buildMainQUICListener`. -/
def Builder.buildMainQUICListener (b : Builder) (cfg : Config) (fullyStatic : Bool) :
    Except BuildError Listener :=
  let li := b.newQUICListener "quic-ingress" (b.buildUDPAddress cfg.Options.Addr 443)
  let li :=
    if cfg.Options.UseProxyProtocol then
      { li with ListenerFilters := li.ListenerFilters ++ [b.ProxyProtocolFilter] }
    else li
  let li :=
    if cfg.Options.DownstreamMTLS.Enforcement = b.MTLSEnforcementRejectConnection then
      { li with AccessLog := li.AccessLog ++ [b.newListenerAccessLog] }
    else li
  match b.getAllCertificates cfg with
  | .error err => .error err
  | .ok allCertificates =>
    match b.buildDownstreamQUICTransportSocket cfg allCertificates with
    | .error err => .error (.quicSocket err)
    | .ok transportSocket =>
      match b.buildMainHTTPConnectionManagerFilterChain cfg fullyStatic true
          (some transportSocket) with
      | .error err => .error err
      | .ok filterChain => .ok { li with FilterChains := li.FilterChains ++ [filterChain] }

/-- Go's `Builder.buildMainTLSListener`. -/
def Builder.buildMainTLSListener (b : Builder) (cfg : Config) (fullyStatic : Bool) :
    Except BuildError Listener :=
  let li :=
    b.newTCPListener "https-ingress" "https-ingress" (b.buildTCPAddress cfg.Options.Addr 443)
  let li :=
    if cfg.Options.UseProxyProtocol then
      { li with ListenerFilters := li.ListenerFilters ++ [b.ProxyProtocolFilter] }
    else li
  let li := { li with ListenerFilters := li.ListenerFilters ++ [b.TLSInspectorFilter] }
  let li :=
    if cfg.Options.DownstreamMTLS.Enforcement = b.MTLSEnforcementRejectConnection then
      { li with AccessLog := li.AccessLog ++ [b.newListenerAccessLog] }
    else li
  let li := { li with FilterChains := li.FilterChains ++ [b.buildACMETLSALPNFilterChain] }
  match b.getAllCertificates cfg with
  | .error err => .error err
  | .ok allCertificates =>
    match b.buildDownstreamTLSContextMulti cfg allCertificates with
    | .error err => .error err
    | .ok tlsContext =>
      let transportSocket := b.newDownstreamTLSTransportSocket tlsContext
      match b.buildMainHTTPConnectionManagerFilterChain cfg fullyStatic false
          (some transportSocket) with
      | .error err => .error err
      | .ok filterChain => .ok { li with FilterChains := li.FilterChains ++ [filterChain] }

/-- Go's `Builder.buildMainListener`. -/
def Builder.buildMainListener (b : Builder) (cfg : Config) (fullyStatic useQUIC : Bool) :
    Except BuildError Listener :=
  if useQUIC then b.buildMainQUICListener cfg fullyStatic
  else if cfg.Options.InsecureServer then b.buildMainInsecureListener cfg fullyStatic
  else b.buildMainTLSListener cfg fullyStatic

/-- What the claims on the main listener take of the constructors `newTCPListener` and
`newQUICListener`, which are not among the sources: the listener they return has the name
and the address given to them, and no listener filter, access log or filter chain yet. -/
def Builder.Fresh (b : Builder) : Prop :=
  (∀ name statPrefix address,
    (b.newTCPListener name statPrefix address).Name = name ∧
    (b.newTCPListener name statPrefix address).Address = some address ∧
    (b.newTCPListener name statPrefix address).ListenerFilters = [] ∧
    (b.newTCPListener name statPrefix address).AccessLog = [] ∧
    (b.newTCPListener name statPrefix address).FilterChains = []) ∧
  (∀ name address,
    (b.newQUICListener name address).Name = name ∧
    (b.newQUICListener name address).Address = some address ∧
    (b.newQUICListener name address).ListenerFilters = [] ∧
    (b.newQUICListener name address).AccessLog = [] ∧
    (b.newQUICListener name address).FilterChains = [])

/-- A small concrete builder: every function defined elsewhere returns a value that names
it, and none of them fails. -/
def simpleBuilder : Builder where
  newTCPListener := fun name statPrefix address =>
    { Name := name, Address := some address, other := { content := "tcp " ++ statPrefix } }
  newQUICListener := fun name address =>
    { Name := name, Address := some address, other := { content := "quic" } }
  buildTCPAddress := fun addr port =>
    { content := "tcp " ++ addr ++ (if port = 80 then " or :80" else " or :443") }
  buildUDPAddress := fun addr port =>
    { content := "udp " ++ addr ++ (if port = 80 then " or :80" else " or :443") }
  ProxyProtocolFilter := { content := "proxy_protocol" }
  TLSInspectorFilter := { content := "tls_inspector" }
  buildACMETLSALPNFilterChain := { Filters := [{ content := "acme-tls-alpn" }] }
  getAllCertificates := fun _ => .ok [{ content := "certificate" }]
  buildDownstreamQUICTransportSocket := fun _ _ => .ok { content := "quic socket" }
  buildDownstreamTLSContextMulti := fun _ _ => .ok { content := "tls context" }
  newDownstreamTLSTransportSocket := fun c => { content := "tls socket of " ++ c.content }
  luascripts :=
    { RemoveImpersonateHeaders := { content := "remove-impersonate-headers" }
      SetClientCertificateMetadata := { content := "set-client-certificate-metadata" }
      ExtAuthzSetCookie := { content := "ext-authz-set-cookie" }
      CleanUpstream := { content := "clean-upstream" }
      RewriteHeaders := { content := "rewrite-headers" }
      LocalReplyType := { content := "local-reply-type" } }
  LuaFilter := fun script => { content := "lua " ++ script.content }
  ExtAuthzFilter := fun timeout =>
    { content := if timeout.Seconds = 30 then "ext_authz 30s" else "ext_authz" }
  newQUICAltSvcHeaderFilter := fun _ => { content := "alt-svc" }
  HTTPRouterFilter := { content := "router" }
  BuildLocalReplyConfig := fun _ => .ok { content := "local reply" }
  buildAccessLogs := fun _ => []
  durationpbNew := fun d => { Seconds := d.tdiv 1000000000, Nanos := d.tmod 1000000000 }
  http1ProtocolOptions := { content := "http1" }
  http3ProtocolOptions := { content := "http3" }
  GetCodecType := fun o => if o.CodecType = "" then "auto" else o.CodecType
  ToEnvoy := fun c => if c = "http1" then .HTTP1 else if c = "http2" then .HTTP2
    else if c = "http3" then .HTTP3 else .AUTO
  applyTracingConfig := fun mgr tracing => { mgr with other := tracing }
  buildMainRouteConfiguration := fun _ => .ok { content := "main routes" }
  HTTPConnectionManagerFilter := fun mgr =>
    { content := "http_connection_manager " ++ mgr.StatPrefix }
  marshalAny := fun c => { content := c.LogName ++ " " ++ c.ClusterName }
  MTLSEnforcementRejectConnection := "reject_connection"
  CodecTypeHTTP3 := "http3"
  CodecTypeAuto := "auto"
  CodecTypeHTTP2 := "http2"

/-- A configuration with the insecure server and the rejection of connections without a
client certificate. -/
def configInsecureReject : Config :=
  { Options := { InsecureServer := true, DownstreamMTLS := { Enforcement := "reject_connection" } } }

/-- A configuration with the proxy protocol, the rejection of connections without a client
certificate and the HTTP/3 codec. -/
def configTLSReject : Config :=
  { Options :=
      { UseProxyProtocol := true, DownstreamMTLS := { Enforcement := "reject_connection" },
        CodecType := "http3" } }

/-- A configuration without any option set. -/
def configPlain : Config := {}

/-- A route whose redirect has no field set. -/
def routeEmptyRedirect : Policy :=
  { From := "https://a.example.com", Redirect := some {} }

/-- A string-list matcher object whose `has` holds an object with an operator that no
matcher knows. -/
def objectHasUnknown : Value :=
  .object [("has", .object [("matches", .string "admin-.*")])]

/-! ## Order lemmas -/

theorem charsLess_irrefl (a : List Char) : charsLess a a = false := by
  induction a with
  | nil => rfl
  | cons x xs ih => simp [charsLess, ih]

theorem charsLess_trans : ∀ (a b c : List Char), charsLess a b = true → charsLess b c = true →
    charsLess a c = true
  | [], [], _, h, _ => by simp [charsLess] at h
  | [], _ :: _, [], _, h => by simp [charsLess] at h
  | [], _ :: _, _ :: _, _, _ => by simp [charsLess]
  | _ :: _, [], _, h, _ => by simp [charsLess] at h
  | _ :: _, _ :: _, [], _, h => by simp [charsLess] at h
  | x :: xs, y :: ys, z :: zs, h1, h2 => by
    have ih := charsLess_trans xs ys zs
    simp only [charsLess] at h1 h2 ⊢
    rcases lt_trichotomy x y with hxy | hxy | hxy
    · rcases lt_trichotomy y z with hyz | hyz | hyz
      · simp [lt_trans hxy hyz]
      · subst hyz; simp [hxy]
      · simp [hyz, lt_asymm hyz] at h2
    · subst hxy
      rcases lt_trichotomy x z with hyz | hyz | hyz
      · simp [hyz]
      · subst hyz
        simp only [lt_irrefl, if_false] at h1 h2 ⊢
        exact ih h1 h2
      · simp [hyz, lt_asymm hyz] at h2
    · simp [hxy, lt_asymm hxy] at h1

theorem charsLess_total : ∀ (a b : List Char), a ≠ b →
    charsLess a b = true ∨ charsLess b a = true
  | [], [], h => absurd rfl h
  | [], _ :: _, _ => by simp [charsLess]
  | _ :: _, [], _ => by simp [charsLess]
  | x :: xs, y :: ys, h => by
    simp only [charsLess]
    rcases lt_trichotomy x y with hxy | hxy | hxy
    · simp [hxy]
    · subst hxy
      have : xs ≠ ys := fun e => h (by rw [e])
      simpa using charsLess_total xs ys this
    · simp [hxy]

theorem StrictWeak.weak_asymm {α : Type} {lt : α → α → Bool} (h : StrictWeak lt) (a b : α)
    (hab : lt a b = true) : lt b a = false := by
  cases hba : lt b a with
  | false => rfl
  | true => have := h.trans a b a hab hba; rw [h.irrefl] at this; exact absurd this (by simp)

theorem StrictTotal.total_asymm {κ : Type} {val : κ → κ → Bool} (h : StrictTotal val) (x y : κ)
    (hxy : val x y = true) : val y x = false := by
  cases hyx : val y x with
  | false => rfl
  | true => have := h.trans x y x hxy hyx; rw [h.irrefl] at this; exact absurd this (by simp)

theorem StrictTotal.flip {κ : Type} {val : κ → κ → Bool} (h : StrictTotal val) :
    StrictTotal (fun x y => val y x) where
  irrefl := h.irrefl
  trans := fun x y z hxy hyz => h.trans z y x hyz hxy
  total := fun x y hne => (h.total x y hne).symm

theorem stringLess_strictTotal : StrictTotal stringLess where
  irrefl := fun x => charsLess_irrefl x.data
  trans := fun x y z => charsLess_trans x.data y.data z.data
  total := fun x y hne => charsLess_total x.data y.data (fun e => hne (String.ext e))

/-- A strict total order on a key of the elements is a strict weak order on them. -/
theorem StrictTotal.onKey {α κ : Type} {val : κ → κ → Bool} (h : StrictTotal val) (f : α → κ) :
    StrictWeak (fun a b => val (f a) (f b)) where
  irrefl := fun a => h.irrefl (f a)
  trans := fun a b c => h.trans (f a) (f b) (f c)
  negTrans := by
    intro a b c hab hbc
    by_cases e1 : f a = f b
    · simp only [e1] at hab ⊢; exact hbc
    · by_cases e2 : f b = f c
      · simp only [← e2]; exact hab
      · have hba := (h.total _ _ e1).resolve_left (by simp [hab])
        have hcb := (h.total _ _ e2).resolve_left (by simp [hbc])
        exact h.total_asymm _ _ (h.trans _ _ _ hcb hba)

/-- One step of a lexicographic comparison, in the shape of the code: decide by the
component when the two components differ, go on with `rest` when they are equal. -/
theorem StrictWeak.lexStep {α κ : Type} [DecidableEq κ] {val : κ → κ → Bool}
    (hv : StrictTotal val) (f : α → κ) {rest : α → α → Bool} (hr : StrictWeak rest) :
    StrictWeak (fun a b => if ¬ (decide (f a = f b)) = true then val (f a) (f b) else rest a b) where
  irrefl := fun a => by simp [hr.irrefl]
  trans := by
    intro a b c
    generalize f a = x
    generalize f b = y
    generalize f c = z
    intro hab hbc
    by_cases e1 : x = y <;> by_cases e2 : y = z
    · subst e1; subst e2
      simp only [decide_True, not_true_eq_false, if_false] at hab hbc ⊢
      exact hr.trans a b c hab hbc
    · subst e1
      simp only [decide_True, not_true_eq_false, if_false, e2, decide_False, not_false_eq_true,
        if_true, Bool.false_eq_true] at hab hbc ⊢
      exact hbc
    · subst e2
      simp only [decide_True, not_true_eq_false, if_false, e1, decide_False, not_false_eq_true,
        if_true, Bool.false_eq_true] at hab hbc ⊢
      exact hab
    · simp only [e1, e2, decide_False, not_false_eq_true, if_true, Bool.false_eq_true] at hab hbc
      have hac := hv.trans _ _ _ hab hbc
      have e3 : x ≠ z := fun e => by
        subst e
        have := hv.total_asymm _ _ hab
        rw [this] at hbc; exact absurd hbc (by simp)
      simp only [e3, decide_False, not_false_eq_true, if_true, Bool.false_eq_true]
      exact hac
  negTrans := by
    intro a b c
    generalize f a = x
    generalize f b = y
    generalize f c = z
    intro hab hbc
    by_cases e1 : x = y <;> by_cases e2 : y = z
    · subst e1; subst e2
      simp only [decide_True, not_true_eq_false, if_false] at hab hbc ⊢
      exact hr.negTrans a b c hab hbc
    · subst e1
      simp only [decide_True, not_true_eq_false, if_false, e2, decide_False, not_false_eq_true,
        if_true, Bool.false_eq_true] at hab hbc ⊢
      exact hbc
    · subst e2
      simp only [decide_True, not_true_eq_false, if_false, e1, decide_False, not_false_eq_true,
        if_true, Bool.false_eq_true] at hab hbc ⊢
      exact hab
    · simp only [e1, e2, decide_False, not_false_eq_true, if_true, Bool.false_eq_true] at hab hbc
      have hba := (hv.total _ _ e1).resolve_left (by simp [hab])
      have hcb := (hv.total _ _ e2).resolve_left (by simp [hbc])
      have hca := hv.trans _ _ _ hcb hba
      have e3 : x ≠ z := fun e => by
        subst e
        rw [hv.irrefl] at hca; exact absurd hca (by simp)
      simp only [e3, decide_False, not_false_eq_true, if_true, Bool.false_eq_true]
      exact hv.total_asymm _ _ hca

theorem intPDesc_snd (a b : Option Int) : (intPDesc a b).2 = decide (a = b) := by
  cases a <;> cases b <;> simp [intPDesc]

theorem intPDesc_strictTotal : StrictTotal (fun a b => (intPDesc a b).1) where
  irrefl := fun x => by cases x <;> simp [intPDesc]
  trans := by
    intro x y z hxy hyz
    cases x <;> cases y <;> cases z <;> simp [intPDesc] at hxy hyz ⊢
    omega
  total := by
    intro x y hne
    cases x <;> cases y <;> simp [intPDesc] at hne ⊢
    omega

/-- The comparator of `SortPolicies` as a chain of lexicographic steps. -/
theorem policyLess_eq_lex : policyLess = fun a b =>
    if ¬ (decide (a.From = b.From)) = true then stringLess a.From b.From
    else if ¬ (decide (a.Path = b.Path)) = true then stringLess b.Path a.Path
    else if ¬ (decide (a.RegexPriorityOrder = b.RegexPriorityOrder)) = true then
      (intPDesc a.RegexPriorityOrder b.RegexPriorityOrder).1
    else if ¬ (decide (a.Regex = b.Regex)) = true then stringLess b.Regex a.Regex
    else if ¬ (decide (a.Prefix = b.Prefix)) = true then stringLess b.Prefix a.Prefix
    else stringLess a.ID b.ID := by
  funext a b
  simp only [policyLess, strAsc, strDesc, intPDesc_snd]

theorem policyLess_strictWeak : StrictWeak policyLess := by
  rw [policyLess_eq_lex]
  exact StrictWeak.lexStep stringLess_strictTotal (fun p : Policy => p.From)
    (StrictWeak.lexStep stringLess_strictTotal.flip (fun p : Policy => p.Path)
      (StrictWeak.lexStep intPDesc_strictTotal (fun p : Policy => p.RegexPriorityOrder)
        (StrictWeak.lexStep stringLess_strictTotal.flip (fun p : Policy => p.Regex)
          (StrictWeak.lexStep stringLess_strictTotal.flip (fun p : Policy => p.Prefix)
            (stringLess_strictTotal.onKey (fun p : Policy => p.ID))))))

theorem stringLess_irrefl (a : String) : stringLess a a = false := charsLess_irrefl a.data

theorem descNullsLast_eq (a b : Option Int) : descNullsLast a b = (intPDesc a b).1 := by
  cases a <;> cases b <;> simp [descNullsLast, intPDesc]

/-- The comparator of the code is the `ORDER BY` of the specification. -/
theorem policyLess_eq_orderByLess (a b : Policy) : policyLess a b = orderByLess a b := by
  rw [policyLess_eq_lex]
  simp only [orderByLess, descNullsLast_eq, beq_iff_eq]
  by_cases h1 : a.From = b.From
  · by_cases h2 : a.Path = b.Path
    · by_cases h3 : a.RegexPriorityOrder = b.RegexPriorityOrder
      · by_cases h4 : a.Regex = b.Regex
        · by_cases h5 : a.Prefix = b.Prefix
          · simp [h1, h2, h3, h4, h5, stringLess_irrefl, intPDesc_strictTotal.irrefl]
          · simp [h1, h2, h3, h4, h5, stringLess_irrefl, intPDesc_strictTotal.irrefl]
        · simp [h1, h2, h3, h4, stringLess_irrefl, intPDesc_strictTotal.irrefl]
      · simp [h1, h2, h3, stringLess_irrefl]
    · simp [h1, h2, stringLess_irrefl]
  · simp [h1]

/-- Two policies have the same sort key exactly when the comparator orders neither
before the other. -/
theorem sameSortKey_iff (a b : Policy) :
    sameSortKey a b = true ↔ (policyLess a b = false ∧ policyLess b a = false) := by
  rw [policyLess_eq_lex]
  simp only [sameSortKey, Bool.and_eq_true, beq_iff_eq]
  by_cases h1 : a.From = b.From
  · by_cases h2 : a.Path = b.Path
    · by_cases h3 : a.RegexPriorityOrder = b.RegexPriorityOrder
      · by_cases h4 : a.Regex = b.Regex
        · by_cases h5 : a.Prefix = b.Prefix
          · by_cases h6 : a.ID = b.ID
            · simp [h1, h2, h3, h4, h5, h6, stringLess_irrefl]
            · rcases stringLess_strictTotal.total _ _ h6 with h | h <;>
                simp [h1, h2, h3, h4, h5, h6, h]
          · rcases stringLess_strictTotal.total _ _ h5 with h | h <;>
              simp [h1, h2, h3, h4, h5, Ne.symm h5, h]
        · rcases stringLess_strictTotal.total _ _ h4 with h | h <;>
            simp [h1, h2, h3, h4, Ne.symm h4, h]
      · rcases intPDesc_strictTotal.total _ _ h3 with h | h <;>
          simp [h1, h2, h3, Ne.symm h3, h]
    · rcases stringLess_strictTotal.total _ _ h2 with h | h <;>
        simp [h1, h2, Ne.symm h2, h]
  · rcases stringLess_strictTotal.total _ _ h1 with h | h <;>
      simp [h1, Ne.symm h1, h]

theorem sameSortKey_fields (a b : Policy) :
    sameSortKey a b = true ↔ (a.From = b.From ∧ a.Path = b.Path ∧
      a.RegexPriorityOrder = b.RegexPriorityOrder ∧ a.Regex = b.Regex ∧ a.Prefix = b.Prefix ∧
      a.ID = b.ID) := by
  simp only [sameSortKey, Bool.and_eq_true, beq_iff_eq]
  tauto

/-! ## Stable sorting -/

theorem SliceStable_perm {α : Type} (less : α → α → Bool) (l : List α) :
    (SliceStable less l).Perm l :=
  List.perm_insertionSort _ l

theorem SliceStable_sorted {α : Type} {less : α → α → Bool} (h : StrictWeak less) (l : List α) :
    (SliceStable less l).Pairwise (fun a b => less b a = false) := by
  haveI : IsTotal α (fun a b => less b a = false) :=
    ⟨fun a b => by
      cases hba : less b a with
      | false => exact Or.inl rfl
      | true => exact Or.inr (h.weak_asymm b a hba)⟩
  haveI : IsTrans α (fun a b => less b a = false) :=
    ⟨fun a b c hab hbc => h.negTrans c b a hbc hab⟩
  exact List.sorted_insertionSort _ l

theorem SliceStable_of_sorted {α : Type} (less : α → α → Bool) {l : List α}
    (hl : l.Pairwise (fun a b => less b a = false)) : SliceStable less l = l :=
  List.Sorted.insertionSort_eq hl

/-- Stability: the elements of a class whose members are mutually unordered come out
in the order they went in. -/
theorem SliceStable_filter {α : Type} (less : α → α → Bool) (q : α → Bool)
    (hq : ∀ a b, q a = true → q b = true → less b a = false) (l : List α) :
    (SliceStable less l).filter q = l.filter q := by
  have hsub : List.Sublist (l.filter q) (SliceStable less l) := by
    apply List.sublist_insertionSort
    · rw [List.pairwise_iff_forall_sublist]
      intro a b hab
      have ha : a ∈ l.filter q := hab.subset (by simp)
      have hb : b ∈ l.filter q := hab.subset (by simp)
      exact hq a b (List.mem_filter.mp ha).2 (List.mem_filter.mp hb).2
    · exact List.filter_sublist l
  have h2 : List.Sublist (l.filter q) ((SliceStable less l).filter q) := by
    have := hsub.filter q
    simpa [List.filter_filter] using this
  exact (h2.eq_of_length ((SliceStable_perm less l).filter q).length_eq.symm).symm

/-! ## Claims on the ordering -/

theorem stringLess_empty (s : String) (h : s ≠ "") : stringLess "" s = true := by
  have hd : s.data ≠ [] := fun e => h (String.ext e)
  unfold stringLess
  cases hs : s.data with
  | nil => exact absurd hs hd
  | cons c cs => rfl

/-- What `NULLS LAST` means in the ordering: among policies that agree on the earlier columns, one
with a value sorts before one without. -/
theorem orderByLess_nulls_last (a b : Policy) (hFrom : a.From = b.From) :
    (a.Path ≠ "" → b.Path = "" → orderByLess a b = true) ∧
    (a.Path = b.Path → a.RegexPriorityOrder ≠ none → b.RegexPriorityOrder = none →
      orderByLess a b = true) ∧
    (a.Path = b.Path → a.RegexPriorityOrder = b.RegexPriorityOrder → a.Regex ≠ "" →
      b.Regex = "" → orderByLess a b = true) ∧
    (a.Path = b.Path → a.RegexPriorityOrder = b.RegexPriorityOrder → a.Regex = b.Regex →
      a.Prefix ≠ "" → b.Prefix = "" → orderByLess a b = true) := by
  refine ⟨?_, ?_, ?_, ?_⟩
  · intro h1 h2
    simp [orderByLess, hFrom, h2, stringLess_empty _ h1]
  · intro h0 h1 h2
    cases hr : a.RegexPriorityOrder with
    | none => exact absurd hr h1
    | some x => simp [orderByLess, hFrom, h0, h2, hr, descNullsLast]
  · intro h0 h0' h1 h2
    simp [orderByLess, hFrom, h0, h0', h2, stringLess_empty _ h1]
  · intro h0 h0' h0'' h1 h2
    simp [orderByLess, hFrom, h0, h0', h0'', h2, stringLess_empty _ h1]

/-- A stable sort is unique: two sorted lists that keep every class of mutually unordered
elements in the same order are equal. -/
theorem sorted_stable_unique {α : Type} {less : α → α → Bool} (h : StrictWeak less) :
    ∀ (l₁ l₂ : List α), l₁.Perm l₂ →
      l₁.Pairwise (fun a b => less b a = false) → l₂.Pairwise (fun a b => less b a = false) →
      (∀ k, l₁.filter (unordered less k) = l₂.filter (unordered less k)) → l₁ = l₂
  | [], l₂, hp, _, _, _ => (List.nil_perm.mp hp).symm
  | a :: t₁, [], hp, _, _, _ => absurd hp.symm (by simp)
  | a :: t₁, b :: t₂, hp, hs₁, hs₂, hf => by
    have hs₁' := List.pairwise_cons.mp hs₁
    have hs₂' := List.pairwise_cons.mp hs₂
    have hba : less b a = false := by
      have : b ∈ a :: t₁ := hp.symm.subset (List.mem_cons_self _ _)
      rcases List.mem_cons.mp this with e | hmem
      · rw [e]; exact h.irrefl a
      · exact hs₁'.1 b hmem
    have hab : less a b = false := by
      have : a ∈ b :: t₂ := hp.subset (List.mem_cons_self _ _)
      rcases List.mem_cons.mp this with e | hmem
      · rw [e]; exact h.irrefl b
      · exact hs₂'.1 a hmem
    have hk := hf a
    have haa : unordered less a a = true := by simp [unordered, h.irrefl]
    have hab' : unordered less a b = true := by simp [unordered, hab, hba]
    rw [List.filter_cons_of_pos haa, List.filter_cons_of_pos hab'] at hk
    have e : a = b := (List.cons.inj hk).1
    subst e
    have ht : t₁ = t₂ := by
      apply sorted_stable_unique h t₁ t₂ ((List.perm_cons a).mp hp) hs₁'.2 hs₂'.2
      intro k
      have hk := hf k
      by_cases hka : unordered less k a = true
      · rw [List.filter_cons_of_pos hka, List.filter_cons_of_pos hka] at hk
        exact (List.cons.inj hk).2
      · rw [List.filter_cons_of_neg hka, List.filter_cons_of_neg hka] at hk
        exact hk
    rw [ht]

/-- Whatever stable sorting algorithm `sort.SliceStable` runs, its result on policies is
that of `SortPolicies`: a permutation of the input that is sorted and keeps every class
of equal sort keys in input order is the list `SortPolicies` returns. -/
theorem SortPolicies_unique (pp sorted : List Policy) (hperm : sorted.Perm pp)
    (hsorted : sorted.Pairwise (fun a b => policyLess b a = false))
    (hstable : ∀ k, sorted.filter (sameSortKey k) = pp.filter (sameSortKey k)) :
    sorted = SortPolicies pp := by
  have hcls : ∀ k : Policy, unordered policyLess k = sameSortKey k := by
    intro k
    funext x
    have h := sameSortKey_iff k x
    cases hs : sameSortKey k x with
    | true => rw [hs] at h; simp [unordered, (h.mp rfl).1, (h.mp rfl).2]
    | false =>
      cases h1 : policyLess k x <;> cases h2 : policyLess x k <;> simp [unordered, h1, h2]
      rw [hs] at h
      exact absurd (h.mpr ⟨h1, h2⟩) (by simp)
  apply sorted_stable_unique policyLess_strictWeak sorted (SortPolicies pp)
    (hperm.trans (SliceStable_perm _ pp).symm) hsorted
    (SliceStable_sorted policyLess_strictWeak pp)
  intro k
  rw [hcls k, hstable k]
  symm
  apply SliceStable_filter
  intro a b ha hb
  have hab : sameSortKey a b = true := by
    rw [sameSortKey_fields] at ha hb ⊢
    obtain ⟨a1, a2, a3, a4, a5, a6⟩ := ha
    obtain ⟨b1, b2, b3, b4, b5, b6⟩ := hb
    exact ⟨a1.symm.trans b1, a2.symm.trans b2, a3.symm.trans b3, a4.symm.trans b4,
      a5.symm.trans b5, a6.symm.trans b6⟩
  exact ((sameSortKey_iff a b).mp hab).2

/-- C4: `SortPolicies` returns a permutation of its input that is sorted by the key of
the specification (no later element is strictly before an earlier one in `ORDER BY from
ASC, path DESC NULLS LAST, regex_priority_order DESC NULLS LAST, regex DESC NULLS LAST,
prefix DESC NULLS LAST, id ASC`) and that is stable: for every key, the policies with
that key come out in the order they went in.  In that order an empty path, an unset
regex priority, an empty regex and an empty prefix come after the set ones. -/
theorem SortPolicies_stable_sort (pp : List Policy) :
    (SortPolicies pp).Perm pp ∧
    (SortPolicies pp).Pairwise (fun earlier later => orderByLess later earlier = false) ∧
    (∀ k : Policy, (SortPolicies pp).filter (sameSortKey k) = pp.filter (sameSortKey k)) ∧
    (∀ a b : Policy, a.From = b.From →
      (a.Path ≠ "" → b.Path = "" → orderByLess a b = true) ∧
      (a.Path = b.Path → a.RegexPriorityOrder ≠ none → b.RegexPriorityOrder = none →
        orderByLess a b = true) ∧
      (a.Path = b.Path → a.RegexPriorityOrder = b.RegexPriorityOrder → a.Regex ≠ "" →
        b.Regex = "" → orderByLess a b = true) ∧
      (a.Path = b.Path → a.RegexPriorityOrder = b.RegexPriorityOrder → a.Regex = b.Regex →
        a.Prefix ≠ "" → b.Prefix = "" → orderByLess a b = true)) := by
  refine ⟨SliceStable_perm _ pp, ?_, ?_, orderByLess_nulls_last⟩
  · have h := SliceStable_sorted policyLess_strictWeak pp
    exact h.imp (fun {a b} hab => by rw [← policyLess_eq_orderByLess]; exact hab)
  · intro k
    apply SliceStable_filter
    intro a b ha hb
    have hab : sameSortKey a b = true := by
      rw [sameSortKey_fields] at ha hb ⊢
      obtain ⟨a1, a2, a3, a4, a5, a6⟩ := ha
      obtain ⟨b1, b2, b3, b4, b5, b6⟩ := hb
      exact ⟨a1.symm.trans b1, a2.symm.trans b2, a3.symm.trans b3, a4.symm.trans b4,
        a5.symm.trans b5, a6.symm.trans b6⟩
    exact ((sameSortKey_iff a b).mp hab).2

/-- C5: the comparator of `SortPolicies` is a strict order: irreflexive, asymmetric and
transitive on all policies, whether or not `RegexPriorityOrder` is set. -/
theorem policyLess_strict_order (a b c : Policy) :
    policyLess a a = false ∧
    (policyLess a b = true → policyLess b a = false) ∧
    (policyLess a b = true → policyLess b c = true → policyLess a c = true) :=
  ⟨policyLess_strictWeak.irrefl a, policyLess_strictWeak.weak_asymm a b,
    policyLess_strictWeak.trans a b c⟩

/-- C7: `SortPolicies` is idempotent. -/
theorem SortPolicies_idempotent (pp : List Policy) :
    SortPolicies (SortPolicies pp) = SortPolicies pp :=
  SliceStable_of_sorted policyLess (SliceStable_sorted policyLess_strictWeak pp)

/-- C6 (as stated, refuted): `routeA` and `routeB` have different route IDs, the
comparator orders neither before the other, and the two orders of the pair are sorted
to different sequences. -/
theorem SortPolicies_routeID_counterexample :
    [routeA, routeB].Perm [routeB, routeA] ∧
    [routeA, routeB].Pairwise (fun a b => a.RouteID plainDigest ≠ b.RouteID plainDigest) ∧
    [routeB, routeA].Pairwise (fun a b => a.RouteID plainDigest ≠ b.RouteID plainDigest) ∧
    SortPolicies [routeA, routeB] ≠ SortPolicies [routeB, routeA] ∧
    routeA.RouteID plainDigest ≠ routeB.RouteID plainDigest ∧
    policyLess routeA routeB = false ∧ policyLess routeB routeA = false := by
  have hne : routeA.RouteID plainDigest ≠ routeB.RouteID plainDigest := by decide
  exact ⟨List.Perm.swap _ _ _, List.pairwise_pair.mpr hne, List.pairwise_pair.mpr hne.symm,
    by decide, hne, by decide, by decide⟩

/-- C6 (amended): two lists that are permutations of each other and whose policies have
pairwise distinct sort keys are sorted to the same sequence, and the comparator orders
one of any two policies with different sort keys strictly before the other. -/
theorem SortPolicies_deterministic (l₁ l₂ : List Policy) (hperm : l₁.Perm l₂)
    (hkeys : l₁.Pairwise (fun a b => sameSortKey a b = false)) :
    SortPolicies l₁ = SortPolicies l₂ ∧
    ∀ a b : Policy, sameSortKey a b = false → policyLess a b = true ∨ policyLess b a = true := by
  constructor
  · have hsymm : Symmetric (fun a b : Policy => sameSortKey a b = false) := by
      intro a b h
      cases hba : sameSortKey b a with
      | false => rfl
      | true =>
        have := (sameSortKey_iff b a).mp hba
        have h2 := (sameSortKey_iff a b).mpr ⟨this.2, this.1⟩
        rw [h] at h2; exact absurd h2 (by simp)
    have strict : ∀ l : List Policy, l.Perm l₁ →
        (SortPolicies l).Pairwise (fun a b => policyLess a b = true) := by
      intro l hl
      have hp : (SortPolicies l).Perm l₁ := (SliceStable_perm _ l).trans hl
      have hk : (SortPolicies l).Pairwise (fun a b => sameSortKey a b = false) :=
        (hp.pairwise_iff (fun h => hsymm h)).mpr hkeys
      have hs := SliceStable_sorted policyLess_strictWeak l
      refine (hs.and hk).imp ?_
      intro a b ⟨hba, hne⟩
      cases hab : policyLess a b with
      | true => rfl
      | false =>
        have := (sameSortKey_iff a b).mpr ⟨hab, hba⟩
        rw [hne] at this; exact absurd this (by simp)
    haveI : IsAntisymm Policy (fun a b => policyLess a b = true) :=
      ⟨fun a b hab hba => by
        have := policyLess_strictWeak.weak_asymm a b hab
        rw [this] at hba; exact absurd hba (by simp)⟩
    exact List.eq_of_perm_of_sorted
      ((SliceStable_perm _ l₁).trans (hperm.trans (SliceStable_perm _ l₂).symm))
      (strict l₁ (List.Perm.refl _)) (strict l₂ hperm.symm)
  · intro a b h
    cases hab : policyLess a b with
    | true => exact Or.inl rfl
    | false =>
      cases hba : policyLess b a with
      | true => exact Or.inr rfl
      | false =>
        have := (sameSortKey_iff a b).mpr ⟨hab, hba⟩
        rw [h] at this; exact absurd this (by simp)

/-- The amended C6 at two orders of three routes that differ in regex priority. -/
theorem SortPolicies_deterministic_witness :
    [routeNoPriority, routePriorityOne, routePriorityTwo].Perm
      [routePriorityOne, routePriorityTwo, routeNoPriority] ∧
    SortPolicies [routeNoPriority, routePriorityOne, routePriorityTwo] =
      SortPolicies [routePriorityOne, routePriorityTwo, routeNoPriority] :=
  have hperm : [routeNoPriority, routePriorityOne, routePriorityTwo].Perm
      [routePriorityOne, routePriorityTwo, routeNoPriority] :=
    @List.perm_append_comm _ [routeNoPriority] [routePriorityOne, routePriorityTwo]
  ⟨hperm, (SortPolicies_deterministic _ _ hperm (by decide)).1⟩

/-- The strict order of C5 at three routes, one of them without a regex priority. -/
theorem policyLess_strict_order_witness :
    policyLess routePriorityTwo routePriorityOne = true ∧
    policyLess routePriorityOne routeNoPriority = true ∧
    policyLess routePriorityTwo routeNoPriority = true ∧
    policyLess routePriorityOne routePriorityTwo = false :=
  have h := policyLess_strict_order routePriorityTwo routePriorityOne routeNoPriority
  ⟨by decide, by decide, h.2.2 (by decide) (by decide), h.2.1 (by decide)⟩

/-! ## Claims on the route identity -/

theorem hashTo_eq {σ : Type} (D : Digest σ) (hash : σ) (dst : WeightedURL) :
    hashTo D hash dst = (destinationInput dst).foldl D.call hash := by
  cases hu : dst.URL.User <;> simp [hashTo, destinationInput, hu]

theorem foldl_hashTo {σ : Type} (D : Digest σ) (dsts : List WeightedURL) (hash : σ) :
    dsts.foldl (hashTo D) hash = ((dsts.map destinationInput).flatten).foldl D.call hash := by
  induction dsts generalizing hash with
  | nil => rfl
  | cons d ds ih =>
    simp only [List.foldl_cons, List.map_cons, List.flatten_cons, List.foldl_append, ih, hashTo_eq]

/-- The calls of `generateRouteID` on the digest are the hash input of the
specification, for every digest. -/
theorem generateRouteID_eq {σ : Type} (D : Digest σ) (p : Policy) :
    p.generateRouteID D =
      match hashInput p with
      | some calls => .ok (D.SumHex (D.run calls))
      | none => .error .eitherToOrRedirectOrResponseRequired := by
  unfold Policy.generateRouteID hashInput branchInput Digest.run
  cases hto : p.To with
  | cons d ds => simp [foldl_hashTo, List.foldl_append, hashTo_eq]
  | nil => cases hr : p.Redirect <;> cases hs : p.Response <;> simp

/-- Two policies with empty ID fields have different route IDs under every digest that
tells their hash inputs apart. -/
theorem RouteID_ne_of_separated {σ : Type} (D : Digest σ) (p q : Policy)
    (callsP callsQ : List DigestWrite) (hp : p.ID = "") (hq : q.ID = "")
    (hip : hashInput p = some callsP) (hiq : hashInput q = some callsQ)
    (hsep : D.SumHex (D.run callsP) ≠ D.SumHex (D.run callsQ)) :
    p.RouteID D ≠ q.RouteID D := by
  simp only [Policy.RouteID, hp, hq, ne_eq, not_true_eq_false, if_false, generateRouteID_eq,
    hip, hiq]
  intro h
  exact hsep (Except.ok.inj h)

/-- C8: a policy with a non-empty ID field has that ID as its route ID, without error,
whatever its other fields are. -/
theorem RouteID_of_ID {σ : Type} (D : Digest σ) (p : Policy) (h : p.ID ≠ "") :
    p.RouteID D = .ok p.ID := by
  simp [Policy.RouteID, h]

/-- C8 at a policy that has an ID and neither `To`, `Redirect` nor `Response`. -/
theorem RouteID_of_ID_witness :
    routeNamedOnly.ID ≠ "" ∧ routeNamedOnly.To = [] ∧ routeNamedOnly.Redirect = none ∧
    routeNamedOnly.Response = none ∧ routeNamedOnly.RouteID plainDigest = .ok "my-route" :=
  ⟨by decide, rfl, rfl, rfl, RouteID_of_ID plainDigest routeNamedOnly (by decide)⟩

/-- C9: two policies that agree on ID, From, Prefix, Path, Regex, To, Redirect and
Response have the same route ID (or the same error), whatever their other fields. -/
theorem RouteID_identity_fields {σ : Type} (D : Digest σ) (p q : Policy)
    (hID : p.ID = q.ID) (hFrom : p.From = q.From) (hPrefix : p.Prefix = q.Prefix)
    (hPath : p.Path = q.Path) (hRegex : p.Regex = q.Regex) (hTo : p.To = q.To)
    (hRedirect : p.Redirect = q.Redirect) (hResponse : p.Response = q.Response) :
    p.RouteID D = q.RouteID D := by
  simp only [Policy.RouteID, Policy.generateRouteID, hID, hFrom, hPrefix, hPath, hRegex, hTo,
    hRedirect, hResponse]

/-- C9 at two different policies with the same identity fields. -/
theorem RouteID_identity_fields_witness :
    routeA ≠ routeADescribed ∧
    routeA.RouteID plainDigest = routeADescribed.RouteID plainDigest :=
  ⟨by decide,
    RouteID_identity_fields plainDigest routeA routeADescribed rfl rfl rfl rfl rfl rfl rfl rfl⟩

/-- C10: for a policy with an empty ID, what `RouteID` feeds to the digest is the hash
input of the specification (length-prefixed From, Prefix, Path, Regex; the discriminant
byte of the first of To, Redirect, Response that is set; that branch's payload), and the
result is the hex sum of the digest after it; without an action it is the
missing-destination error.  With `To` set, a redirect or response adds nothing. -/
theorem RouteID_hashInput {σ : Type} (D : Digest σ) (p : Policy) (hID : p.ID = "") :
    (p.RouteID D =
      match hashInput p with
      | some calls => .ok (D.SumHex (D.run calls))
      | none => .error .eitherToOrRedirectOrResponseRequired) ∧
    (p.To ≠ [] → hashInput p = hashInput { p with Redirect := none, Response := none }) := by
  constructor
  · simp only [Policy.RouteID, hID, ne_eq, not_true_eq_false, if_false]
    exact generateRouteID_eq D p
  · intro h
    simp [hashInput, branchInput, h]

/-- C10 at a route with a destination (with user information and a weight) and a
redirect: the input is that of the destination alone. -/
theorem RouteID_hashInput_witness :
    routeWithUser.ID = "" ∧ routeWithUser.Redirect ≠ none ∧
    hashInput routeWithUser = some routeWithUserInput ∧
    routeWithUser.RouteID plainDigest =
      .ok (plainDigest.SumHex (plainDigest.run routeWithUserInput)) := by
  have h := (RouteID_hashInput plainDigest routeWithUser (by decide)).1
  have hi : hashInput routeWithUser = some routeWithUserInput := by decide
  refine ⟨by decide, by decide, hi, ?_⟩
  rw [h, hi]

/-! ## Claims on validation -/

theorem runChecks_error {checks : List Check} {p : Policy} {err : Error}
    (h : (runChecks checks p).2 = some err) : ∃ check ∈ checks, ∃ q, (check q).2 = some err := by
  induction checks generalizing p with
  | nil => simp [runChecks] at h
  | cons c cs ih =>
    unfold runChecks at h
    split at h
    · rename_i e he
      simp only [Option.some.injEq] at h
      subst h
      exact ⟨c, by simp, p, he⟩
    · obtain ⟨c', hc', q, hq⟩ := ih h
      exact ⟨c', by simp [hc'], q, hq⟩

theorem validateDependsOn_error (E : Env) (l : List String) :
    (validateDependsOn E l).2 ≠ some .eitherToOrRedirectOrResponseRequired := by
  induction l with
  | nil => simp [validateDependsOn]
  | cons v rest ih =>
    unfold validateDependsOn
    split
    · split
      · split
        · exact ih
        · simp
      · simp
    · exact ih

theorem findSome_invalidTo (E : Env) (l : List WeightedURL) :
    l.findSome? (fun u => (E.WeightedURLValidate u).map (Error.invalidTo (E.URLString u.URL))) ≠
      some .eitherToOrRedirectOrResponseRequired := by
  intro h
  obtain ⟨u, _, hu⟩ := List.exists_of_findSome?_eq_some h
  cases hv : E.WeightedURLValidate u <;> simp [hv] at hu

/-- No block of `Validate` after the action check returns the missing-destination error. -/
theorem later_checks_error (E : Env) (q : Policy) :
    ∀ check ∈ [validateTo E, validateRedirect, validateAllowlists,
      validateClientCertificate E, validateCustomCA E, validateDownstreamClientCA E,
      validateDownstreamClientCAFile E, validateKubernetesToken, validateRewrite,
      validateRegex E, validateJWTIssuerFormat E, validateDependencies E, validateMCP],
      (check q).2 ≠ some .eitherToOrRedirectOrResponseRequired := by
  intro check hmem
  simp only [List.mem_cons, List.mem_singleton, List.not_mem_nil, or_false] at hmem
  rcases hmem with h | h | h | h | h | h | h | h | h | h | h | h | h <;> subst h
  · unfold validateTo
    split
    · rename_i err he
      intro h
      simp only [Option.some.injEq] at h
      rw [h] at he
      exact findSome_invalidTo E q.To he
    · simp only; split_ifs <;> simp
  · unfold validateRedirect; split <;> simp
  · unfold validateAllowlists; split_ifs <;> simp
  · unfold validateClientCertificate
    split_ifs
    · simp
    · cases h : (E.CertificateFromBase64 q.TLSClientCert q.TLSClientKey).2 <;> simp [h]
    · cases h : (E.CertificateFromFile q.TLSClientCertFile q.TLSClientKeyFile).2 <;> simp [h]
    · simp
  · unfold validateCustomCA; split_ifs <;> (try split) <;> simp
  · unfold validateDownstreamClientCA; split_ifs <;> (try split) <;> simp
  · unfold validateDownstreamClientCAFile; split_ifs <;> (try split) <;> simp
  · unfold validateKubernetesToken; split_ifs <;> simp
  · unfold validateRewrite; split_ifs <;> simp
  · unfold validateRegex; split_ifs <;> simp
  · unfold validateJWTIssuerFormat; split_ifs <;> simp
  · unfold validateDependencies
    split_ifs
    · simp
    · exact validateDependsOn_error E q.DependsOn
  · unfold validateMCP; split_ifs <;> simp

/-- C3 (as stated, refuted): a route with a valid, path-free source that carries two
actions (an upstream and a redirect), and one that carries all three, are accepted by
`Validate`. -/
theorem Validate_cardinality_counterexample :
    simpleEnv.ParseAndValidateURL routeToAndRedirect.From =
      .ok { Scheme := "https", Host := "a.example.com" } ∧
    routeToAndRedirect.To ≠ [] ∧ routeToAndRedirect.Redirect ≠ none ∧
    routeToAndRedirect.Response = none ∧
    (routeToAndRedirect.Validate simpleEnv).2 = none ∧
    routeAllActions.To ≠ [] ∧ routeAllActions.Redirect ≠ none ∧ routeAllActions.Response ≠ none ∧
    (routeAllActions.Validate simpleEnv).2 = none := by
  decide

/-- C3 (amended): for a policy with a valid, path-free source URL, `Validate` returns the
missing-destination error exactly when none of To, Redirect and Response is set; with
one, two or three of them set it never returns that error. -/
theorem Validate_missing_destination (E : Env) (p : Policy) (source : URL)
    (hsrc : E.ParseAndValidateURL p.From = .ok source)
    (hpath : source.Path = "" ∨ source.Path = "/") :
    (p.Validate E).2 = some .eitherToOrRedirectOrResponseRequired ↔
      (p.To = [] ∧ p.Redirect = none ∧ p.Response = none) := by
  have h1 : validateSource E p = (p, none) := by
    simp [validateSource, hsrc, hpath]
  unfold Policy.Validate
  rw [runChecks, h1]
  simp only
  rw [runChecks]
  by_cases h0 : p.To.length = 0 ∧ p.Redirect = none ∧ p.Response = none
  · have h2 : validateAction p = (p, some .eitherToOrRedirectOrResponseRequired) := by
      simp [validateAction, h0]
    have : p.To = [] := List.length_eq_zero.mp h0.1
    simp [h2, this, h0.2.1, h0.2.2]
  · have h2 : validateAction p = (p, none) := by
      simp only [validateAction, if_neg h0]
    have hrhs : ¬ (p.To = [] ∧ p.Redirect = none ∧ p.Response = none) := by
      intro h; exact h0 ⟨by simp [h.1], h.2⟩
    simp only [h2, hrhs, iff_false]
    intro h
    obtain ⟨check, hmem, q, hq⟩ := runChecks_error h
    exact later_checks_error E q check hmem hq

/-- The amended C3 at a policy without any action. -/
theorem Validate_missing_destination_witness :
    routeNoAction.To = [] ∧ routeNoAction.Redirect = none ∧ routeNoAction.Response = none ∧
    (routeNoAction.Validate simpleEnv).2 = some .eitherToOrRedirectOrResponseRequired :=
  ⟨rfl, rfl, rfl,
    (Validate_missing_destination simpleEnv routeNoAction { Scheme := "https", Host := "a.example.com" }
      (by decide) (by decide)).mpr ⟨rfl, rfl, rfl⟩⟩

/-! ## Claims on the wire round trip -/

theorem routeLiteral_core (E : Env) (p : Policy) :
    (p.routeLiteral E).core = p.literalCore E := by
  cases h : p.UpstreamTimeout <;> simp [Policy.routeLiteral, Route.core, Policy.literalCore, h]

theorem setName_core {σ : Type} (E : Env) (D : Digest σ) (p : Policy) (pb : Route) :
    (p.setName E D pb).core = pb.core := by
  unfold Policy.setName; split <;> rfl

theorem setOptionalStrings_core (p : Policy) (pb : Route) :
    (p.setOptionalStrings pb).core = pb.core := rfl

theorem setAudiences_core (p : Policy) (pb : Route) :
    (p.setAudiences pb).core = pb.core := by
  unfold Policy.setAudiences; split <;> rfl

theorem ToProto_core {σ : Type} (E : Env) (D : Digest σ) (p : Policy) (pb : Route)
    (h : p.ToProto E D = .ok pb) :
    pb.Id = p.ID ∧ pb.From = p.From ∧ pb.Prefix = p.Prefix ∧ pb.Path = p.Path ∧
    pb.Regex = p.Regex ∧
    pb.Timeout = some (E.durationpbNew (p.UpstreamTimeout.getD E.DefaultUpstreamTimeout)) ∧
    ((∃ r, p.Redirect = some r ∧ pb.Redirect = some r.toWire ∧ pb.Response = none) ∨
     (∃ r, p.Redirect = none ∧ p.Response = some r ∧ pb.Redirect = none ∧
        pb.Response = some { Status := toUint32 r.Status, Body := r.Body }) ∨
     (∃ flat, p.Redirect = none ∧ p.Response = none ∧ E.Flatten p.To = .ok flat ∧
        pb.Redirect = none ∧ pb.Response = none ∧ pb.To = flat.1 ∧
        pb.LoadBalancingWeights = flat.2)) := by
  unfold Policy.ToProto at h
  generalize hb : p.setAudiences (p.setOptionalStrings (p.setName E D (p.routeLiteral E))) = pb1 at h
  have hc : pb1.core = p.literalCore E := by
    rw [← hb, setAudiences_core, setOptionalStrings_core, setName_core, routeLiteral_core]
  simp only [Route.core, Policy.literalCore, RouteCore.mk.injEq] at hc
  obtain ⟨c1, c2, c3, c4, c5, c6, c7, c8, c9, c10⟩ := hc
  split at h
  · simp at h
  · rename_i pb0 hact
    simp only [Except.ok.injEq] at h
    subst h
    unfold Policy.setAction at hact
    split at hact
    · rename_i r hr
      simp only [Except.ok.injEq] at hact
      subst hact
      exact ⟨c1, c2, c3, c4, c5, c6, Or.inl ⟨r, hr, rfl, c8⟩⟩
    · rename_i hr
      split at hact
      · rename_i r hs
        simp only [Except.ok.injEq] at hact
        subst hact
        exact ⟨c1, c2, c3, c4, c5, c6, Or.inr (Or.inl ⟨r, hr, hs, c7, rfl⟩)⟩
      · rename_i hs
        split at hact
        · simp at hact
        · rename_i flat hf
          simp only [Except.ok.injEq] at hact
          subst hact
          exact ⟨c1, c2, c3, c4, c5, c6, Or.inr (Or.inr ⟨flat, hr, hs, hf, c7, c8, rfl, rfl⟩)⟩

theorem policyLiteral_core (E : Env) (pb : Route) :
    (pb.policyLiteral E).core = pb.literalCore E := rfl

theorem Route.setAudiences_policy_core (pb : Route) (p : Policy) :
    (pb.setAudiences p).core = p.core := by
  unfold Route.setAudiences; split <;> rfl

theorem Route.setEnvoyOpts_policy_core (pb : Route) (p : Policy) :
    (pb.setEnvoyOpts p).core = p.core := rfl

theorem Route.setTrailer_policy_core (E : Env) (pb : Route) (p : Policy) :
    (pb.setTrailer E p).core = p.core := rfl

theorem NewPolicyFromProto_core (E : Env) (pb : Route) (p' : Policy)
    (h : NewPolicyFromProto E pb = .ok p') :
    p'.ID = pb.Id ∧ p'.From = pb.From ∧ p'.Prefix = pb.Prefix ∧ p'.Path = pb.Path ∧
    p'.Regex = pb.Regex ∧ p'.UpstreamTimeout = pb.Timeout.map E.AsDuration ∧
    ((E.RedirectIsSet pb.Redirect = true ∧ p'.Redirect = some (RouteRedirect.fromWire pb.Redirect) ∧
        p'.To = [] ∧ p'.Response = none) ∨
     (∃ r, E.RedirectIsSet pb.Redirect = false ∧ pb.Response = some r ∧ p'.Redirect = none ∧
        p'.To = [] ∧ p'.Response = some { Status := (r.Status : Int), Body := r.Body }) ∨
     (E.RedirectIsSet pb.Redirect = false ∧ pb.Response = none ∧ p'.Redirect = none ∧
        p'.Response = none ∧
        p'.To = setLbWeights pb.LoadBalancingWeights (E.ParseWeightedUrls pb.To).1)) := by
  unfold NewPolicyFromProto at h
  generalize hb : pb.setAudiences (pb.policyLiteral E) = p1 at h
  have hc : p1.core = pb.literalCore E := by
    rw [← hb, Route.setAudiences_policy_core, policyLiteral_core]
  simp only [Policy.core, Route.literalCore, PolicyCore.mk.injEq] at hc
  obtain ⟨c1, c2, c3, c4, c5, c6, c7, c8, c9⟩ := hc
  split at h
  · simp at h
  · rename_i p0 hact
    simp only [Except.ok.injEq] at h
    have hcore : p'.core = p0.core := by
      rw [← h, Route.setTrailer_policy_core, Route.setEnvoyOpts_policy_core]
    simp only [Policy.core, PolicyCore.mk.injEq] at hcore
    obtain ⟨d1, d2, d3, d4, d5, d6, d7, d8, d9⟩ := hcore
    rw [d1, d2, d3, d4, d5, d6, d7, d8, d9]
    clear h d1 d2 d3 d4 d5 d6 d7 d8 d9
    unfold Route.setAction at hact
    split at hact
    · rename_i hset
      simp only [Except.ok.injEq] at hact
      subst hact
      exact ⟨c1, c2, c3, c4, c5, c6, Or.inl ⟨hset, rfl, c7, c9⟩⟩
    · rename_i hset
      simp only [Bool.not_eq_true] at hset
      split at hact
      · rename_i r hs
        simp only [Except.ok.injEq] at hact
        subst hact
        exact ⟨c1, c2, c3, c4, c5, c6, Or.inr (Or.inl ⟨r, hset, hs, c8, c7, rfl⟩)⟩
      · rename_i hs
        split at hact
        · simp at hact
        · simp only [Except.ok.injEq] at hact
          subst hact
          exact ⟨c1, c2, c3, c4, c5, c6, Or.inr (Or.inr ⟨hset, hs, c8, c9, rfl⟩)⟩

theorem toInt32_toUint32 (n : Int) : toInt32 ((toUint32 n : Nat) : Int) = toInt32 n := by
  unfold toInt32 toUint32
  have h : (0 : Int) ≤ n % 2 ^ 32 := Int.emod_nonneg _ (by norm_num)
  rw [Int.toNat_of_nonneg h]
  omega

theorem fromWire_toWire (r : PolicyRedirect) : RouteRedirect.fromWire (some r.toWire) = r := by
  cases r; rfl

/-- C2 (as stated, refuted): `routeA` has no upstream timeout, and the policy read back
from its wire form has one, of thirty seconds (the default of the environment). -/
theorem UpstreamTimeout_counterexample :
    routeA.UpstreamTimeout = none ∧
    (roundTrip simpleEnv plainDigest routeA).map (·.UpstreamTimeout) = .ok (some 30000000000) := by
  decide

/-- C2 (amended): for a policy without an upstream timeout, `ToProto` puts the default
upstream timeout on the wire, and the policy that `NewPolicyFromProto` reads back has
that default, as the wire carries it, for its upstream timeout: it is set. -/
theorem UpstreamTimeout_round_trip {σ : Type} (E : Env) (D : Digest σ) (p : Policy) (pb : Route)
    (p' : Policy) (hunset : p.UpstreamTimeout = none) (h1 : p.ToProto E D = .ok pb)
    (h2 : NewPolicyFromProto E pb = .ok p') :
    pb.Timeout = some (E.durationpbNew E.DefaultUpstreamTimeout) ∧
    p'.UpstreamTimeout = some (E.AsDuration (E.durationpbNew E.DefaultUpstreamTimeout)) := by
  have ht := (ToProto_core E D p pb h1).2.2.2.2.2.1
  have hu := (NewPolicyFromProto_core E pb p' h2).2.2.2.2.2.1
  rw [hunset] at ht
  simp only [Option.getD_none] at ht
  rw [hu, ht]
  exact ⟨rfl, rfl⟩

/-- The amended C2 at `routeA`. -/
theorem UpstreamTimeout_round_trip_witness :
    routeA.UpstreamTimeout = none ∧
    (readBack simpleEnv (wireOf simpleEnv plainDigest routeA)).UpstreamTimeout =
      some 30000000000 :=
  ⟨rfl, (UpstreamTimeout_round_trip simpleEnv plainDigest routeA (wireOf simpleEnv plainDigest routeA)
    (readBack simpleEnv (wireOf simpleEnv plainDigest routeA)) rfl (by decide) (by decide)).2.trans
      (by decide)⟩

/-- C1: the route `routeToAndRedirect`, which carries an upstream and a redirect, is
accepted by `Validate` and its wire round trip succeeds, but the policy read back has
another route ID: `generateRouteID` takes the upstream first, `ToProto` and
`NewPolicyFromProto` the redirect first, so the policy read back has lost the upstream.
The route `routeEmptyRedirect`, whose redirect has no field set, is accepted too and has
a route ID, but `NewPolicyFromProto` asks `IsSet` where `ToProto` asks for a redirect
other than nil: the policy read back has no redirect and no route ID. -/
theorem RouteID_round_trip_diverges :
    (routeToAndRedirect.Validate simpleEnv).2 = none ∧
    (roundTrip simpleEnv plainDigest routeToAndRedirect).map
      (fun p' => decide (p'.RouteID plainDigest = routeToAndRedirect.RouteID plainDigest)) =
      .ok false ∧
    routeToAndRedirect.To ≠ [] ∧
    (roundTrip simpleEnv plainDigest routeToAndRedirect).map (·.To) = .ok [] ∧
    (routeEmptyRedirect.Validate simpleEnv).2 = none ∧
    routeEmptyRedirect.RouteID plainDigest ≠ .error .eitherToOrRedirectOrResponseRequired ∧
    (roundTrip simpleEnv plainDigest routeEmptyRedirect).map (·.Redirect) = .ok none ∧
    (roundTrip simpleEnv plainDigest routeEmptyRedirect).map (·.RouteID plainDigest) =
      .ok (.error .eitherToOrRedirectOrResponseRequired) := by
  decide

/-- A policy that does not carry To together with a Redirect or a Response, and whose
action is kept by the wire form (`IsSet` tells whether the policy has a redirect; without
redirect and response the destinations read back, with their weights, are those of the
policy), has the same route ID, or the same error, after a successful `ToProto` followed
by a successful `NewPolicyFromProto`. -/
theorem RouteID_round_trip {σ : Type} (E : Env) (D : Digest σ) (p : Policy) (pb : Route)
    (p' : Policy)
    (hone : p.To = [] ∨ (p.Redirect = none ∧ p.Response = none))
    (hset : E.RedirectIsSet pb.Redirect = p.Redirect.isSome)
    (hto : p.Redirect = none → p.Response = none →
      setLbWeights pb.LoadBalancingWeights (E.ParseWeightedUrls pb.To).1 = p.To)
    (h1 : p.ToProto E D = .ok pb) (h2 : NewPolicyFromProto E pb = .ok p') :
    p'.RouteID D = p.RouteID D := by
  obtain ⟨a1, a2, a3, a4, a5, _, hA⟩ := ToProto_core E D p pb h1
  obtain ⟨b1, b2, b3, b4, b5, _, hB⟩ := NewPolicyFromProto_core E pb p' h2
  have e1 : p'.ID = p.ID := b1.trans a1
  have e2 : p'.From = p.From := b2.trans a2
  have e3 : p'.Prefix = p.Prefix := b3.trans a3
  have e4 : p'.Path = p.Path := b4.trans a4
  have e5 : p'.Regex = p.Regex := b5.trans a5
  rcases hA with ⟨r, hr, hpr, hps⟩ | ⟨r, hr, hs, hpr, hps⟩ | ⟨flat, hr, hs, hf, hpr, hps, hpt, hpw⟩
  · -- a redirect
    have hTo : p.To = [] := by
      rcases hone with h | h
      · exact h
      · rw [hr] at h; exact absurd h.1 (by simp)
    rw [hr] at hset
    rcases hB with ⟨_, hR, hT, _⟩ | ⟨_, hx, _⟩ | ⟨hx, _⟩
    · rw [hpr, fromWire_toWire] at hR
      simp only [Policy.RouteID, Policy.generateRouteID, e1, e2, e3, e4, e5, hT, hTo, hR, hr]
    · rw [hx] at hset; simp at hset
    · rw [hx] at hset; simp at hset
  · -- a response
    have hTo : p.To = [] := by
      rcases hone with h | h
      · exact h
      · rw [hs] at h; exact absurd h.2 (by simp)
    rw [hr] at hset
    rcases hB with ⟨hx, _⟩ | ⟨r', _, hS, hR, hT, hP⟩ | ⟨_, hS, _⟩
    · rw [hx] at hset; simp at hset
    · rw [hps] at hS
      simp only [Option.some.injEq] at hS
      subst hS
      simp only [Policy.RouteID, Policy.generateRouteID, e1, e2, e3, e4, e5, hT, hTo, hR, hr, hP, hs,
        toInt32_toUint32]
    · rw [hps] at hS; simp at hS
  · -- destinations
    rw [hr] at hset
    rcases hB with ⟨hx, _⟩ | ⟨r', _, hS, _⟩ | ⟨_, _, hR, hP, hT⟩
    · rw [hx] at hset; simp at hset
    · rw [hps] at hS; simp at hS
    · rw [hto hr hs] at hT
      simp only [Policy.RouteID, Policy.generateRouteID, e1, e2, e3, e4, e5, hT, hR, hr, hP, hs]

/-- The route `routeA`, which `Validate` accepts, keeps its route ID through the wire round
trip. -/
theorem RouteID_round_trip_witness :
    (routeA.Validate simpleEnv).2 = none ∧
    (readBack simpleEnv (wireOf simpleEnv plainDigest routeA)).RouteID plainDigest =
      routeA.RouteID plainDigest :=
  ⟨by decide,
   RouteID_round_trip simpleEnv plainDigest routeA (wireOf simpleEnv plainDigest routeA)
    (readBack simpleEnv (wireOf simpleEnv plainDigest routeA))
    (by decide) (by decide) (fun _ _ => by decide) (by decide) (by decide)⟩


/-! ## Claims on validation -/

theorem Validate_eq_runChecks (E : Env) (p : Policy) :
    p.Validate E = runChecks (validateChecks E) p := rfl

theorem runChecks_cons_some {c : Check} {rest : List Check} {p : Policy} {err : Error}
    (h : (c p).2 = some err) : runChecks (c :: rest) p = ((c p).1, some err) := by
  simp only [runChecks, h]

theorem runChecks_cons_none {c : Check} {rest : List Check} {p : Policy}
    (h : (c p).2 = none) : runChecks (c :: rest) p = runChecks rest (c p).1 := by
  simp only [runChecks, h]

theorem runChecks_append_some {pre post : List Check} {p : Policy} {err : Error}
    (h : (runChecks pre p).2 = some err) :
    runChecks (pre ++ post) p = ((runChecks pre p).1, some err) := by
  induction pre generalizing p with
  | nil => simp [runChecks] at h
  | cons c cs ih =>
    cases hc : (c p).2 with
    | some e =>
      rw [runChecks_cons_some hc] at h ⊢
      rw [List.cons_append, runChecks_cons_some hc]
      simp only [Option.some.injEq] at h
      rw [h]
    | none =>
      rw [runChecks_cons_none hc] at h ⊢
      rw [List.cons_append, runChecks_cons_none hc]
      exact ih h

theorem runChecks_append_none {pre post : List Check} {p : Policy}
    (h : (runChecks pre p).2 = none) :
    runChecks (pre ++ post) p = runChecks post (runChecks pre p).1 := by
  induction pre generalizing p with
  | nil => rfl
  | cons c cs ih =>
    cases hc : (c p).2 with
    | some e => rw [runChecks_cons_some hc] at h; simp at h
    | none =>
      rw [runChecks_cons_none hc] at h ⊢
      rw [List.cons_append, runChecks_cons_none hc]
      exact ih h

theorem runChecks_preserves {β : Type} (f : Policy → β) (checks : List Check)
    (h : ∀ c ∈ checks, ∀ q, f (c q).1 = f q) (p : Policy) :
    f (runChecks checks p).1 = f p := by
  induction checks generalizing p with
  | nil => rfl
  | cons c cs ih =>
    have hc := h c (by simp)
    have hcs : ∀ c' ∈ cs, ∀ q, f (c' q).1 = f q := fun c' hm => h c' (by simp [hm])
    cases hr : (c p).2 with
    | some err => rw [runChecks_cons_some hr]; exact hc p
    | none => rw [runChecks_cons_none hr, ih hcs, hc]

/-- When the blocks accept, every block passes on the policy as the blocks before it
left it. -/
theorem runChecks_accepts_split {pre post : List Check} {c : Check} {p : Policy}
    (h : (runChecks (pre ++ c :: post) p).2 = none) :
    (runChecks pre p).2 = none ∧ (c (runChecks pre p).1).2 = none ∧
    (runChecks (pre ++ c :: post) p).1 = (runChecks post (c (runChecks pre p).1).1).1 := by
  cases h1 : (runChecks pre p).2 with
  | some err => rw [runChecks_append_some h1] at h; simp at h
  | none =>
    rw [runChecks_append_none h1] at h ⊢
    cases h2 : (c (runChecks pre p).1).2 with
    | some err => rw [runChecks_cons_some h2] at h; simp at h
    | none => rw [runChecks_cons_none h2]; exact ⟨rfl, rfl, rfl⟩

/-- When a block fails on the policy as the accepting blocks before it left it, the
blocks fail with its error. -/
theorem runChecks_fails {pre post : List Check} {c : Check} {p : Policy} {err : Error}
    (h1 : (runChecks pre p).2 = none) (h2 : (c (runChecks pre p).1).2 = some err) :
    (runChecks (pre ++ c :: post) p).2 = some err := by
  rw [runChecks_append_none h1, runChecks_cons_some h2]

theorem checks_frame (E : Env) :
    ∀ c ∈ validateChecks E, ∀ q, (c q).1.frame = q.frame := by
  intro c hmem q
  simp only [validateChecks, List.mem_cons, List.mem_singleton, List.not_mem_nil, or_false] at hmem
  rcases hmem with h | h | h | h | h | h | h | h | h | h | h | h | h | h | h <;> subst h
  · unfold validateSource; split <;> (try split) <;> rfl
  · unfold validateAction; split <;> rfl
  · unfold validateTo; split <;> (try (simp only; split_ifs)) <;> rfl
  · unfold validateRedirect; split <;> rfl
  · unfold validateAllowlists; split_ifs <;> rfl
  · unfold validateClientCertificate; split_ifs <;> rfl
  · unfold validateCustomCA; split_ifs <;> (try split) <;> rfl
  · unfold validateDownstreamClientCA; split_ifs <;> (try split) <;> rfl
  · unfold validateDownstreamClientCAFile; split_ifs <;> (try split) <;> rfl
  · unfold validateKubernetesToken; split_ifs <;> rfl
  · unfold validateRewrite; split_ifs <;> rfl
  · unfold validateRegex; split_ifs <;> rfl
  · unfold validateJWTIssuerFormat; split_ifs <;> rfl
  · unfold validateDependencies; split_ifs <;> rfl
  · unfold validateMCP; split_ifs <;> rfl

/-- An error found by `Validate` comes from one of its blocks, run on a policy with the
frame of the validated one. -/
theorem Validate_error_check (E : Env) (p : Policy) (err : Error)
    (h : (p.Validate E).2 = some err) :
    ∃ c ∈ validateChecks E, ∃ q, q.frame = p.frame ∧ (c q).2 = some err := by
  rw [Validate_eq_runChecks] at h
  have key : ∀ (checks : List Check) (p0 : Policy),
      (∀ c ∈ checks, c ∈ validateChecks E) → p0.frame = p.frame →
      (runChecks checks p0).2 = some err →
      ∃ c ∈ validateChecks E, ∃ q, q.frame = p.frame ∧ (c q).2 = some err := by
    intro checks
    induction checks with
    | nil => intro p0 _ _ h0; simp [runChecks] at h0
    | cons c cs ih =>
      intro p0 hsub hf h0
      cases hc : (c p0).2 with
      | some e =>
        rw [runChecks_cons_some hc] at h0
        simp only [Option.some.injEq] at h0
        subst h0
        exact ⟨c, hsub c (by simp), p0, hf, hc⟩
      | none =>
        rw [runChecks_cons_none hc] at h0
        exact ih (c p0).1 (fun c' hm => hsub c' (by simp [hm]))
          ((checks_frame E c (hsub c (by simp)) p0).trans hf) h0
  exact key (validateChecks E) p (fun c hc => hc) rfl h

/-- When `Validate` accepts, each of its blocks passed, on a policy with the frame of the
validated one. -/
theorem Validate_accepts_check (E : Env) (p : Policy) (h : (p.Validate E).2 = none)
    (pre post : List Check) (c : Check) (hl : validateChecks E = pre ++ c :: post) :
    ∃ q, q.frame = p.frame ∧ (c q).2 = none ∧ q = (runChecks pre p).1 ∧
      (p.Validate E).1 = (runChecks post (c q).1).1 := by
  rw [Validate_eq_runChecks, hl] at h ⊢
  obtain ⟨_, h2, h3⟩ := runChecks_accepts_split h
  refine ⟨(runChecks pre p).1, ?_, h2, rfl, h3⟩
  exact runChecks_preserves Policy.frame pre
    (fun c' hc' => checks_frame E c' (by rw [hl]; exact List.mem_append_left _ hc')) p

/-- C13: a policy whose source is an http or https URL with a path other than the empty
string and `/` is rejected by `Validate`, with the error that names the source URL,
whatever its other fields are. -/
theorem Validate_source_path (E : Env) (p : Policy) (source : URL)
    (hsrc : E.ParseAndValidateURL p.From = .ok source)
    (hscheme : source.Scheme = "http" ∨ source.Scheme = "https")
    (hpath : ¬ (source.Path = "" ∨ source.Path = "/")) :
    (p.Validate E).2 = some (.sourceURLHasPath (E.URLString source)) := by
  have h1 : (validateSource E p).2 = some (.sourceURLHasPath (E.URLString source)) := by
    simp only [validateSource, hsrc]
    rw [if_pos ⟨hscheme, hpath⟩]
  rw [Validate_eq_runChecks, validateChecks, runChecks_cons_some h1]

/-- C14 (amended): the source URL of a policy that `Validate` accepts parses, and when its
scheme is http or https its path is empty or `/`; for another scheme the path is not
looked at. -/
theorem Validate_accepted_source (E : Env) (p : Policy) (h : (p.Validate E).2 = none) :
    ∃ source, E.ParseAndValidateURL p.From = .ok source ∧
      ((source.Scheme = "http" ∨ source.Scheme = "https") →
        (source.Path = "" ∨ source.Path = "/")) := by
  obtain ⟨q, hq, hc, _, _⟩ := Validate_accepts_check E p h [] _ (validateSource E) rfl
  have hfrom : q.From = p.From := congrArg PolicyFrame.From hq
  unfold validateSource at hc
  rw [hfrom] at hc
  cases hp : E.ParseAndValidateURL p.From with
  | error e => rw [hp] at hc; simp at hc
  | ok source =>
    rw [hp] at hc
    refine ⟨source, rfl, fun hs => ?_⟩
    by_contra hpath
    simp only [if_pos (And.intro hs hpath)] at hc
    simp at hc

theorem dedup_two {α : Type} [DecidableEq α] {l : List α} {a b : α} (ha : a ∈ l) (hb : b ∈ l)
    (hab : a ≠ b) : l.dedup.length > 1 := by
  have hnd : [a, b].Nodup := by simp [hab]
  have hsub : [a, b] ⊆ l.dedup := by
    intro x hx
    simp only [List.mem_cons, List.mem_singleton, List.not_mem_nil, or_false] at hx
    rcases hx with e | e <;> subst e <;> simpa using ‹_›
  have := (List.subperm_of_subset hnd hsub).length_le
  simpa using this

theorem dedup_same {α : Type} [DecidableEq α] {l : List α}
    (h : ∀ a ∈ l, ∀ b ∈ l, a = b) : l.dedup.length ≤ 1 := by
  have hnd := List.nodup_dedup l
  have hall : ∀ a ∈ l.dedup, ∀ b ∈ l.dedup, a = b :=
    fun a ha b hb => h a (List.mem_dedup.mp ha) b (List.mem_dedup.mp hb)
  cases hl : l.dedup with
  | nil => simp
  | cons x t =>
    cases t with
    | nil => simp
    | cons y t' =>
      rw [hl] at hnd hall
      have := hall x (by simp) y (by simp)
      subst this
      simp at hnd

/-- The block of the destinations fails when a scheme is mixed with tcp or udp. -/
theorem validateTo_mixed (E : Env) (q : Policy) (s : String) (hs : s = "tcp" ∨ s = "udp")
    (u v : WeightedURL) (hu : u ∈ q.To) (hv : v ∈ q.To) (hus : u.URL.Scheme = s)
    (hvs : v.URL.Scheme ≠ s) : (validateTo E q).2 ≠ none := by
  have hlen : ((q.To.map (·.URL.Scheme)).dedup).length > 1 :=
    dedup_two (List.mem_map.mpr ⟨u, hu, rfl⟩) (List.mem_map.mpr ⟨v, hv, rfl⟩)
      (by rw [hus]; exact fun e => hvs e.symm)
  have hmem : s ∈ (q.To.map (·.URL.Scheme)).dedup :=
    List.mem_dedup.mpr (List.mem_map.mpr ⟨u, hu, hus⟩)
  unfold validateTo
  split
  · simp
  · simp only
    rcases hs with e | e <;> subst e
    · rw [if_pos ⟨hmem, hlen⟩]; simp
    · split_ifs <;> simp_all

/-- The errors of the loop over `DependsOn`. -/
theorem validateDependsOn_kind (E : Env) (l : List String) (err : Error)
    (h : (validateDependsOn E l).2 = some err) : ∃ v ∈ l, err = .unsupportedDependsOn v := by
  induction l with
  | nil => simp [validateDependsOn] at h
  | cons v rest ih =>
    unfold validateDependsOn at h
    split at h
    · split at h
      · split at h
        · obtain ⟨w, hw, he⟩ := ih h
          exact ⟨w, by simp [hw], he⟩
        · simp only [Option.some.injEq] at h
          exact ⟨v, by simp, h.symm⟩
      · simp only [Option.some.injEq] at h
        exact ⟨v, by simp, h.symm⟩
    · obtain ⟨w, hw, he⟩ := ih h
      exact ⟨w, by simp [hw], he⟩

/-- The mixed-scheme errors come from the block of the destinations only, and only when
the set of schemes has more than one member. -/
theorem checks_mixed (E : Env) (q : Policy) (err : Error)
    (herr : err = .mixTCP ∨ err = .mixUDP) :
    ∀ c ∈ validateChecks E, (c q).2 = some err →
      ((q.To.map (·.URL.Scheme)).dedup).length > 1 := by
  intro c hmem hc
  simp only [validateChecks, List.mem_cons, List.mem_singleton, List.not_mem_nil, or_false] at hmem
  rcases hmem with h | h | h | h | h | h | h | h | h | h | h | h | h | h | h <;> subst h
  · unfold validateSource at hc
    split at hc <;> (try split at hc) <;> rcases herr with e | e <;> subst e <;> simp at hc
  · unfold validateAction at hc
    split at hc <;> rcases herr with e | e <;> subst e <;> simp at hc
  · unfold validateTo at hc
    split at hc
    · rename_i e he
      simp only [Option.some.injEq] at hc
      subst hc
      obtain ⟨u, _, hu⟩ := List.exists_of_findSome?_eq_some he
      simp only [Option.map_eq_some'] at hu
      obtain ⟨a, _, ha⟩ := hu
      rcases herr with e | e <;> subst e <;> simp at ha
    · simp only at hc
      split_ifs at hc with h1 h2
      · exact h1.2
      · exact h2.2
  · unfold validateRedirect at hc
    split at hc <;> rcases herr with e | e <;> subst e <;> simp at hc
  · unfold validateAllowlists at hc
    split_ifs at hc <;> rcases herr with e | e <;> subst e <;> simp at hc
  · unfold validateClientCertificate at hc
    split_ifs at hc
    · rcases herr with e | e <;> subst e <;> simp at hc
    · simp only [Option.map_eq_some'] at hc
      obtain ⟨a, _, ha⟩ := hc
      rcases herr with e | e <;> subst e <;> simp at ha
    · simp only [Option.map_eq_some'] at hc
      obtain ⟨a, _, ha⟩ := hc
      rcases herr with e | e <;> subst e <;> simp at ha
  · unfold validateCustomCA at hc
    split_ifs at hc <;> (try split at hc) <;> rcases herr with e | e <;> subst e <;> simp at hc
  · unfold validateDownstreamClientCA at hc
    split_ifs at hc
    split at hc <;> rcases herr with e | e <;> subst e <;> simp at hc
  · unfold validateDownstreamClientCAFile at hc
    split_ifs at hc
    split at hc <;> rcases herr with e | e <;> subst e <;> simp at hc
  · unfold validateKubernetesToken at hc
    split_ifs at hc
    rcases herr with e | e <;> subst e <;> simp at hc
  · unfold validateRewrite at hc
    split_ifs at hc
    rcases herr with e | e <;> subst e <;> simp at hc
  · unfold validateRegex at hc
    split_ifs at hc
  · unfold validateJWTIssuerFormat at hc
    split_ifs at hc
    rcases herr with e | e <;> subst e <;> simp at hc
  · unfold validateDependencies at hc
    split_ifs at hc
    · rcases herr with e | e <;> subst e <;> simp at hc
    · obtain ⟨v, _, hv⟩ := validateDependsOn_kind E _ _ hc
      rcases herr with e | e <;> subst e <;> simp at hv
  · unfold validateMCP at hc
    split_ifs at hc
    rcases herr with e | e <;> subst e <;> simp at hc

/-- C15: a policy whose destinations hold a tcp URL and a URL of another scheme, or a udp
URL and a URL of another scheme, is rejected by `Validate`; when all destinations share
one scheme, `Validate` never returns a mixed-scheme error. -/
theorem Validate_mixed_schemes (E : Env) (p : Policy) :
    (∀ u ∈ p.To, ∀ v ∈ p.To, u.URL.Scheme = "tcp" → v.URL.Scheme ≠ "tcp" →
      (p.Validate E).2 ≠ none) ∧
    (∀ u ∈ p.To, ∀ v ∈ p.To, u.URL.Scheme = "udp" → v.URL.Scheme ≠ "udp" →
      (p.Validate E).2 ≠ none) ∧
    ((∀ u ∈ p.To, ∀ v ∈ p.To, u.URL.Scheme = v.URL.Scheme) →
      (p.Validate E).2 ≠ some .mixTCP ∧ (p.Validate E).2 ≠ some .mixUDP) := by
  have mixed : ∀ s, s = "tcp" ∨ s = "udp" → ∀ u ∈ p.To, ∀ v ∈ p.To, u.URL.Scheme = s →
      v.URL.Scheme ≠ s → (p.Validate E).2 ≠ none := by
    intro s hs u hu v hv hus hvs hacc
    obtain ⟨q, hq, hc, _, _⟩ :=
      Validate_accepts_check E p hacc [validateSource E, validateAction] _ (validateTo E) rfl
    have hto : q.To = p.To := congrArg PolicyFrame.To hq
    exact validateTo_mixed E q s hs u v (hto ▸ hu) (hto ▸ hv) hus hvs hc
  refine ⟨fun u hu v hv => mixed "tcp" (Or.inl rfl) u hu v hv,
    fun u hu v hv => mixed "udp" (Or.inr rfl) u hu v hv, ?_⟩
  intro hsame
  have none_mixed : ∀ err, err = .mixTCP ∨ err = .mixUDP → (p.Validate E).2 ≠ some err := by
    intro err herr h
    obtain ⟨c, hc, q, hq, hcq⟩ := Validate_error_check E p err h
    have hto : q.To = p.To := congrArg PolicyFrame.To hq
    have hlen := checks_mixed E q err herr c hc hcq
    have hle : ((q.To.map (·.URL.Scheme)).dedup).length ≤ 1 := by
      apply dedup_same
      intro a ha b hb
      obtain ⟨u, hu, rfl⟩ := List.mem_map.mp ha
      obtain ⟨v, hv, rfl⟩ := List.mem_map.mp hb
      exact hsame u (hto ▸ hu) v (hto ▸ hv)
    omega
  exact ⟨none_mixed _ (Or.inl rfl), none_mixed _ (Or.inr rfl)⟩

theorem GetEnvoyResponseCode_error_iff (r : Option PolicyRedirect) :
    (∃ err, PolicyRedirect.GetEnvoyResponseCode r = .error err) ↔
      ∃ code, r.bind (·.ResponseCode) = some code ∧
        code ≠ 301 ∧ code ≠ 302 ∧ code ≠ 303 ∧ code ≠ 307 ∧ code ≠ 308 := by
  unfold PolicyRedirect.GetEnvoyResponseCode
  cases h : r.bind (·.ResponseCode) with
  | none => simp
  | some code =>
    simp only [Option.some.injEq, exists_eq_left']
    split_ifs <;> simp_all

/-- C16: the function `GetEnvoyResponseCode` fails exactly when the response code is set
to a value other than 301, 302, 303, 307 and 308; an unset code gives the zero value of the
enum without error and a supported code gives its enum value. A policy whose redirect
carries an unsupported code is rejected by `Validate`. -/
theorem Validate_redirect_code (E : Env) (p : Policy) :
    (∀ r : Option PolicyRedirect,
      ((∃ err, PolicyRedirect.GetEnvoyResponseCode r = .error err) ↔
        ∃ code, r.bind (·.ResponseCode) = some code ∧
          code ≠ 301 ∧ code ≠ 302 ∧ code ≠ 303 ∧ code ≠ 307 ∧ code ≠ 308) ∧
      (r.bind (·.ResponseCode) = none →
        PolicyRedirect.GetEnvoyResponseCode r = .ok .MOVED_PERMANENTLY) ∧
      (r.bind (·.ResponseCode) = some 301 →
        PolicyRedirect.GetEnvoyResponseCode r = .ok .MOVED_PERMANENTLY) ∧
      (r.bind (·.ResponseCode) = some 302 → PolicyRedirect.GetEnvoyResponseCode r = .ok .FOUND) ∧
      (r.bind (·.ResponseCode) = some 303 →
        PolicyRedirect.GetEnvoyResponseCode r = .ok .SEE_OTHER) ∧
      (r.bind (·.ResponseCode) = some 307 →
        PolicyRedirect.GetEnvoyResponseCode r = .ok .TEMPORARY_REDIRECT) ∧
      (r.bind (·.ResponseCode) = some 308 →
        PolicyRedirect.GetEnvoyResponseCode r = .ok .PERMANENT_REDIRECT)) ∧
    (∀ redirect code, p.Redirect = some redirect → redirect.ResponseCode = some code →
      code ≠ 301 → code ≠ 302 → code ≠ 303 → code ≠ 307 → code ≠ 308 →
      (p.Validate E).2 ≠ none) := by
  constructor
  · intro r
    refine ⟨GetEnvoyResponseCode_error_iff r, ?_, ?_, ?_, ?_, ?_, ?_⟩ <;>
      intro h <;> simp [PolicyRedirect.GetEnvoyResponseCode, h]
  · intro redirect code hr hcode h1 h2 h3 h4 h5 hacc
    obtain ⟨q, hq, hc, _, _⟩ := Validate_accepts_check E p hacc
      [validateSource E, validateAction, validateTo E] _ validateRedirect rfl
    have hred : q.Redirect = p.Redirect := congrArg PolicyFrame.Redirect hq
    unfold validateRedirect PolicyRedirect.validate at hc
    rw [hred, hr] at hc
    simp [PolicyRedirect.GetEnvoyResponseCode, hcode, h1, h2, h3, h4, h5] at hc

/-- C17: in a policy that `Validate` accepts, public access comes without
`AllowAnyAuthenticatedUser`, `AllowedUsers` and `AllowedDomains`, and
`AllowAnyAuthenticatedUser` comes without `AllowedUsers` and `AllowedDomains`; a public
policy with a list of allowed users is rejected. -/
theorem Validate_allowlists (E : Env) (p : Policy) :
    ((p.Validate E).2 = none →
      (p.AllowPublicUnauthenticatedAccess = true →
        p.AllowAnyAuthenticatedUser = false ∧ p.AllowedUsers = none ∧ p.AllowedDomains = none) ∧
      (p.AllowAnyAuthenticatedUser = true → p.AllowedUsers = none ∧ p.AllowedDomains = none)) ∧
    (p.AllowPublicUnauthenticatedAccess = true → p.AllowedUsers ≠ none →
      (p.Validate E).2 ≠ none) := by
  have main : (p.Validate E).2 = none →
      (p.AllowPublicUnauthenticatedAccess = true →
        p.AllowAnyAuthenticatedUser = false ∧ p.AllowedUsers = none ∧ p.AllowedDomains = none) ∧
      (p.AllowAnyAuthenticatedUser = true → p.AllowedUsers = none ∧ p.AllowedDomains = none) := by
    intro hacc
    obtain ⟨q, hq, hc, _, _⟩ := Validate_accepts_check E p hacc
      [validateSource E, validateAction, validateTo E, validateRedirect] _ validateAllowlists rfl
    have e1 : q.AllowPublicUnauthenticatedAccess = p.AllowPublicUnauthenticatedAccess :=
      congrArg PolicyFrame.AllowPublicUnauthenticatedAccess hq
    have e2 : q.AllowAnyAuthenticatedUser = p.AllowAnyAuthenticatedUser :=
      congrArg PolicyFrame.AllowAnyAuthenticatedUser hq
    have e3 : q.AllowedDomains = p.AllowedDomains := congrArg PolicyFrame.AllowedDomains hq
    have e4 : q.AllowedUsers = p.AllowedUsers := congrArg PolicyFrame.AllowedUsers hq
    unfold validateAllowlists at hc
    rw [e1, e2, e3, e4] at hc
    split_ifs at hc with c1 c2
    constructor
    · intro hpub
      simp only [hpub, true_and, not_or, ne_eq, not_not, Bool.not_eq_true] at c1
      exact ⟨c1.1, c1.2.2, c1.2.1⟩
    · intro hany
      simp only [hany, true_and, not_or, ne_eq, not_not] at c2
      exact ⟨c2.2, c2.1⟩
  refine ⟨main, fun hpub husers hacc => ?_⟩
  exact husers ((main hacc).1 hpub).2.1

/-- The blocks of `Validate` before the dependencies leave `DependsOn` as it is. -/
theorem checks_before_dependencies (E : Env) :
    ∀ c ∈ [validateSource E, validateAction, validateTo E, validateRedirect, validateAllowlists,
      validateClientCertificate E, validateCustomCA E, validateDownstreamClientCA E,
      validateDownstreamClientCAFile E, validateKubernetesToken, validateRewrite,
      validateRegex E, validateJWTIssuerFormat E], ∀ q, (c q).1.DependsOn = q.DependsOn := by
  intro c hmem q
  simp only [List.mem_cons, List.mem_singleton, List.not_mem_nil, or_false] at hmem
  rcases hmem with h | h | h | h | h | h | h | h | h | h | h | h | h <;> subst h
  · unfold validateSource; split <;> (try split) <;> rfl
  · unfold validateAction; split <;> rfl
  · unfold validateTo; split <;> (try (simp only; split_ifs)) <;> rfl
  · unfold validateRedirect; split <;> rfl
  · unfold validateAllowlists; split_ifs <;> rfl
  · unfold validateClientCertificate; split_ifs <;> rfl
  · unfold validateCustomCA; split_ifs <;> (try split) <;> rfl
  · unfold validateDownstreamClientCA; split_ifs <;> (try split) <;> rfl
  · unfold validateDownstreamClientCAFile; split_ifs <;> (try split) <;> rfl
  · unfold validateKubernetesToken; split_ifs <;> rfl
  · unfold validateRewrite; split_ifs <;> rfl
  · unfold validateRegex; split_ifs <;> rfl
  · unfold validateJWTIssuerFormat; split_ifs <;> rfl

/-- The blocks of `Validate` after the regex leave `compiledRegex` as it is. -/
theorem checks_after_regex (E : Env) :
    ∀ c ∈ [validateJWTIssuerFormat E, validateDependencies E, validateMCP],
      ∀ q, (c q).1.compiledRegex = q.compiledRegex := by
  intro c hmem q
  simp only [List.mem_cons, List.mem_singleton, List.not_mem_nil, or_false] at hmem
  rcases hmem with h | h | h <;> subst h
  · unfold validateJWTIssuerFormat; split_ifs <;> rfl
  · unfold validateDependencies; split_ifs <;> rfl
  · unfold validateMCP; split_ifs <;> rfl

/-- C19 (amended): the regex block of `Validate` never fails: the error of the compiler is
dropped. An accepted policy with a non-empty `Regex` carries whatever the compiler
returned for the anchored pattern, which is nothing when the pattern is not a regular
expression. -/
theorem Validate_regex (E : Env) (p : Policy) :
    (∀ q, (validateRegex E q).2 = none) ∧
    ((p.Validate E).2 = none → p.Regex ≠ "" →
      (p.Validate E).1.compiledRegex = E.regexpCompile (anchoredRegex p.Regex)) := by
  constructor
  · intro q
    unfold validateRegex
    split_ifs <;> rfl
  · intro hacc hre
    obtain ⟨q, hq, _, _, hfin⟩ := Validate_accepts_check E p hacc
      [validateSource E, validateAction, validateTo E, validateRedirect, validateAllowlists,
        validateClientCertificate E, validateCustomCA E, validateDownstreamClientCA E,
        validateDownstreamClientCAFile E, validateKubernetesToken, validateRewrite]
      _ (validateRegex E) rfl
    have hregex : q.Regex = p.Regex := congrArg PolicyFrame.Regex hq
    rw [hfin, runChecks_preserves (·.compiledRegex) _ (checks_after_regex E)]
    unfold validateRegex
    rw [if_pos (by rw [hregex]; exact hre), hregex]

theorem validateDependsOn_ok (E : Env) (l : List String)
    (h : (validateDependsOn E l).2 = none) :
    List.Forall₂ (dependsOnEntry E) l (validateDependsOn E l).1 := by
  induction l with
  | nil => simp [validateDependsOn]
  | cons v rest ih =>
    unfold validateDependsOn at h ⊢
    split
    · rename_i hs
      split
      · rename_i u hu
        split
        · rename_i hsh
          rw [hs, hu] at h
          simp only [if_pos hsh] at h
          exact List.Forall₂.cons (Or.inr ⟨hs, u, hu, hsh.1, hsh.2, rfl⟩) (ih h)
        · rename_i hsh
          rw [hs, hu] at h
          simp [if_neg hsh] at h
      · rename_i e he
        rw [hs, he] at h
        simp at h
    · rename_i hs
      rw [if_neg hs] at h
      exact List.Forall₂.cons (Or.inl ⟨by simpa using hs, rfl⟩) (ih h)

theorem validateDependencies_ok (E : Env) (q : Policy)
    (h : (validateDependencies E q).2 = none) :
    q.DependsOn.length ≤ 5 ∧ (validateDependsOn E q.DependsOn).2 = none ∧
    (validateDependencies E q).1.DependsOn = (validateDependsOn E q.DependsOn).1 := by
  unfold validateDependencies at h ⊢
  split_ifs at h ⊢ with hlen
  exact ⟨by omega, h, rfl⟩

/-- C20: after `Validate` succeeds `DependsOn` has at most five entries, each entry without
a `/` kept and each entry with a `/` replaced by the host of its URL, so that no entry
contains a `/` (a host does not); more than five entries, or an entry with a `/` that is
not a URL with a scheme and a host, make `Validate` fail. -/
theorem Validate_dependsOn (E : Env) (p : Policy) :
    ((p.Validate E).2 = none →
      (p.Validate E).1.DependsOn.length ≤ 5 ∧
      List.Forall₂ (dependsOnEntry E) p.DependsOn (p.Validate E).1.DependsOn ∧
      ((∀ s u, E.urlParse s = .ok u → containsSlash u.Host = false) →
        ∀ w ∈ (p.Validate E).1.DependsOn, containsSlash w = false)) ∧
    (p.DependsOn.length > 5 → (p.Validate E).2 ≠ none) ∧
    (∀ v ∈ p.DependsOn, containsSlash v = true →
      (¬ ∃ u, E.urlParse v = .ok u ∧ u.Scheme ≠ "" ∧ u.Host ≠ "") → (p.Validate E).2 ≠ none) := by
  have main : (p.Validate E).2 = none →
      p.DependsOn.length ≤ 5 ∧
      List.Forall₂ (dependsOnEntry E) p.DependsOn (p.Validate E).1.DependsOn := by
    intro hacc
    obtain ⟨q, _, hc, hq, hfin⟩ := Validate_accepts_check E p hacc
      [validateSource E, validateAction, validateTo E, validateRedirect, validateAllowlists,
        validateClientCertificate E, validateCustomCA E, validateDownstreamClientCA E,
        validateDownstreamClientCAFile E, validateKubernetesToken, validateRewrite,
        validateRegex E, validateJWTIssuerFormat E]
      _ (validateDependencies E) rfl
    have hdep : q.DependsOn = p.DependsOn := by
      rw [hq]; exact runChecks_preserves (·.DependsOn) _ (checks_before_dependencies E) p
    have hlast : (p.Validate E).1.DependsOn = ((validateDependencies E q).1).DependsOn := by
      rw [hfin]
      apply runChecks_preserves (·.DependsOn)
      intro c hmem r
      simp only [List.mem_singleton] at hmem
      subst hmem
      unfold validateMCP; split_ifs <;> rfl
    obtain ⟨hlen, hloop, hstate⟩ := validateDependencies_ok E q hc
    rw [hlast, hstate]
    rw [hdep] at hlen hloop ⊢
    exact ⟨hlen, validateDependsOn_ok E _ hloop⟩
  refine ⟨fun hacc => ?_, fun hlen hacc => ?_, fun v hv hs hbad hacc => ?_⟩
  · obtain ⟨hlen, hall⟩ := main hacc
    refine ⟨by rw [← hall.length_eq]; exact hlen, hall, fun hhost w hw => ?_⟩
    obtain ⟨i, hi, hget⟩ := List.getElem_of_mem hw
    have hi' : i < p.DependsOn.length := by rw [hall.length_eq]; exact hi
    have hrel := List.Forall₂.get hall hi' hi
    simp only [List.get_eq_getElem] at hrel
    rw [hget] at hrel
    rcases hrel with ⟨hns, hw'⟩ | ⟨_, u, hu, _, _, hw'⟩
    · rw [hw']; exact hns
    · rw [hw']; exact hhost _ u hu
  · have := (main hacc).1
    omega
  · obtain ⟨_, hall⟩ := main hacc
    obtain ⟨i, hi, hget⟩ := List.getElem_of_mem hv
    have hi' : i < (p.Validate E).1.DependsOn.length := by rw [← hall.length_eq]; exact hi
    have hrel := List.Forall₂.get hall hi hi'
    simp only [List.get_eq_getElem] at hrel
    rw [hget] at hrel
    rcases hrel with ⟨hns, _⟩ | ⟨_, u, hu, h1, h2, _⟩
    · rw [hs] at hns; simp at hns
    · exact hbad ⟨u, hu, h1, h2⟩

/-! ## Claims on the nullable fields and on construction from the wire -/

theorem Policy_setAction_nullable (E : Env) (p : Policy) (pb pb' : Route)
    (h : p.setAction E pb = .ok pb') :
    pb'.nullable = pb.nullable ∧
    pb'.IdpAccessTokenAllowedAudiences = pb.IdpAccessTokenAllowedAudiences := by
  unfold Policy.setAction at h
  split at h
  · simp only [Except.ok.injEq] at h; subst h; exact ⟨rfl, rfl⟩
  · split at h
    · simp only [Except.ok.injEq] at h; subst h; exact ⟨rfl, rfl⟩
    · split at h
      · simp at h
      · simp only [Except.ok.injEq] at h; subst h; exact ⟨rfl, rfl⟩

theorem Route_setAction_nullable (E : Env) (pb : Route) (p p' : Policy)
    (h : pb.setAction E p = .ok p') :
    p'.nullable = p.nullable ∧
    p'.IDPAccessTokenAllowedAudiences = p.IDPAccessTokenAllowedAudiences := by
  unfold Route.setAction at h
  split at h
  · simp only [Except.ok.injEq] at h; subst h; exact ⟨rfl, rfl⟩
  · split at h
    · simp only [Except.ok.injEq] at h; subst h; exact ⟨rfl, rfl⟩
    · split at h
      · simp at h
      · simp only [Except.ok.injEq] at h; subst h; exact ⟨rfl, rfl⟩

theorem ToProto_nullable {σ : Type} (E : Env) (D : Digest σ) (p : Policy) (pb : Route)
    (h : p.ToProto E D = .ok pb) :
    pb.IdleTimeout = p.IdleTimeout.map E.durationpbNew ∧
    pb.PassIdentityHeaders = p.PassIdentityHeaders ∧
    pb.RegexPriorityOrder = p.RegexPriorityOrder ∧
    pb.IdpAccessTokenAllowedAudiences = p.IDPAccessTokenAllowedAudiences := by
  unfold Policy.ToProto at h
  generalize hb : p.setAudiences (p.setOptionalStrings (p.setName E D (p.routeLiteral E))) = pb1 at h
  have hn : pb1.nullable =
      (p.IdleTimeout.map E.durationpbNew, p.PassIdentityHeaders, p.RegexPriorityOrder) := by
    rw [← hb]
    have e1 : ∀ x : Route, (p.setAudiences x).nullable = x.nullable := by
      intro x; unfold Policy.setAudiences; split <;> rfl
    have e2 : ∀ x : Route, (p.setName E D x).nullable = x.nullable := by
      intro x; unfold Policy.setName; split <;> rfl
    rw [e1, show ∀ x : Route, (p.setOptionalStrings x).nullable = x.nullable from fun _ => rfl, e2]
    rfl
  have ha : pb1.IdpAccessTokenAllowedAudiences = p.IDPAccessTokenAllowedAudiences := by
    rw [← hb]
    unfold Policy.setAudiences
    split <;> rename_i hv <;> rw [hv]
  split at h
  · simp at h
  · rename_i pb0 hact
    simp only [Except.ok.injEq] at h
    subst h
    obtain ⟨h1, h2⟩ := Policy_setAction_nullable E p pb1 pb0 hact
    have h3 : (p.setTrailer E pb0).nullable = pb0.nullable := rfl
    have h4 : (p.setTrailer E pb0).IdpAccessTokenAllowedAudiences =
        pb0.IdpAccessTokenAllowedAudiences := rfl
    rw [h1, hn] at h3
    rw [h2, ha] at h4
    simp only [Route.nullable, Prod.mk.injEq] at h3
    exact ⟨h3.1, h3.2.1, h3.2.2, h4⟩

theorem NewPolicyFromProto_nullable (E : Env) (pb : Route) (p' : Policy)
    (h : NewPolicyFromProto E pb = .ok p') :
    p'.IdleTimeout = pb.IdleTimeout.map E.AsDuration ∧
    p'.PassIdentityHeaders = pb.PassIdentityHeaders ∧
    p'.RegexPriorityOrder = pb.RegexPriorityOrder ∧
    p'.IDPAccessTokenAllowedAudiences = pb.IdpAccessTokenAllowedAudiences := by
  unfold NewPolicyFromProto at h
  generalize hb : pb.setAudiences (pb.policyLiteral E) = p1 at h
  have hn : p1.nullable =
      (pb.IdleTimeout.map E.AsDuration, pb.PassIdentityHeaders, pb.RegexPriorityOrder) := by
    rw [← hb]
    have e1 : ∀ x : Policy, (pb.setAudiences x).nullable = x.nullable := by
      intro x; unfold Route.setAudiences; split <;> rfl
    rw [e1]
    rfl
  have ha : p1.IDPAccessTokenAllowedAudiences = pb.IdpAccessTokenAllowedAudiences := by
    rw [← hb]
    unfold Route.setAudiences
    split <;> rename_i hv <;> rw [hv]
  split at h
  · simp at h
  · rename_i p0 hact
    simp only [Except.ok.injEq] at h
    subst h
    obtain ⟨h1, h2⟩ := Route_setAction_nullable E pb p1 p0 hact
    have h3 : (pb.setTrailer E (pb.setEnvoyOpts p0)).nullable = p0.nullable := rfl
    have h4 : (pb.setTrailer E (pb.setEnvoyOpts p0)).IDPAccessTokenAllowedAudiences =
        p0.IDPAccessTokenAllowedAudiences := rfl
    rw [h1, hn] at h3
    rw [h2, ha] at h4
    simp only [Policy.nullable, Prod.mk.injEq] at h3
    exact ⟨h3.1, h3.2.1, h3.2.2, h4⟩

/-- C12: through `ToProto` and `NewPolicyFromProto`, `PassIdentityHeaders`,
`RegexPriorityOrder` and `IDPAccessTokenAllowedAudiences` come back as they were, set or
unset; `IdleTimeout` is unset exactly when it was, and when set holds the duration read
back from its wire form, which is the same duration when the duration message
round-trips it. -/
theorem nullable_round_trip {σ : Type} (E : Env) (D : Digest σ) (p : Policy) (pb : Route)
    (p' : Policy) (h1 : p.ToProto E D = .ok pb) (h2 : NewPolicyFromProto E pb = .ok p') :
    p'.PassIdentityHeaders = p.PassIdentityHeaders ∧
    p'.RegexPriorityOrder = p.RegexPriorityOrder ∧
    p'.IDPAccessTokenAllowedAudiences = p.IDPAccessTokenAllowedAudiences ∧
    (p'.IdleTimeout = none ↔ p.IdleTimeout = none) ∧
    (∀ d, p.IdleTimeout = some d →
      p'.IdleTimeout = some (E.AsDuration (E.durationpbNew d))) ∧
    ((∀ d, p.IdleTimeout = some d → E.AsDuration (E.durationpbNew d) = d) →
      p'.IdleTimeout = p.IdleTimeout) := by
  obtain ⟨a1, a2, a3, a4⟩ := ToProto_nullable E D p pb h1
  obtain ⟨b1, b2, b3, b4⟩ := NewPolicyFromProto_nullable E pb p' h2
  refine ⟨b2.trans a2, b3.trans a3, b4.trans a4, ?_, ?_, ?_⟩
  · rw [b1, a1]; cases p.IdleTimeout <;> simp
  · intro d hd; rw [b1, a1, hd]; rfl
  · intro hdur
    rw [b1, a1]
    cases hd : p.IdleTimeout with
    | none => rfl
    | some d => simp [hdur d hd]

/-- C11 (amended): the function `NewPolicyFromProto` fails exactly when the route has no
redirect and no response and its `To` list does not parse, for another reason than being
empty; the error wraps that of the parser. In every other case it returns a policy. -/
theorem NewPolicyFromProto_fails_iff (E : Env) (pb : Route) :
    (∀ err, NewPolicyFromProto E pb = .error err ↔
      (E.RedirectIsSet pb.Redirect = false ∧ pb.Response = none ∧
        ∃ e, (E.ParseWeightedUrls pb.To).2 = some e ∧ e.isEmptyUrls = false ∧
          err = .parsingToURLs e)) ∧
    ((E.RedirectIsSet pb.Redirect = true ∨ pb.Response ≠ none ∨
        (E.ParseWeightedUrls pb.To).2 = none ∨
        (E.ParseWeightedUrls pb.To).2 = some .emptyUrls) →
      ∃ p, NewPolicyFromProto E pb = .ok p) := by
  have key : ∀ err, NewPolicyFromProto E pb = .error err ↔
      (E.RedirectIsSet pb.Redirect = false ∧ pb.Response = none ∧
        ∃ e, (E.ParseWeightedUrls pb.To).2 = some e ∧ e.isEmptyUrls = false ∧
          err = .parsingToURLs e) := by
    intro err
    unfold NewPolicyFromProto
    generalize pb.setAudiences (pb.policyLiteral E) = p1
    unfold Route.setAction
    by_cases hset : E.RedirectIsSet pb.Redirect = true
    · simp [hset]
    · simp only [hset, Bool.false_eq_true, if_false]
      have hset' : E.RedirectIsSet pb.Redirect = false := by simpa using hset
      cases hresp : pb.Response with
      | some r => simp
      | none =>
        simp only [hset', true_and]
        cases hparse : (E.ParseWeightedUrls pb.To).2 with
        | none => simp
        | some e =>
          cases hempty : e.isEmptyUrls with
          | true => simp [Option.filter, hempty]
          | false =>
            simp only [Option.filter, hempty, Bool.not_false, if_true, Except.error.injEq,
              Option.some.injEq, exists_eq_left', true_and]
            exact eq_comm
  refine ⟨key, fun h => ?_⟩
  cases hres : NewPolicyFromProto E pb with
  | ok p => exact ⟨p, rfl⟩
  | error err =>
    obtain ⟨hset, hresp, e, he, hempty, _⟩ := (key err).mp hres
    rcases h with h | h | h | h
    · rw [hset] at h; simp at h
    · exact absurd hresp h
    · rw [he] at h; simp at h
    · rw [he] at h
      simp only [Option.some.injEq] at h
      subst h
      simp [Error.isEmptyUrls] at hempty


/-! ## The claims at concrete routes -/

/-- C11 (as stated, refuted): a wire route whose `To` holds a string that is not a URL is
not turned into a policy; the error of the parser is returned, wrapped. -/
theorem NewPolicyFromProto_counterexample :
    NewPolicyFromProto simpleEnv wireBadTo =
      .error (.parsingToURLs (.external "missing scheme")) := by
  decide

/-- The amended C11 at a wire route without upstreams, which is read as a policy, and at
one with an upstream that is not a URL, which is not. -/
theorem NewPolicyFromProto_fails_iff_witness :
    (∃ p, NewPolicyFromProto simpleEnv wireNoTo = .ok p) ∧
    (simpleEnv.RedirectIsSet wireBadTo.Redirect = false ∧ wireBadTo.Response = none ∧
      ∃ e, (simpleEnv.ParseWeightedUrls wireBadTo.To).2 = some e ∧ e.isEmptyUrls = false ∧
        Error.parsingToURLs (.external "missing scheme") = .parsingToURLs e) :=
  ⟨(NewPolicyFromProto_fails_iff simpleEnv wireNoTo).2 (Or.inr (Or.inr (Or.inr (by decide)))),
   ((NewPolicyFromProto_fails_iff simpleEnv wireBadTo).1 _).mp (by decide)⟩

/-- The duration message of `simpleEnv` gives back every duration it was made from. -/
theorem simpleEnv_duration (d : Int) : simpleEnv.AsDuration (simpleEnv.durationpbNew d) = d := by
  show d.tdiv 1000000000 * 1000000000 + d.tmod 1000000000 = d
  rw [mul_comm]
  exact Int.tdiv_add_tmod d 1000000000

/-- C12 at a route with every nullable field set to its zero value: each one comes back
set, to the same value. -/
theorem nullable_round_trip_witness :
    (readBack simpleEnv (wireOf simpleEnv plainDigest routeZeroNullables)).PassIdentityHeaders =
      some false ∧
    (readBack simpleEnv (wireOf simpleEnv plainDigest routeZeroNullables)).RegexPriorityOrder =
      some 0 ∧
    (readBack simpleEnv (wireOf simpleEnv plainDigest routeZeroNullables)).IDPAccessTokenAllowedAudiences =
      some [] ∧
    (readBack simpleEnv (wireOf simpleEnv plainDigest routeZeroNullables)).IdleTimeout = some 0 :=
  have h := nullable_round_trip simpleEnv plainDigest routeZeroNullables
    (wireOf simpleEnv plainDigest routeZeroNullables)
    (readBack simpleEnv (wireOf simpleEnv plainDigest routeZeroNullables))
    (by decide) (by decide)
  ⟨h.1, h.2.1, h.2.2.1, h.2.2.2.2.2 (fun d _ => simpleEnv_duration d)⟩

/-- C13 at the source `https://app.example.com/foo`. -/
theorem Validate_source_path_witness :
    (routeSourcePath.Validate simpleEnv).2 =
      some (.sourceURLHasPath "https://app.example.com/foo") :=
  Validate_source_path simpleEnv routeSourcePath
    { Scheme := "https", Host := "app.example.com", Path := "/foo" }
    (by decide) (Or.inr rfl) (by decide)

/-- C14 (as stated, refuted): a policy whose source is a tcp URL with the path `/foo` is
accepted by `Validate`. -/
theorem Validate_source_counterexample :
    simpleEnv.ParseAndValidateURL routeTCPSourcePath.From =
      .ok { Scheme := "tcp", Host := "a.example.com", Path := "/foo" } ∧
    (routeTCPSourcePath.Validate simpleEnv).2 = none := by
  decide

/-- The amended C14 at `routeA`, which `Validate` accepts. -/
theorem Validate_accepted_source_witness :
    (routeA.Validate simpleEnv).2 = none ∧
    ∃ source, simpleEnv.ParseAndValidateURL routeA.From = .ok source ∧
      ((source.Scheme = "http" ∨ source.Scheme = "https") →
        (source.Path = "" ∨ source.Path = "/")) :=
  ⟨by decide, Validate_accepted_source simpleEnv routeA (by decide)⟩

/-- C15 at the destinations `https://x` and `tcp://y:22`, at a udp destination with an
https one, and at `routeA`, whose destinations share one scheme. -/
theorem Validate_mixed_schemes_witness :
    (routeMixedTCP.Validate simpleEnv).2 ≠ none ∧
    (routeMixedUDP.Validate simpleEnv).2 ≠ none ∧
    ((routeA.Validate simpleEnv).2 ≠ some .mixTCP ∧ (routeA.Validate simpleEnv).2 ≠ some .mixUDP) :=
  ⟨(Validate_mixed_schemes simpleEnv routeMixedTCP).1
      { URL := { Scheme := "tcp", Host := "y:22" } } (by decide)
      { URL := { Scheme := "https", Host := "x" } } (by decide) rfl (by decide),
   (Validate_mixed_schemes simpleEnv routeMixedUDP).2.1
      { URL := { Scheme := "udp", Host := "y:53" } } (by decide)
      { URL := { Scheme := "https", Host := "x" } } (by decide) rfl (by decide),
   (Validate_mixed_schemes simpleEnv routeA).2.2 (by decide)⟩

/-- The error of `Validate` at the destinations `https://x` and `tcp://y:22`. -/
theorem mixed_schemes_errors :
    (routeMixedTCP.Validate simpleEnv).2 = some .mixTCP ∧
    (routeMixedUDP.Validate simpleEnv).2 = some .mixUDP := by
  decide

/-- C16 at a redirect with response code 418. -/
theorem Validate_redirect_code_witness :
    (routeRedirectTeapot.Validate simpleEnv).2 ≠ none :=
  (Validate_redirect_code simpleEnv routeRedirectTeapot).2
    { HostRedirect := some "elsewhere.example.com", ResponseCode := some 418 } 418 rfl rfl
    (by decide) (by decide) (by decide) (by decide) (by decide)

/-- The error of `Validate` at a redirect with response code 418. -/
theorem redirect_teapot_error :
    (routeRedirectTeapot.Validate simpleEnv).2 = some (.redirectInvalid (.unsupportedRedirectCode 418)) := by
  decide

/-- C17 at a public route with the allowed user `alice@example.com`, which is rejected,
and at a public route without allowlists, which is accepted. -/
theorem Validate_allowlists_witness :
    (routePublicUsers.Validate simpleEnv).2 ≠ none ∧
    (routePublic.Validate simpleEnv).2 = none ∧
    (routePublic.AllowAnyAuthenticatedUser = false ∧ routePublic.AllowedUsers = none ∧
      routePublic.AllowedDomains = none) :=
  ⟨(Validate_allowlists simpleEnv routePublicUsers).2 rfl (by decide),
   by decide,
   ((Validate_allowlists simpleEnv routePublic).1 (by decide)).1 rfl⟩

/-- C18: a public policy with a non-empty set of allowed identity-provider claims is
accepted by `Validate`, which looks at `AllowAnyAuthenticatedUser`, `AllowedDomains` and
`AllowedUsers` only. -/
theorem Validate_public_claims :
    routePublicClaims.AllowPublicUnauthenticatedAccess = true ∧
    routePublicClaims.AllowedIDPClaims ≠ [] ∧
    (routePublicClaims.Validate simpleEnv).2 = none := by
  decide

/-- C19 (as stated, refuted): a policy whose regex `(` does not compile, anchored as
`^($`, is accepted by `Validate`, without a compiled regular expression. -/
theorem Validate_regex_counterexample :
    routeBadRegex.Regex ≠ "" ∧
    anchoredRegex routeBadRegex.Regex = "^($" ∧
    parenEnv.regexpCompile (anchoredRegex routeBadRegex.Regex) = none ∧
    (routeBadRegex.Validate parenEnv).2 = none ∧
    (routeBadRegex.Validate parenEnv).1.compiledRegex = none := by
  decide

/-- The amended C19 at a regex that compiles and at one that does not. -/
theorem Validate_regex_witness :
    (routeGoodRegex.Validate parenEnv).1.compiledRegex = some { content := "^/(a|b)$" } ∧
    (routeBadRegex.Validate parenEnv).1.compiledRegex = none :=
  ⟨(Validate_regex parenEnv routeGoodRegex).2 (by decide) (by decide),
   (Validate_regex parenEnv routeBadRegex).2 (by decide) (by decide)⟩

/-- A host of the URL parser of `simpleEnv` holds no `/`. -/
theorem simpleEnv_host (s : String) (u : URL) (h : simpleEnv.urlParse s = .ok u) :
    containsSlash u.Host = false := by
  change parseSimpleURL s = .ok u at h
  unfold parseSimpleURL at h
  split at h
  · simp at h
  · rename_i scheme rest _
    simp only at h
    split_ifs at h
    simp only [Except.ok.injEq] at h
    subst h
    simp only [containsSlash]
    rw [Bool.eq_false_iff]
    intro hmem
    have hin : '/' ∈ List.takeWhile (fun c => decide (c ≠ '/')) rest := by simpa using hmem
    have := List.mem_takeWhile_imp hin
    simp at this

/-- C20 at a bare host and a URL, at six entries and at a path. -/
theorem Validate_dependsOn_witness :
    (routeDependsOn.Validate simpleEnv).2 = none ∧
    (routeDependsOn.Validate simpleEnv).1.DependsOn = ["a.example.com", "b.example.com"] ∧
    (∀ w ∈ (routeDependsOn.Validate simpleEnv).1.DependsOn, containsSlash w = false) ∧
    (routeSixDependsOn.Validate simpleEnv).2 ≠ none ∧
    (routePathDependsOn.Validate simpleEnv).2 ≠ none :=
  ⟨by decide, by decide,
   ((Validate_dependsOn simpleEnv routeDependsOn).1 (by decide)).2.2 simpleEnv_host,
   (Validate_dependsOn simpleEnv routeSixDependsOn).2.1 (by decide),
   (Validate_dependsOn simpleEnv routePathDependsOn).2.2 "/x" (by decide) (by decide)
     (fun ⟨_, hu, _⟩ =>
       Except.noConfusion ((show simpleEnv.urlParse "/x" = .error (.external "missing scheme") by
         decide).symm.trans hu))⟩


/-! ## Claims on the MCP block, the client certificate, the rewrites and the timeout -/

/-- The fields that `Validate` reads and never assigns are, after `Validate`, what they
were. -/
theorem Validate_frame (E : Env) (p : Policy) : (p.Validate E).1.frame = p.frame := by
  rw [Validate_eq_runChecks]
  exact runChecks_preserves Policy.frame _ (checks_frame E) p

/-- C21: a policy whose MCP block holds both a server and a client is accepted by
`Validate`, which rejects an MCP block only when it holds neither. -/
theorem Validate_mcp_both :
    routeMCPBoth.MCP = some { Server := some {}, Client := some {} } ∧
    (routeMCPBoth.Validate simpleEnv).2 = none ∧
    (routeMCPNeither.Validate simpleEnv).2 = some .mcpNeitherServerNorClient := by
  decide

/-- C22: in a policy that `Validate` accepts, `TLSClientCert` is empty exactly when
`TLSClientKey` is, and `TLSClientCertFile` is empty exactly when `TLSClientKeyFile` is, in
the policy as given and as `Validate` leaves it; a policy with one member of a pair only
is rejected. -/
theorem Validate_client_certificate_pairs (E : Env) (p : Policy) :
    ((p.Validate E).2 = none →
      ((p.TLSClientCert = "" ↔ p.TLSClientKey = "") ∧
        (p.TLSClientCertFile = "" ↔ p.TLSClientKeyFile = "")) ∧
      (((p.Validate E).1.TLSClientCert = "" ↔ (p.Validate E).1.TLSClientKey = "") ∧
        ((p.Validate E).1.TLSClientCertFile = "" ↔ (p.Validate E).1.TLSClientKeyFile = ""))) ∧
    (¬ (p.TLSClientCert = "" ↔ p.TLSClientKey = "") → (p.Validate E).2 ≠ none) ∧
    (¬ (p.TLSClientCertFile = "" ↔ p.TLSClientKeyFile = "") → (p.Validate E).2 ≠ none) := by
  have main : (p.Validate E).2 = none →
      (p.TLSClientCert = "" ↔ p.TLSClientKey = "") ∧
        (p.TLSClientCertFile = "" ↔ p.TLSClientKeyFile = "") := by
    intro hacc
    obtain ⟨q, hq, hc, _, _⟩ := Validate_accepts_check E p hacc
      [validateSource E, validateAction, validateTo E, validateRedirect, validateAllowlists] _
      (validateClientCertificate E) rfl
    have e1 : q.TLSClientCert = p.TLSClientCert := congrArg PolicyFrame.TLSClientCert hq
    have e2 : q.TLSClientKey = p.TLSClientKey := congrArg PolicyFrame.TLSClientKey hq
    have e3 : q.TLSClientCertFile = p.TLSClientCertFile :=
      congrArg PolicyFrame.TLSClientCertFile hq
    have e4 : q.TLSClientKeyFile = p.TLSClientKeyFile := congrArg PolicyFrame.TLSClientKeyFile hq
    unfold validateClientCertificate at hc
    rw [e1, e2, e3, e4] at hc
    by_contra hneg
    rw [if_pos (by tauto)] at hc
    simp at hc
  have hf := Validate_frame E p
  have f1 : (p.Validate E).1.TLSClientCert = p.TLSClientCert := congrArg PolicyFrame.TLSClientCert hf
  have f2 : (p.Validate E).1.TLSClientKey = p.TLSClientKey := congrArg PolicyFrame.TLSClientKey hf
  have f3 : (p.Validate E).1.TLSClientCertFile = p.TLSClientCertFile :=
    congrArg PolicyFrame.TLSClientCertFile hf
  have f4 : (p.Validate E).1.TLSClientKeyFile = p.TLSClientKeyFile :=
    congrArg PolicyFrame.TLSClientKeyFile hf
  refine ⟨fun hacc => ⟨main hacc, ?_⟩, fun hneg hacc => hneg (main hacc).1,
    fun hneg hacc => hneg (main hacc).2⟩
  rw [f1, f2, f3, f4]
  exact main hacc

/-- C22 at a certificate without a key and at a key file without a certificate file,
which are rejected, and at a certificate with its key, which is accepted. -/
theorem Validate_client_certificate_pairs_witness :
    (routeCertOnly.Validate simpleEnv).2 ≠ none ∧
    (routeKeyFileOnly.Validate simpleEnv).2 ≠ none ∧
    (routeCertAndKey.Validate simpleEnv).2 = none ∧
    ((routeCertAndKey.TLSClientCert = "" ↔ routeCertAndKey.TLSClientKey = "") ∧
      (routeCertAndKey.TLSClientCertFile = "" ↔ routeCertAndKey.TLSClientKeyFile = "")) :=
  ⟨(Validate_client_certificate_pairs simpleEnv routeCertOnly).2.1 (by decide),
   (Validate_client_certificate_pairs simpleEnv routeKeyFileOnly).2.2 (by decide),
   by decide,
   ((Validate_client_certificate_pairs simpleEnv routeCertAndKey).1 (by decide)).1⟩

/-- C23: a policy with both `PrefixRewrite` and `RegexRewritePattern` non-empty is rejected
by `Validate`; so an accepted policy does not have both, as given and as `Validate` leaves
it. -/
theorem Validate_rewrites (E : Env) (p : Policy) :
    (p.PrefixRewrite ≠ "" → p.RegexRewritePattern ≠ "" → (p.Validate E).2 ≠ none) ∧
    ((p.Validate E).2 = none →
      ¬ (p.PrefixRewrite ≠ "" ∧ p.RegexRewritePattern ≠ "") ∧
      ¬ ((p.Validate E).1.PrefixRewrite ≠ "" ∧ (p.Validate E).1.RegexRewritePattern ≠ "")) := by
  have main : p.PrefixRewrite ≠ "" → p.RegexRewritePattern ≠ "" → (p.Validate E).2 ≠ none := by
    intro h1 h2 hacc
    obtain ⟨q, hq, hc, _, _⟩ := Validate_accepts_check E p hacc
      [validateSource E, validateAction, validateTo E, validateRedirect, validateAllowlists,
        validateClientCertificate E, validateCustomCA E, validateDownstreamClientCA E,
        validateDownstreamClientCAFile E, validateKubernetesToken] _ validateRewrite rfl
    have e1 : q.PrefixRewrite = p.PrefixRewrite := congrArg PolicyFrame.PrefixRewrite hq
    have e2 : q.RegexRewritePattern = p.RegexRewritePattern :=
      congrArg PolicyFrame.RegexRewritePattern hq
    unfold validateRewrite at hc
    rw [e1, e2, if_pos ⟨h1, h2⟩] at hc
    simp at hc
  have hf := Validate_frame E p
  have f1 : (p.Validate E).1.PrefixRewrite = p.PrefixRewrite := congrArg PolicyFrame.PrefixRewrite hf
  have f2 : (p.Validate E).1.RegexRewritePattern = p.RegexRewritePattern :=
    congrArg PolicyFrame.RegexRewritePattern hf
  refine ⟨main, fun hacc => ?_⟩
  rw [f1, f2]
  exact ⟨fun h => main h.1 h.2 hacc, fun h => main h.1 h.2 hacc⟩

/-- C23 at a route with a prefix rewrite and a regex rewrite pattern. -/
theorem Validate_rewrites_witness :
    (routeBothRewrites.Validate simpleEnv).2 ≠ none ∧
    (routeBothRewrites.Validate simpleEnv).2 = some .bothRewrites :=
  ⟨(Validate_rewrites simpleEnv routeBothRewrites).1 (by decide) (by decide), by decide⟩

theorem runChecks_keeps (c : Check) (rest : List Check) (h : ∀ c' ∈ rest, Keeps c c') :
    ∀ q, c q = (q, none) → c (runChecks rest q).1 = ((runChecks rest q).1, none) := by
  induction rest with
  | nil => intro q hq; exact hq
  | cons c' rest ih =>
    intro q hq
    have h1 := h c' (List.mem_cons_self _ _) q hq
    cases he : (c' q).2 with
    | some err => rw [runChecks_cons_some he]; exact h1
    | none =>
      rw [runChecks_cons_none he]
      exact ih (fun c'' hc'' => h c'' (List.mem_cons_of_mem _ hc'')) _ h1

/-- Blocks that are idempotent, each keeping its acceptance through the later ones, run
twice as they run once. -/
theorem runChecks_twice (cs : List Check) (hidem : ∀ c ∈ cs, ∀ q, c (c q).1 = c q)
    (hkeep : cs.Pairwise Keeps) : ∀ p, runChecks cs (runChecks cs p).1 = runChecks cs p := by
  induction cs with
  | nil => intro p; rfl
  | cons c rest ih =>
    intro p
    rw [List.pairwise_cons] at hkeep
    have hc := hidem c (List.mem_cons_self _ _) p
    cases he : (c p).2 with
    | some err =>
      rw [runChecks_cons_some he]
      have he' : (c (c p).1).2 = some err := by rw [hc, he]
      rw [runChecks_cons_some he', hc]
    | none =>
      rw [runChecks_cons_none he]
      have hq : c (c p).1 = ((c p).1, none) := by rw [hc, ← he]
      have h1 := runChecks_keeps c rest hkeep.1 (c p).1 hq
      have h2 : (c (runChecks rest (c p).1).1).2 = none := by rw [h1]
      rw [runChecks_cons_none h2, h1]
      exact ih (fun c' hc' => hidem c' (List.mem_cons_of_mem _ hc')) hkeep.2 (c p).1

theorem keeps_of_view {β : Type} (v : Policy → β) (c c' : Check)
    (hv : ∀ q q', v q = v q' → c q = (q, none) → c q' = (q', none))
    (hc' : ∀ q, v (c' q).1 = v q) : Keeps c c' :=
  fun q h => hv q (c' q).1 (hc' q).symm h

/-- A block that reads the frame only and leaves the policy as it is keeps its acceptance
through every block of `Validate`. -/
theorem keeps_of_frame (E : Env) (c : Check) (hstate : ∀ q, (c q).1 = q)
    (hframe : ∀ q q', q.frame = q'.frame → (c q).2 = (c q').2) :
    ∀ c' ∈ validateChecks E, Keeps c c' := by
  intro c' hc'
  refine keeps_of_view Policy.frame c c' (fun q q' hv h => ?_) (checks_frame E c' hc')
  have h2 : (c q').2 = none := by rw [← hframe q q' hv, h]
  exact Prod.ext (hstate q') h2

theorem idem_of_state (c : Check) (hstate : ∀ q, (c q).1 = q) : ∀ q, c (c q).1 = c q := by
  intro q; rw [hstate q]

/-- The blocks of `Validate` that leave the policy as it is. -/
theorem checks_state (E : Env) :
    ∀ c ∈ [validateSource E, validateAction, validateTo E, validateRedirect, validateAllowlists,
        validateDownstreamClientCA E, validateKubernetesToken, validateRewrite,
        validateJWTIssuerFormat E, validateMCP],
      ∀ q, (c q).1 = q := by
  intro c hmem q
  simp only [List.mem_cons, List.mem_singleton, List.not_mem_nil, or_false] at hmem
  rcases hmem with h | h | h | h | h | h | h | h | h | h <;> subst h
  · unfold validateSource; split <;> (try split) <;> rfl
  · unfold validateAction; split <;> rfl
  · unfold validateTo; split <;> (try (simp only; split_ifs)) <;> rfl
  · unfold validateRedirect; split <;> rfl
  · unfold validateAllowlists; split_ifs <;> rfl
  · unfold validateDownstreamClientCA; split_ifs <;> (try split) <;> rfl
  · unfold validateKubernetesToken; split_ifs <;> rfl
  · unfold validateRewrite; split_ifs <;> rfl
  · unfold validateJWTIssuerFormat; split_ifs <;> rfl
  · unfold validateMCP; split_ifs <;> rfl

/-- The blocks of `Validate` that read the frame only return the same error on policies
with the same frame. -/
theorem checks_read_frame (E : Env) :
    ∀ c ∈ [validateSource E, validateAction, validateTo E, validateRedirect, validateAllowlists,
        validateKubernetesToken, validateRewrite, validateJWTIssuerFormat E, validateMCP],
      ∀ q q', q.frame = q'.frame → (c q).2 = (c q').2 := by
  intro c hmem q q' hf
  simp only [List.mem_cons, List.mem_singleton, List.not_mem_nil, or_false] at hmem
  rcases hmem with h | h | h | h | h | h | h | h | h <;> subst h
  · have e1 : q.From = q'.From := congrArg PolicyFrame.From hf
    unfold validateSource
    rw [e1]
    split <;> (try split) <;> rfl
  · have e1 : q.To = q'.To := congrArg PolicyFrame.To hf
    have e2 : q.Redirect = q'.Redirect := congrArg PolicyFrame.Redirect hf
    have e3 : q.Response = q'.Response := congrArg PolicyFrame.Response hf
    unfold validateAction
    rw [e1, e2, e3]
    split_ifs <;> rfl
  · have e1 : q.To = q'.To := congrArg PolicyFrame.To hf
    unfold validateTo
    rw [e1]
    split <;> (try (simp only; split_ifs)) <;> rfl
  · have e1 : q.Redirect = q'.Redirect := congrArg PolicyFrame.Redirect hf
    unfold validateRedirect
    rw [e1]
    split <;> rfl
  · have e1 : q.AllowPublicUnauthenticatedAccess = q'.AllowPublicUnauthenticatedAccess :=
      congrArg PolicyFrame.AllowPublicUnauthenticatedAccess hf
    have e2 : q.AllowAnyAuthenticatedUser = q'.AllowAnyAuthenticatedUser :=
      congrArg PolicyFrame.AllowAnyAuthenticatedUser hf
    have e3 : q.AllowedDomains = q'.AllowedDomains := congrArg PolicyFrame.AllowedDomains hf
    have e4 : q.AllowedUsers = q'.AllowedUsers := congrArg PolicyFrame.AllowedUsers hf
    unfold validateAllowlists
    rw [e1, e2, e3, e4]
    split_ifs <;> rfl
  · have e1 : q.KubernetesServiceAccountTokenFile = q'.KubernetesServiceAccountTokenFile :=
      congrArg PolicyFrame.KubernetesServiceAccountTokenFile hf
    have e2 : q.KubernetesServiceAccountToken = q'.KubernetesServiceAccountToken :=
      congrArg PolicyFrame.KubernetesServiceAccountToken hf
    unfold validateKubernetesToken
    rw [e1, e2]
    split_ifs <;> rfl
  · have e1 : q.PrefixRewrite = q'.PrefixRewrite := congrArg PolicyFrame.PrefixRewrite hf
    have e2 : q.RegexRewritePattern = q'.RegexRewritePattern :=
      congrArg PolicyFrame.RegexRewritePattern hf
    unfold validateRewrite
    rw [e1, e2]
    split_ifs <;> rfl
  · have e1 : q.JWTIssuerFormat = q'.JWTIssuerFormat := congrArg PolicyFrame.JWTIssuerFormat hf
    unfold validateJWTIssuerFormat
    rw [e1]
    split_ifs <;> rfl
  · have e1 : q.MCP = q'.MCP := congrArg PolicyFrame.MCP hf
    unfold validateMCP
    rw [e1]
    split_ifs <;> rfl

/-- The blocks of `Validate` from the Kubernetes token on leave the loaded certificate
and the inline certificate authorities as they are. -/
theorem checks_after_authorities (E : Env) :
    ∀ c ∈ [validateKubernetesToken, validateRewrite, validateRegex E, validateJWTIssuerFormat E,
        validateDependencies E, validateMCP],
      ∀ q, (c q).1.ClientCertificate = q.ClientCertificate ∧
        (c q).1.TLSCustomCA = q.TLSCustomCA ∧
        (c q).1.TLSDownstreamClientCA = q.TLSDownstreamClientCA := by
  intro c hmem q
  simp only [List.mem_cons, List.mem_singleton, List.not_mem_nil, or_false] at hmem
  rcases hmem with h | h | h | h | h | h <;> subst h
  · unfold validateKubernetesToken; split_ifs <;> exact ⟨rfl, rfl, rfl⟩
  · unfold validateRewrite; split_ifs <;> exact ⟨rfl, rfl, rfl⟩
  · unfold validateRegex; split_ifs <;> exact ⟨rfl, rfl, rfl⟩
  · unfold validateJWTIssuerFormat; split_ifs <;> exact ⟨rfl, rfl, rfl⟩
  · unfold validateDependencies; split_ifs <;> exact ⟨rfl, rfl, rfl⟩
  · unfold validateMCP; split_ifs <;> exact ⟨rfl, rfl, rfl⟩

/-- The blocks of the downstream client CA leave the loaded certificate and the custom CA
as they are. -/
theorem checks_downstream (E : Env) :
    ∀ c ∈ [validateDownstreamClientCA E, validateDownstreamClientCAFile E],
      ∀ q, (c q).1.ClientCertificate = q.ClientCertificate ∧
        (c q).1.TLSCustomCA = q.TLSCustomCA := by
  intro c hmem q
  simp only [List.mem_cons, List.mem_singleton, List.not_mem_nil, or_false] at hmem
  rcases hmem with h | h <;> subst h
  · unfold validateDownstreamClientCA; split_ifs <;> (try split) <;> exact ⟨rfl, rfl⟩
  · unfold validateDownstreamClientCAFile; split_ifs <;> (try split) <;> exact ⟨rfl, rfl⟩

theorem validateCustomCA_certificate (E : Env) (q : Policy) :
    (validateCustomCA E q).1.ClientCertificate = q.ClientCertificate := by
  unfold validateCustomCA; split_ifs <;> (try split) <;> rfl

/-! ### The client certificate -/

theorem validateClientCertificate_idem (E : Env) (q : Policy) :
    validateClientCertificate E (validateClientCertificate E q).1 =
      validateClientCertificate E q := by
  unfold validateClientCertificate
  split_ifs with h1 h2 h3
  · simp only [if_pos h1]
  · simp only [if_neg h1, if_pos h2]
  · simp only [if_neg h1, if_neg h2, if_pos h3]
  · simp only [if_neg h1, if_neg h2, if_neg h3]

theorem validateClientCertificate_view (E : Env) (q q' : Policy)
    (hv : (q.frame, q.ClientCertificate) = (q'.frame, q'.ClientCertificate))
    (h : validateClientCertificate E q = (q, none)) :
    validateClientCertificate E q' = (q', none) := by
  have hf : q.frame = q'.frame := congrArg Prod.fst hv
  have hcc : q.ClientCertificate = q'.ClientCertificate := congrArg Prod.snd hv
  have e1 : q.TLSClientCert = q'.TLSClientCert := congrArg PolicyFrame.TLSClientCert hf
  have e2 : q.TLSClientKey = q'.TLSClientKey := congrArg PolicyFrame.TLSClientKey hf
  have e3 : q.TLSClientCertFile = q'.TLSClientCertFile := congrArg PolicyFrame.TLSClientCertFile hf
  have e4 : q.TLSClientKeyFile = q'.TLSClientKeyFile := congrArg PolicyFrame.TLSClientKeyFile hf
  unfold validateClientCertificate at h ⊢
  rw [e1, e2, e3, e4] at h
  split_ifs at h ⊢ with h1 h2 h3
  · simp at h
  · simp only [Prod.mk.injEq] at h
    have hc := congrArg Policy.ClientCertificate h.1
    simp only at hc
    rw [Prod.mk.injEq]
    refine ⟨?_, h.2⟩
    rw [hc, hcc]
  · simp only [Prod.mk.injEq] at h
    have hc := congrArg Policy.ClientCertificate h.1
    simp only at hc
    rw [Prod.mk.injEq]
    refine ⟨?_, h.2⟩
    rw [hc, hcc]
  · rfl

theorem validateClientCertificate_keeps (E : Env) :
    ∀ c' ∈ [validateCustomCA E, validateDownstreamClientCA E, validateDownstreamClientCAFile E,
        validateKubernetesToken, validateRewrite, validateRegex E, validateJWTIssuerFormat E,
        validateDependencies E, validateMCP],
      Keeps (validateClientCertificate E) c' := by
  intro c' hmem
  refine keeps_of_view (fun q => (q.frame, q.ClientCertificate)) _ c'
    (validateClientCertificate_view E) (fun q => ?_)
  have hfr : (c' q).1.frame = q.frame :=
    checks_frame E c' (by
      simp only [validateChecks, List.mem_cons, List.mem_singleton, List.not_mem_nil,
        or_false] at hmem ⊢
      tauto) q
  have hcc : (c' q).1.ClientCertificate = q.ClientCertificate := by
    simp only [List.mem_cons, List.mem_singleton, List.not_mem_nil, or_false] at hmem
    rcases hmem with h | h | h | h
    · subst h; exact validateCustomCA_certificate E q
    · subst h; exact (checks_downstream E _ (by simp) q).1
    · subst h; exact (checks_downstream E _ (by simp) q).1
    · exact (checks_after_authorities E c' (by
        simp only [List.mem_cons, List.mem_singleton, List.not_mem_nil, or_false]
        tauto) q).1
  exact Prod.ext hfr hcc

/-! ### The custom CA -/

theorem validateCustomCA_idem (E : Env)
    (hb64 : ∀ bs, ∃ x, E.base64Decode (E.base64Encode bs) = .ok x) (q : Policy) :
    validateCustomCA E (validateCustomCA E q).1 = validateCustomCA E q := by
  by_cases h1 : q.TLSCustomCA ≠ ""
  · have e : (validateCustomCA E q).1 = q := by
      unfold validateCustomCA; rw [if_pos h1]; split <;> rfl
    rw [e]
  · by_cases h2 : q.TLSCustomCAFile ≠ ""
    · cases hr : E.ReadFile q.TLSCustomCAFile with
      | error err =>
        have e : (validateCustomCA E q).1 = q := by
          unfold validateCustomCA; rw [if_neg h1, if_pos h2, hr]
        rw [e]
      | ok ca =>
        have e : validateCustomCA E q = ({ q with TLSCustomCA := E.base64Encode ca }, none) := by
          unfold validateCustomCA; rw [if_neg h1, if_pos h2, hr]
        rw [e]
        unfold validateCustomCA
        by_cases h3 : E.base64Encode ca ≠ ""
        · obtain ⟨x, hx⟩ := hb64 ca
          simp only [if_pos h3, hx]
        · simp only [if_neg h3, if_pos h2, hr]
    · have e : (validateCustomCA E q).1 = q := by
        unfold validateCustomCA; rw [if_neg h1, if_neg h2]
      rw [e]

theorem validateCustomCA_view (E : Env) (q q' : Policy)
    (hv : (q.frame, q.TLSCustomCA) = (q'.frame, q'.TLSCustomCA))
    (h : validateCustomCA E q = (q, none)) : validateCustomCA E q' = (q', none) := by
  have hf : q.frame = q'.frame := congrArg Prod.fst hv
  have hca : q.TLSCustomCA = q'.TLSCustomCA := congrArg Prod.snd hv
  have e1 : q.TLSCustomCAFile = q'.TLSCustomCAFile := congrArg PolicyFrame.TLSCustomCAFile hf
  unfold validateCustomCA at h ⊢
  rw [hca, e1] at h
  by_cases h1 : q'.TLSCustomCA ≠ ""
  · rw [if_pos h1] at h ⊢
    cases hd : E.base64Decode q'.TLSCustomCA with
    | error err => rw [hd] at h; simp at h
    | ok x => rfl
  · rw [if_neg h1] at h ⊢
    by_cases h2 : q'.TLSCustomCAFile ≠ ""
    · rw [if_pos h2] at h ⊢
      cases hr : E.ReadFile q'.TLSCustomCAFile with
      | error err => rw [hr] at h; simp at h
      | ok ca =>
        rw [hr] at h
        simp only [Prod.mk.injEq, and_true] at h ⊢
        have hc := congrArg Policy.TLSCustomCA h
        simp only at hc
        rw [hc, hca]
    · rw [if_neg h2]

theorem validateCustomCA_keeps (E : Env) :
    ∀ c' ∈ [validateDownstreamClientCA E, validateDownstreamClientCAFile E,
        validateKubernetesToken, validateRewrite, validateRegex E, validateJWTIssuerFormat E,
        validateDependencies E, validateMCP],
      Keeps (validateCustomCA E) c' := by
  intro c' hmem
  refine keeps_of_view (fun q => (q.frame, q.TLSCustomCA)) _ c'
    (validateCustomCA_view E) (fun q => ?_)
  have hfr : (c' q).1.frame = q.frame :=
    checks_frame E c' (by
      simp only [validateChecks, List.mem_cons, List.mem_singleton, List.not_mem_nil,
        or_false] at hmem ⊢
      tauto) q
  have hcc : (c' q).1.TLSCustomCA = q.TLSCustomCA := by
    simp only [List.mem_cons, List.mem_singleton, List.not_mem_nil, or_false] at hmem
    rcases hmem with h | h | h
    · subst h; exact (checks_downstream E _ (by simp) q).2
    · subst h; exact (checks_downstream E _ (by simp) q).2
    · exact (checks_after_authorities E c' (by
        simp only [List.mem_cons, List.mem_singleton, List.not_mem_nil, or_false]
        tauto) q).2.1
  exact Prod.ext hfr hcc

/-! ### The downstream client CA -/

theorem validateDownstreamClientCA_view (E : Env) (q q' : Policy)
    (hv : q.TLSDownstreamClientCA = q'.TLSDownstreamClientCA)
    (h : validateDownstreamClientCA E q = (q, none)) :
    validateDownstreamClientCA E q' = (q', none) := by
  unfold validateDownstreamClientCA at h ⊢
  rw [hv] at h
  by_cases h1 : q'.TLSDownstreamClientCA ≠ ""
  · rw [if_pos h1] at h ⊢
    cases hd : E.base64Decode q'.TLSDownstreamClientCA with
    | error err => rw [hd] at h; simp at h
    | ok x => rfl
  · rw [if_neg h1]

theorem validateDownstreamClientCA_file (E : Env)
    (hb64 : ∀ bs, ∃ x, E.base64Decode (E.base64Encode bs) = .ok x) :
    Keeps (validateDownstreamClientCA E) (validateDownstreamClientCAFile E) := by
  intro q h
  by_cases h1 : q.TLSDownstreamClientCAFile ≠ ""
  · cases hr : E.ReadFile q.TLSDownstreamClientCAFile with
    | error err =>
      have e : (validateDownstreamClientCAFile E q).1 = q := by
        unfold validateDownstreamClientCAFile; rw [if_pos h1, hr]
      rw [e]; exact h
    | ok bs =>
      have e : (validateDownstreamClientCAFile E q).1 =
          { q with TLSDownstreamClientCA := E.base64Encode bs } := by
        unfold validateDownstreamClientCAFile; rw [if_pos h1, hr]
      rw [e]
      unfold validateDownstreamClientCA
      by_cases h3 : E.base64Encode bs ≠ ""
      · obtain ⟨x, hx⟩ := hb64 bs
        simp only [if_pos h3, hx]
      · simp only [if_neg h3]
  · have e : (validateDownstreamClientCAFile E q).1 = q := by
      unfold validateDownstreamClientCAFile; rw [if_neg h1]
    rw [e]; exact h

theorem validateDownstreamClientCA_keeps (E : Env)
    (hb64 : ∀ bs, ∃ x, E.base64Decode (E.base64Encode bs) = .ok x) :
    ∀ c' ∈ [validateDownstreamClientCAFile E,
        validateKubernetesToken, validateRewrite, validateRegex E, validateJWTIssuerFormat E,
        validateDependencies E, validateMCP],
      Keeps (validateDownstreamClientCA E) c' := by
  intro c' hmem
  rw [List.mem_cons] at hmem
  rcases hmem with h | h
  · subst h; exact validateDownstreamClientCA_file E hb64
  · exact keeps_of_view (fun q => q.TLSDownstreamClientCA) _ c'
      (validateDownstreamClientCA_view E) (fun q => (checks_after_authorities E c' h q).2.2)

theorem validateDownstreamClientCAFile_idem (E : Env) (q : Policy) :
    validateDownstreamClientCAFile E (validateDownstreamClientCAFile E q).1 =
      validateDownstreamClientCAFile E q := by
  by_cases h1 : q.TLSDownstreamClientCAFile ≠ ""
  · cases hr : E.ReadFile q.TLSDownstreamClientCAFile with
    | error err =>
      have e : (validateDownstreamClientCAFile E q).1 = q := by
        unfold validateDownstreamClientCAFile; rw [if_pos h1, hr]
      rw [e]
    | ok bs =>
      have e : validateDownstreamClientCAFile E q =
          ({ q with TLSDownstreamClientCA := E.base64Encode bs }, none) := by
        unfold validateDownstreamClientCAFile; rw [if_pos h1, hr]
      rw [e]
      unfold validateDownstreamClientCAFile
      simp only [if_pos h1, hr]
  · have e : (validateDownstreamClientCAFile E q).1 = q := by
      unfold validateDownstreamClientCAFile; rw [if_neg h1]
    rw [e]

theorem validateDownstreamClientCAFile_view (E : Env) (q q' : Policy)
    (hv : (q.frame, q.TLSDownstreamClientCA) = (q'.frame, q'.TLSDownstreamClientCA))
    (h : validateDownstreamClientCAFile E q = (q, none)) :
    validateDownstreamClientCAFile E q' = (q', none) := by
  have hf : q.frame = q'.frame := congrArg Prod.fst hv
  have hca : q.TLSDownstreamClientCA = q'.TLSDownstreamClientCA := congrArg Prod.snd hv
  have e1 : q.TLSDownstreamClientCAFile = q'.TLSDownstreamClientCAFile :=
    congrArg PolicyFrame.TLSDownstreamClientCAFile hf
  unfold validateDownstreamClientCAFile at h ⊢
  rw [e1] at h
  by_cases h1 : q'.TLSDownstreamClientCAFile ≠ ""
  · rw [if_pos h1] at h ⊢
    cases hr : E.ReadFile q'.TLSDownstreamClientCAFile with
    | error err => rw [hr] at h; simp at h
    | ok bs =>
      rw [hr] at h
      simp only [Prod.mk.injEq, and_true] at h ⊢
      have hc := congrArg Policy.TLSDownstreamClientCA h
      simp only at hc
      rw [hc, hca]
  · rw [if_neg h1]

theorem validateDownstreamClientCAFile_keeps (E : Env) :
    ∀ c' ∈ [validateKubernetesToken, validateRewrite, validateRegex E, validateJWTIssuerFormat E,
        validateDependencies E, validateMCP],
      Keeps (validateDownstreamClientCAFile E) c' := by
  intro c' hmem
  refine keeps_of_view (fun q => (q.frame, q.TLSDownstreamClientCA)) _ c'
    (validateDownstreamClientCAFile_view E) (fun q => ?_)
  have hfr : (c' q).1.frame = q.frame :=
    checks_frame E c' (by
      simp only [validateChecks, List.mem_cons, List.mem_singleton, List.not_mem_nil,
        or_false] at hmem ⊢
      tauto) q
  exact Prod.ext hfr (checks_after_authorities E c' hmem q).2.2

/-! ### The regex and the dependencies -/

theorem validateRegex_idem (E : Env) (q : Policy) :
    validateRegex E (validateRegex E q).1 = validateRegex E q := by
  unfold validateRegex
  split_ifs with h1
  · simp only [if_pos h1]
  · simp only [if_neg h1]

theorem validateRegex_view (E : Env) (q q' : Policy)
    (hv : (q.frame, q.compiledRegex) = (q'.frame, q'.compiledRegex))
    (h : validateRegex E q = (q, none)) : validateRegex E q' = (q', none) := by
  have hf : q.frame = q'.frame := congrArg Prod.fst hv
  have hre : q.compiledRegex = q'.compiledRegex := congrArg Prod.snd hv
  have e1 : q.Regex = q'.Regex := congrArg PolicyFrame.Regex hf
  unfold validateRegex at h ⊢
  rw [e1] at h
  split_ifs at h ⊢ with h1
  · simp only [Prod.mk.injEq, and_true] at h ⊢
    have hc := congrArg Policy.compiledRegex h
    simp only at hc
    rw [hc, hre]
  · rfl

theorem validateRegex_keeps (E : Env) :
    ∀ c' ∈ [validateJWTIssuerFormat E, validateDependencies E, validateMCP],
      Keeps (validateRegex E) c' := by
  intro c' hmem
  refine keeps_of_view (fun q => (q.frame, q.compiledRegex)) _ c'
    (validateRegex_view E) (fun q => ?_)
  have hfr : (c' q).1.frame = q.frame :=
    checks_frame E c' (by
      simp only [validateChecks, List.mem_cons, List.mem_singleton, List.not_mem_nil,
        or_false] at hmem ⊢
      tauto) q
  exact Prod.ext hfr (checks_after_regex E c' hmem q)

theorem validateDependsOn_length (E : Env) (l : List String) :
    (validateDependsOn E l).1.length = l.length := by
  induction l with
  | nil => rfl
  | cons v rest ih =>
    unfold validateDependsOn
    split_ifs
    · split
      · split_ifs <;> simp [ih]
      · rfl
    · simp [ih]

/-- The loop over `DependsOn` finds its own result as it left it, when a host holds no
`/`. -/
theorem validateDependsOn_idem (E : Env)
    (hhost : ∀ s u, E.urlParse s = .ok u → containsSlash u.Host = false) (l : List String) :
    validateDependsOn E (validateDependsOn E l).1 = validateDependsOn E l := by
  induction l with
  | nil => rfl
  | cons v rest ih =>
    by_cases hs : containsSlash v = true
    · cases hu : E.urlParse v with
      | error err =>
        have e : validateDependsOn E (v :: rest) = (v :: rest, some (.unsupportedDependsOn v)) := by
          simp only [validateDependsOn, hs, if_true, hu]
        rw [e]; exact e
      | ok u =>
        by_cases hsh : u.Scheme ≠ "" ∧ u.Host ≠ ""
        · have e : validateDependsOn E (v :: rest) =
              (u.Host :: (validateDependsOn E rest).1, (validateDependsOn E rest).2) := by
            simp only [validateDependsOn, hs, if_true, hu, if_pos hsh]
          have hh := hhost v u hu
          rw [e]
          simp only [validateDependsOn, hh, Bool.false_eq_true, if_false, ih]
        · have e : validateDependsOn E (v :: rest) =
              (v :: rest, some (.unsupportedDependsOn v)) := by
            simp only [validateDependsOn, hs, if_true, hu, if_neg hsh]
          rw [e]; exact e
    · have hs' : containsSlash v = false := by simpa using hs
      have e : validateDependsOn E (v :: rest) =
          (v :: (validateDependsOn E rest).1, (validateDependsOn E rest).2) := by
        simp only [validateDependsOn, hs', Bool.false_eq_true, if_false]
      rw [e]
      simp only [validateDependsOn, hs', Bool.false_eq_true, if_false, ih]

theorem validateDependencies_idem (E : Env)
    (hhost : ∀ s u, E.urlParse s = .ok u → containsSlash u.Host = false) (q : Policy) :
    validateDependencies E (validateDependencies E q).1 = validateDependencies E q := by
  by_cases h1 : q.DependsOn.length > 5
  · have e : (validateDependencies E q).1 = q := by
      unfold validateDependencies; rw [if_pos h1]
    rw [e]
  · have e : validateDependencies E q =
        ({ q with DependsOn := (validateDependsOn E q.DependsOn).1 },
          (validateDependsOn E q.DependsOn).2) := by
      unfold validateDependencies; rw [if_neg h1]
    have h2 : ¬ (validateDependsOn E q.DependsOn).1.length > 5 := by
      rw [validateDependsOn_length]; exact h1
    rw [e]
    unfold validateDependencies
    simp only [if_neg h2, validateDependsOn_idem E hhost]

theorem validateDependencies_view (E : Env) (q q' : Policy) (hv : q.DependsOn = q'.DependsOn)
    (h : validateDependencies E q = (q, none)) : validateDependencies E q' = (q', none) := by
  unfold validateDependencies at h ⊢
  rw [hv] at h
  split_ifs at h ⊢ with h1
  · simp at h
  · simp only [Prod.mk.injEq] at h ⊢
    have hc := congrArg Policy.DependsOn h.1
    simp only at hc
    refine ⟨?_, h.2⟩
    rw [hc, hv]

theorem validateDependencies_keeps (E : Env) :
    ∀ c' ∈ [validateMCP], Keeps (validateDependencies E) c' := by
  intro c' hmem
  rw [List.mem_singleton] at hmem
  subst hmem
  refine keeps_of_view (fun q => q.DependsOn) _ _ (validateDependencies_view E) (fun q => ?_)
  unfold validateMCP; split_ifs <;> rfl

/-- C25: with a base64 decoder that reads what the encoder writes and a URL parser whose
hosts hold no `/`, a second call of `Validate`, on the policy as the first call left
it, returns the result of the first call and leaves every field as the first call left
it. -/
theorem Validate_idempotent (E : Env)
    (hb64 : ∀ bs, ∃ x, E.base64Decode (E.base64Encode bs) = .ok x)
    (hhost : ∀ s u, E.urlParse s = .ok u → containsSlash u.Host = false) (p : Policy) :
    ((p.Validate E).1.Validate E).2 = (p.Validate E).2 ∧
    ((p.Validate E).1.Validate E).1 = (p.Validate E).1 := by
  have key : runChecks (validateChecks E) (runChecks (validateChecks E) p).1 =
      runChecks (validateChecks E) p := by
    refine runChecks_twice (validateChecks E) ?_ ?_ p
    · intro c hmem
      simp only [validateChecks, List.mem_cons, List.mem_singleton, List.not_mem_nil,
        or_false] at hmem
      rcases hmem with h | h | h | h | h | h | h | h | h | h | h | h | h | h | h <;> subst h
      · exact idem_of_state _ (checks_state E _ (by simp))
      · exact idem_of_state _ (checks_state E _ (by simp))
      · exact idem_of_state _ (checks_state E _ (by simp))
      · exact idem_of_state _ (checks_state E _ (by simp))
      · exact idem_of_state _ (checks_state E _ (by simp))
      · exact validateClientCertificate_idem E
      · exact validateCustomCA_idem E hb64
      · exact idem_of_state _ (checks_state E _ (by simp))
      · exact validateDownstreamClientCAFile_idem E
      · exact idem_of_state _ (checks_state E _ (by simp))
      · exact idem_of_state _ (checks_state E _ (by simp))
      · exact validateRegex_idem E
      · exact idem_of_state _ (checks_state E _ (by simp))
      · exact validateDependencies_idem E hhost
      · exact idem_of_state _ (checks_state E _ (by simp))
    · have pureKeeps : ∀ c ∈ [validateSource E, validateAction, validateTo E, validateRedirect,
          validateAllowlists, validateKubernetesToken, validateRewrite,
          validateJWTIssuerFormat E, validateMCP],
          ∀ rest : List Check, (∀ c' ∈ rest, c' ∈ validateChecks E) →
            ∀ c' ∈ rest, Keeps c c' := by
        intro c hc rest hrest c' hc'
        refine keeps_of_frame E c (checks_state E c ?_) (checks_read_frame E c hc) c'
          (hrest c' hc')
        simp only [List.mem_cons, List.mem_singleton, List.not_mem_nil, or_false] at hc ⊢
        tauto
      have sub : ∀ rest : List Check, rest <:+ validateChecks E →
          ∀ c' ∈ rest, c' ∈ validateChecks E :=
        fun rest hsuf c' hc' => hsuf.subset hc'
      unfold validateChecks
      repeat rw [List.pairwise_cons]
      refine ⟨?_, ?_, ?_, ?_, ?_, ?_, ?_, ?_, ?_, ?_, ?_, ?_, ?_, ?_, ?_, List.Pairwise.nil⟩
      · exact pureKeeps _ (by simp) _ (sub _ ⟨[_], rfl⟩)
      · exact pureKeeps _ (by simp) _ (sub _ ⟨[_, _], rfl⟩)
      · exact pureKeeps _ (by simp) _ (sub _ ⟨[_, _, _], rfl⟩)
      · exact pureKeeps _ (by simp) _ (sub _ ⟨[_, _, _, _], rfl⟩)
      · exact pureKeeps _ (by simp) _ (sub _ ⟨[_, _, _, _, _], rfl⟩)
      · exact validateClientCertificate_keeps E
      · exact validateCustomCA_keeps E
      · exact validateDownstreamClientCA_keeps E hb64
      · exact validateDownstreamClientCAFile_keeps E
      · exact pureKeeps _ (by simp) _ (sub _ ⟨[_, _, _, _, _, _, _, _, _, _], rfl⟩)
      · exact pureKeeps _ (by simp) _ (sub _ ⟨[_, _, _, _, _, _, _, _, _, _, _], rfl⟩)
      · exact validateRegex_keeps E
      · exact pureKeeps _ (by simp) _ (sub _ ⟨[_, _, _, _, _, _, _, _, _, _, _, _, _], rfl⟩)
      · exact validateDependencies_keeps E
      · exact pureKeeps _ (by simp) _ (sub _ ⟨[_, _, _, _, _, _, _, _, _, _, _, _, _, _, _], rfl⟩)
  rw [Validate_eq_runChecks, Validate_eq_runChecks]
  exact ⟨congrArg Prod.snd key, congrArg Prod.fst key⟩

/-- C25 at a route on which the first call assigns the certificate authorities, the
compiled regex and `DependsOn`, and at one that the first call rejects after it replaced
an entry of `DependsOn`. -/
theorem Validate_idempotent_witness :
    (routeCAFile.Validate fileEnv).2 = none ∧
    (routeCAFile.Validate fileEnv).1.TLSCustomCA = "PEM" ∧
    (routeCAFile.Validate fileEnv).1.DependsOn = ["b.example.com"] ∧
    (((routeCAFile.Validate fileEnv).1.Validate fileEnv).2 = (routeCAFile.Validate fileEnv).2 ∧
      ((routeCAFile.Validate fileEnv).1.Validate fileEnv).1 = (routeCAFile.Validate fileEnv).1) ∧
    (routeCAFileBadDependsOn.Validate fileEnv).2 = some (.unsupportedDependsOn "/y") ∧
    (routeCAFileBadDependsOn.Validate fileEnv).1.DependsOn = ["b.example.com", "/y"] ∧
    (((routeCAFileBadDependsOn.Validate fileEnv).1.Validate fileEnv).2 =
        (routeCAFileBadDependsOn.Validate fileEnv).2 ∧
      ((routeCAFileBadDependsOn.Validate fileEnv).1.Validate fileEnv).1 =
        (routeCAFileBadDependsOn.Validate fileEnv).1) :=
  ⟨by decide, by decide, by decide,
   Validate_idempotent fileEnv (fun _ => ⟨_, rfl⟩) (fun s u h => simpleEnv_host s u h) routeCAFile,
   by decide, by decide,
   Validate_idempotent fileEnv (fun _ => ⟨_, rfl⟩) (fun s u h => simpleEnv_host s u h)
     routeCAFileBadDependsOn⟩

/-! ## Claims on the criteria matchers -/

theorem matchStringIn_appends : Appends matchStringIn := by
  intro dst left right
  cases right <;> simp [matchStringIn]

theorem matchStringListHas_eq (dst : Body) (left : Term) (right : Value) :
    matchStringListHas dst left right =
      (dst ++ [.BuiltinExpr .GreaterThan [countEqual left right, .IntNumberTerm 0]], none) := rfl

theorem matchStringListExclude_eq (dst : Body) (left : Term) (right : Value) :
    matchStringListExclude dst left right =
      (dst ++ [.BuiltinExpr .Equal [countEqual left right, .IntNumberTerm 0]], none) := rfl

theorem matchStringListIs_eq (dst : Body) (left : Term) (right : Value) :
    matchStringListIs dst left right =
      (dst ++ [.BuiltinExpr .Equal [.Call .Count [left], .IntNumberTerm 1],
        .BuiltinExpr .GreaterThan [countEqual left right, .IntNumberTerm 0]], none) := by
  simp [matchStringListIs, matchStringListHas_eq]

theorem stringLookup_appends (k : String) (f : matcher) (h : matchString.lookup k = some f) :
    Appends f := by
  unfold matchString.lookup at h
  split_ifs at h <;> simp only [Option.some.injEq] at h <;> subst h
  · intro dst left right; simp [matchStringContains]
  · intro dst left right; simp [matchStringEndsWith]
  · intro dst left right; simp [matchStringNot]
  · intro dst left right; simp [matchStringIs]
  · intro dst left right; simp [matchStringStartsWith]
  · exact matchStringIn_appends

theorem stringListLookup_appends (k : String) (f : matcher)
    (h : matchStringList.lookup k = some f) : Appends f := by
  unfold matchStringList.lookup at h
  split_ifs at h <;> simp only [Option.some.injEq] at h <;> subst h
  · intro dst left right; simp [matchStringListHas_eq]
  · intro dst left right; simp [matchStringListIs_eq]
  · intro dst left right; simp [matchStringListExclude_eq]

/-- The loop over an object appends when the matchers of its table do. -/
theorem rangeObject_appends (lookup : String → Option matcher) (unknown : String → MatchError)
    (h : ∀ k f, lookup k = some f → Appends f) (left : Term) (entries : List (String × Value)) :
    ∀ dst, rangeObject lookup unknown left entries dst =
      (dst ++ (rangeObject lookup unknown left entries []).1,
        (rangeObject lookup unknown left entries []).2) := by
  induction entries with
  | nil => intro dst; simp [rangeObject]
  | cons kv rest ih =>
    intro dst
    obtain ⟨k, v⟩ := kv
    cases hl : lookup k with
    | none => simp [rangeObject, hl]
    | some f =>
      have hf := h k f hl
      cases he : (f [] left v).2 with
      | some err =>
        have h1 : f dst left v = (dst ++ (f [] left v).1, some err) := by rw [hf dst, he]
        have h2 : f [] left v = ((f [] left v).1, some err) := by rw [← he]
        simp only [rangeObject, hl, h1]
        rw [h2]
      | none =>
        have h1 : f dst left v = (dst ++ (f [] left v).1, none) := by rw [hf dst, he]
        have h2 : f [] left v = ((f [] left v).1, none) := by rw [← he]
        simp only [rangeObject, hl, h1]
        rw [h2]
        simp only
        rw [ih (dst ++ (f [] left v).1), ih (f [] left v).1, List.append_assoc]

theorem matchString_appends : Appends matchString := by
  intro dst left right
  exact rangeObject_appends _ _ stringLookup_appends left _ dst

theorem matchStringList_appends : Appends matchStringList := by
  intro dst left right
  exact rangeObject_appends _ _ stringListLookup_appends left _ dst

/-- The loop over an object fails exactly when a key is not in the table or the matcher
of a key fails. -/
theorem rangeObject_error_iff (lookup : String → Option matcher) (unknown : String → MatchError)
    (h : ∀ k f, lookup k = some f → Appends f) (left : Term) (entries : List (String × Value)) :
    ∀ dst, (rangeObject lookup unknown left entries dst).2 ≠ none ↔
      ∃ kv ∈ entries, lookup kv.1 = none ∨
        ∃ f, lookup kv.1 = some f ∧ (f [] left kv.2).2 ≠ none := by
  induction entries with
  | nil => intro dst; simp [rangeObject]
  | cons kv rest ih =>
    intro dst
    obtain ⟨k, v⟩ := kv
    cases hl : lookup k with
    | none => simp [rangeObject, hl]
    | some f =>
      have hf := h k f hl
      cases he : (f [] left v).2 with
      | some err =>
        have h1 : f dst left v = (dst ++ (f [] left v).1, some err) := by rw [hf dst, he]
        simp only [rangeObject, hl, h1]
        simp [hl, he]
      | none =>
        have h1 : f dst left v = (dst ++ (f [] left v).1, none) := by rw [hf dst, he]
        simp only [rangeObject, hl, h1]
        rw [ih]
        simp [hl, he]

theorem stringLookup_none (k : String) : matchString.lookup k = none ↔ k ∉ stringOperators := by
  unfold matchString.lookup stringOperators
  split_ifs <;> simp_all

theorem stringListLookup_none (k : String) :
    matchStringList.lookup k = none ↔ k ∉ stringListOperators := by
  unfold matchStringList.lookup stringListOperators
  split_ifs <;> simp_all

theorem stringLookup_fails (k : String) (f : matcher) (left : Term) (v : Value)
    (h : matchString.lookup k = some f) :
    (f [] left v).2 ≠ none ↔ k = "in" ∧ v.isArray = false := by
  unfold matchString.lookup at h
  split_ifs at h with h1 h2 h3 h4 h5 h6 <;> simp only [Option.some.injEq] at h <;> subst h
  · subst h1; simp [matchStringContains]
  · subst h2; simp [matchStringEndsWith]
  · subst h3; simp [matchStringNot]
  · subst h4; simp [matchStringIs]
  · subst h5; simp [matchStringStartsWith]
  · subst h6; cases v <;> simp [matchStringIn, Value.isArray]

theorem stringListLookup_fails (k : String) (f : matcher) (left : Term) (v : Value)
    (h : matchStringList.lookup k = some f) : (f [] left v).2 = none := by
  unfold matchStringList.lookup at h
  split_ifs at h <;> simp only [Option.some.injEq] at h <;> subst h <;> rfl

/-- C26: a value that is not an object is compiled by `matchString` as the object
`{is: value}` and by `matchStringList` as the object `{has: value}`: the same clauses
are appended and the same result returned, one equality clause for `matchString`. -/
theorem matchString_shorthand (dst : Body) (left : Term) (v : Value) (h : v.isObject = false) :
    matchString dst left v = matchString dst left (.object [("is", v)]) ∧
    matchStringList dst left v = matchStringList dst left (.object [("has", v)]) ∧
    matchString dst left v = (dst ++ [.BuiltinExpr .Equal [left, .NewTerm v]], none) ∧
    matchString dst left (.object [("is", v)]) =
      (dst ++ [.BuiltinExpr .Equal [left, .NewTerm v]], none) := by
  cases v <;> first | (simp [Value.isObject] at h; done) | exact ⟨rfl, rfl, rfl, rfl⟩

/-- C26 at `alice@example.com` as the email. -/
theorem matchString_shorthand_witness :
    matchString [] emailTerm (.string "alice@example.com") =
      matchString [] emailTerm (.object [("is", .string "alice@example.com")]) ∧
    matchString [] emailTerm (.string "alice@example.com") =
      ([.BuiltinExpr .Equal [emailTerm, .NewTerm (.string "alice@example.com")]], none) :=
  ⟨(matchString_shorthand [] emailTerm (.string "alice@example.com") rfl).1,
   (matchString_shorthand [] emailTerm (.string "alice@example.com") rfl).2.2.1⟩

/-- C27: the function `matchString` fails exactly on an object with a key that is not an
operator of the string matchers or with the key `in` and a value that is not an array;
`matchStringList` fails exactly on an object with a key that is not an operator of the
list matchers. -/
theorem matchString_error_iff (dst : Body) (left : Term) (right : Value) :
    ((matchString dst left right).2 ≠ none ↔
      ∃ entries, right = .object entries ∧
        ∃ kv ∈ entries, kv.1 ∉ stringOperators ∨ (kv.1 = "in" ∧ kv.2.isArray = false)) ∧
    ((matchStringList dst left right).2 ≠ none ↔
      ∃ entries, right = .object entries ∧ ∃ kv ∈ entries, kv.1 ∉ stringListOperators) := by
  constructor
  · have key : ∀ entries : List (String × Value),
        (rangeObject matchString.lookup .unknownStringOperator left entries dst).2 ≠ none ↔
          ∃ kv ∈ entries, kv.1 ∉ stringOperators ∨ (kv.1 = "in" ∧ kv.2.isArray = false) := by
      intro entries
      rw [rangeObject_error_iff _ _ stringLookup_appends]
      constructor
      · rintro ⟨kv, hkv, h | ⟨f, hf, hfail⟩⟩
        · exact ⟨kv, hkv, Or.inl ((stringLookup_none kv.1).mp h)⟩
        · exact ⟨kv, hkv, Or.inr ((stringLookup_fails kv.1 f left kv.2 hf).mp hfail)⟩
      · rintro ⟨kv, hkv, h | h⟩
        · exact ⟨kv, hkv, Or.inl ((stringLookup_none kv.1).mpr h)⟩
        · cases hl : matchString.lookup kv.1 with
          | none => exact ⟨kv, hkv, Or.inl hl⟩
          | some f =>
            exact ⟨kv, hkv, Or.inr ⟨f, hl, (stringLookup_fails kv.1 f left kv.2 hl).mpr h⟩⟩
    cases right with
    | object entries => simpa [matchString] using key entries
    | _ => simp [matchString, rangeObject, matchString.lookup, matchStringIs]
  · have key : ∀ entries : List (String × Value),
        (rangeObject matchStringList.lookup .unknownStringListOperator left entries dst).2 ≠
            none ↔ ∃ kv ∈ entries, kv.1 ∉ stringListOperators := by
      intro entries
      rw [rangeObject_error_iff _ _ stringListLookup_appends]
      constructor
      · rintro ⟨kv, hkv, h | ⟨f, hf, hfail⟩⟩
        · exact ⟨kv, hkv, (stringListLookup_none kv.1).mp h⟩
        · exact absurd (stringListLookup_fails kv.1 f left kv.2 hf) hfail
      · rintro ⟨kv, hkv, h⟩
        exact ⟨kv, hkv, Or.inl ((stringListLookup_none kv.1).mpr h)⟩
    cases right with
    | object entries => simpa [matchStringList] using key entries
    | _ => simp [matchStringList, rangeObject, matchStringList.lookup, matchStringListHas_eq]

/-- C27 at an unknown operator, at `in` without an array, and at objects that compile. -/
theorem matchString_error_iff_witness :
    (matchString [] emailTerm (.object [("matches", .string "a")])).2 =
      some (.unknownStringOperator "matches") ∧
    (matchString [] emailTerm (.object [("in", .string "a")])).2 = some .inRequiresArray ∧
    (matchString [] emailTerm (.object [("in", .array [.string "a"])])).2 = none ∧
    (matchStringList [] groupsTerm (.object [("contains", .string "a")])).2 =
      some (.unknownStringListOperator "contains") ∧
    (matchString [] emailTerm (.object [("matches", .string "a")])).2 ≠ none :=
  ⟨rfl, rfl, rfl, rfl,
   ((matchString_error_iff [] emailTerm (.object [("matches", .string "a")])).1).mpr
     ⟨_, rfl, ("matches", .string "a"), List.mem_singleton.mpr rfl, Or.inl (by decide)⟩⟩

/-- C28: a string matcher object with one operator appends one clause, the predicate of
the operator applied to the left term and the right value: equality for `is`, inequality
for `not`, the substring, prefix and suffix builtins for `contains`, `starts_with` and
`ends_with`, and membership in the array for `in`. -/
theorem matchString_single_operator (dst : Body) (left : Term) (right : Value) :
    matchString dst left (.object [("is", right)]) =
      (dst ++ [.BuiltinExpr .Equal [left, .NewTerm right]], none) ∧
    matchString dst left (.object [("not", right)]) =
      (dst ++ [.BuiltinExpr .NotEqual [left, .NewTerm right]], none) ∧
    matchString dst left (.object [("contains", right)]) =
      (dst ++ [.BuiltinExpr .Contains [left, .NewTerm right]], none) ∧
    matchString dst left (.object [("starts_with", right)]) =
      (dst ++ [.BuiltinExpr .StartsWith [left, .NewTerm right]], none) ∧
    matchString dst left (.object [("ends_with", right)]) =
      (dst ++ [.BuiltinExpr .EndsWith [left, .NewTerm right]], none) ∧
    (∀ elements, right = .array elements →
      matchString dst left (.object [("in", right)]) =
        (dst ++ [.BuiltinExpr .Member [left, .NewTerm (.array elements)]], none)) :=
  ⟨rfl, rfl, rfl, rfl, rfl, fun _ h => by subst h; rfl⟩

/-- C29: on a list term, `has` appends the one clause that the count of the elements
equal to the value is greater than 0, `exclude` the one clause that this count equals 0,
which holds exactly when the clause of `has` does not, and `is` appends the clause that
the list counts 1 element followed by the clause of `has`. -/
theorem matchStringList_clauses (dst : Body) (left : Term) (v : Value) :
    matchStringListHas dst left v =
      (dst ++ [.BuiltinExpr .GreaterThan [countEqual left v, .IntNumberTerm 0]], none) ∧
    matchStringListExclude dst left v =
      (dst ++ [.BuiltinExpr .Equal [countEqual left v, .IntNumberTerm 0]], none) ∧
    matchStringListIs dst left v =
      (dst ++ [.BuiltinExpr .Equal [.Call .Count [left], .IntNumberTerm 1]] ++
        ((matchStringListHas [] left v).1), none) ∧
    matchStringList dst left (.object [("has", v)]) = matchStringListHas dst left v ∧
    matchStringList dst left (.object [("exclude", v)]) = matchStringListExclude dst left v ∧
    matchStringList dst left (.object [("is", v)]) = matchStringListIs dst left v ∧
    (∀ G : Engine,
      G.holds (.BuiltinExpr .Equal [countEqual left v, .IntNumberTerm 0]) =
        !G.holds (.BuiltinExpr .GreaterThan [countEqual left v, .IntNumberTerm 0])) := by
  refine ⟨rfl, rfl, ?_, rfl, rfl, rfl, ?_⟩
  · rw [matchStringListIs_eq, matchStringListHas_eq]; simp
  · intro G
    simp only [Engine.holds, countEqual]
    by_cases h : G.count (.ArrayComprehensionTerm (.BooleanTerm true)
        [.MustParseExpr "some v",
         .BuiltinExpr .Equality [.VarTerm "v", .RefTerm left [.VarTerm "$0"]],
         .BuiltinExpr .Equal [.VarTerm "v", .NewTerm v]]) = 0
    · simp [h]
    · have : 0 < G.count (.ArrayComprehensionTerm (.BooleanTerm true)
          [.MustParseExpr "some v",
           .BuiltinExpr .Equality [.VarTerm "v", .RefTerm left [.VarTerm "$0"]],
           .BuiltinExpr .Equal [.VarTerm "v", .NewTerm v]]) := Nat.pos_of_ne_zero h
      simp [h, this]

/-- A body holds when all its clauses do: the truth set of two lists of clauses after a
body is the intersection of the truth sets of each after that body. -/
theorem truthSet_append (dst a b : Body) :
    truthSet (dst ++ a ++ b) = truthSet (dst ++ a) ∩ truthSet (dst ++ b) := by
  ext G
  simp only [truthSet, Engine.accepts, Set.mem_setOf_eq, Set.mem_inter_iff, List.all_append,
    Bool.and_eq_true]
  tauto

/-- C30: compiling a matcher object and then another into a body, without error, gives
the body followed by the clauses of the first followed by the clauses of the second; the
body is kept as it was, and the truth set of the result is the intersection of the truth
sets of the body with each object compiled alone. -/
theorem matchString_conjunction (f g : matcher) (hf : f = matchString ∨ f = matchStringList)
    (hg : g = matchString ∨ g = matchStringList) (dst : Body) (leftA leftB : Term)
    (A B : Value) (hA : (f dst leftA A).2 = none)
    (hB : (g (f dst leftA A).1 leftB B).2 = none) :
    (g dst leftB B).2 = none ∧
    (g (f dst leftA A).1 leftB B).1 = dst ++ (f [] leftA A).1 ++ (g [] leftB B).1 ∧
    (f dst leftA A).1 = dst ++ (f [] leftA A).1 ∧
    (g dst leftB B).1 = dst ++ (g [] leftB B).1 ∧
    truthSet (g (f dst leftA A).1 leftB B).1 =
      truthSet (f dst leftA A).1 ∩ truthSet (g dst leftB B).1 := by
  have af : Appends f := by
    rcases hf with h | h <;> subst h
    · exact matchString_appends
    · exact matchStringList_appends
  have ag : Appends g := by
    rcases hg with h | h <;> subst h
    · exact matchString_appends
    · exact matchStringList_appends
  have e1 : (f dst leftA A).1 = dst ++ (f [] leftA A).1 := by rw [af dst]
  have e2 : (g dst leftB B).1 = dst ++ (g [] leftB B).1 := by rw [ag dst]
  have e3 : (g (f dst leftA A).1 leftB B).1 = dst ++ (f [] leftA A).1 ++ (g [] leftB B).1 := by
    rw [ag (f dst leftA A).1, e1]
  have e4 : (g dst leftB B).2 = none := by
    rw [ag (f dst leftA A).1] at hB
    rw [ag dst]
    exact hB
  refine ⟨e4, e3, e1, e2, ?_⟩
  rw [e3, e1, e2]
  exact truthSet_append _ _ _

/-- C30 at a body of one clause, an object on the email and an object on the groups. -/
theorem matchString_conjunction_witness :
    (matchStringList
        (matchString [.MustParseExpr "input.session.id != null"] emailTerm
          (.object [("ends_with", .string "@example.com"), ("not", .string "eve@example.com")])).1
        groupsTerm (.object [("has", .string "admin")])).1 =
      [.MustParseExpr "input.session.id != null",
       .BuiltinExpr .EndsWith [emailTerm, .NewTerm (.string "@example.com")],
       .BuiltinExpr .NotEqual [emailTerm, .NewTerm (.string "eve@example.com")],
       .BuiltinExpr .GreaterThan [countEqual groupsTerm (.string "admin"), .IntNumberTerm 0]] :=
  (matchString_conjunction matchString matchStringList (Or.inl rfl) (Or.inr rfl)
    [.MustParseExpr "input.session.id != null"] emailTerm groupsTerm
    (.object [("ends_with", .string "@example.com"), ("not", .string "eve@example.com")])
    (.object [("has", .string "admin")]) rfl rfl).2.1

/-- C28 at the email and the operators `starts_with` and `in`. -/
theorem matchString_single_operator_witness :
    matchString [] emailTerm (.object [("starts_with", .string "alice@")]) =
      ([.BuiltinExpr .StartsWith [emailTerm, .NewTerm (.string "alice@")]], none) ∧
    matchString [] emailTerm (.object [("in", .array [.string "a", .string "b"])]) =
      ([.BuiltinExpr .Member [emailTerm, .NewTerm (.array [.string "a", .string "b"])]], none) :=
  ⟨(matchString_single_operator [] emailTerm (.string "alice@")).2.2.2.1,
   (matchString_single_operator [] emailTerm (.array [.string "a", .string "b"])).2.2.2.2.2 _ rfl⟩

/-- C29 at the groups and the value `admin`, with an engine that finds two elements. -/
theorem matchStringList_clauses_witness :
    matchStringList [] groupsTerm (.object [("is", .string "admin")]) =
      ([.BuiltinExpr .Equal [.Call .Count [groupsTerm], .IntNumberTerm 1],
        .BuiltinExpr .GreaterThan [countEqual groupsTerm (.string "admin"), .IntNumberTerm 0]],
        none) ∧
    twoEngine.holds
        (.BuiltinExpr .GreaterThan [countEqual groupsTerm (.string "admin"), .IntNumberTerm 0]) =
      true ∧
    twoEngine.holds
        (.BuiltinExpr .Equal [countEqual groupsTerm (.string "admin"), .IntNumberTerm 0]) =
      !twoEngine.holds
        (.BuiltinExpr .GreaterThan [countEqual groupsTerm (.string "admin"), .IntNumberTerm 0]) :=
  ⟨((matchStringList_clauses [] groupsTerm (.string "admin")).2.2.2.2.2.1).trans
      (matchStringList_clauses [] groupsTerm (.string "admin")).2.2.1,
   by decide,
   (matchStringList_clauses [] groupsTerm (.string "admin")).2.2.2.2.2.2 twoEngine⟩


/-! ## Claims on the route ID errors, on matching and on the wire name -/

/-- C38: the function `RouteID` returns an error exactly when the ID is empty, `To` is
empty and both `Redirect` and `Response` are unset; the error then is the
missing-destination error and the ID returned with it is empty; `MustRouteID` panics
exactly then, and returns the ID of `RouteID` otherwise. -/
theorem RouteID_error_iff {σ : Type} (D : Digest σ) (p : Policy) :
    ((∃ err, p.RouteID D = .error err) ↔
      (p.ID = "" ∧ p.To = [] ∧ p.Redirect = none ∧ p.Response = none)) ∧
    (∀ err, p.RouteID D = .error err →
      err = .eitherToOrRedirectOrResponseRequired ∧
      goResults (p.RouteID D) = ("", some .eitherToOrRedirectOrResponseRequired)) ∧
    ((∃ err, p.MustRouteID D = .error err) ↔
      (p.ID = "" ∧ p.To = [] ∧ p.Redirect = none ∧ p.Response = none)) ∧
    (∀ id, p.RouteID D = .ok id → p.MustRouteID D = .ok id) := by
  have key : ∀ err, p.RouteID D = .error err ↔
      (p.ID = "" ∧ p.To = [] ∧ p.Redirect = none ∧ p.Response = none ∧
        err = .eitherToOrRedirectOrResponseRequired) := by
    intro err
    unfold Policy.RouteID Policy.generateRouteID
    by_cases hid : p.ID ≠ ""
    · simp [hid]
    · have hid' : p.ID = "" := by simpa using hid
      simp only [hid, if_false, hid', true_and]
      cases hto : p.To with
      | cons a l => simp
      | nil =>
        cases hr : p.Redirect with
        | some r => simp
        | none =>
          cases hp : p.Response with
          | some r => simp
          | none => simp [eq_comm]
  have must : ∀ err, p.MustRouteID D = .error err ↔ p.RouteID D = .error err := by
    intro err
    unfold Policy.MustRouteID
    cases p.RouteID D <;> simp
  refine ⟨?_, ?_, ?_, ?_⟩
  · constructor
    · rintro ⟨err, h⟩
      obtain ⟨h1, h2, h3, h4, _⟩ := (key err).mp h
      exact ⟨h1, h2, h3, h4⟩
    · rintro ⟨h1, h2, h3, h4⟩
      exact ⟨_, (key _).mpr ⟨h1, h2, h3, h4, rfl⟩⟩
  · intro err h
    have h5 := ((key err).mp h).2.2.2.2
    subst h5
    exact ⟨rfl, by rw [h]; rfl⟩
  · constructor
    · rintro ⟨err, h⟩
      obtain ⟨h1, h2, h3, h4, _⟩ := (key err).mp ((must err).mp h)
      exact ⟨h1, h2, h3, h4⟩
    · rintro ⟨h1, h2, h3, h4⟩
      exact ⟨_, (must _).mpr ((key _).mpr ⟨h1, h2, h3, h4, rfl⟩)⟩
  · intro id h
    unfold Policy.MustRouteID
    rw [h]

/-- C38 at a policy without ID and action, at one with an ID only, and at `routeA`. -/
theorem RouteID_error_iff_witness :
    (∃ err, routeNoAction.RouteID plainDigest = .error err) ∧
    (∃ err, routeNoAction.MustRouteID plainDigest = .error err) ∧
    routeNoActionWithID.MustRouteID plainDigest = .ok "route-1" ∧
    ¬ (∃ err, routeA.RouteID plainDigest = .error err) :=
  ⟨(RouteID_error_iff plainDigest routeNoAction).1.mpr ⟨rfl, rfl, rfl, rfl⟩,
   (RouteID_error_iff plainDigest routeNoAction).2.2.1.mpr ⟨rfl, rfl, rfl, rfl⟩,
   (RouteID_error_iff plainDigest routeNoActionWithID).2.2.2 "route-1" (by decide),
   fun h => absurd ((RouteID_error_iff plainDigest routeA).1.mp h).2.1 (by decide)⟩

/-- The blocks of `Validate` leave the prefix and the path as they are, and the compiled
regex of a policy without a regex. -/
theorem checks_matchFields (E : Env) :
    ∀ c ∈ validateChecks E, ∀ q, (c q).1.matchFields = q.matchFields := by
  intro c hmem q
  simp only [validateChecks, List.mem_cons, List.mem_singleton, List.not_mem_nil, or_false] at hmem
  rcases hmem with h | h | h | h | h | h | h | h | h | h | h | h | h | h | h <;> subst h
  · unfold validateSource; split <;> (try split) <;> rfl
  · unfold validateAction; split <;> rfl
  · unfold validateTo; split <;> (try (simp only; split_ifs)) <;> rfl
  · unfold validateRedirect; split <;> rfl
  · unfold validateAllowlists; split_ifs <;> rfl
  · unfold validateClientCertificate; split_ifs <;> rfl
  · unfold validateCustomCA; split_ifs <;> (try split) <;> rfl
  · unfold validateDownstreamClientCA; split_ifs <;> (try split) <;> rfl
  · unfold validateDownstreamClientCAFile; split_ifs <;> (try split) <;> rfl
  · unfold validateKubernetesToken; split_ifs <;> rfl
  · unfold validateRewrite; split_ifs <;> rfl
  · unfold validateRegex
    split_ifs with h
    · simp only [Policy.matchFields, if_neg h]
    · rfl
  · unfold validateJWTIssuerFormat; split_ifs <;> rfl
  · unfold validateDependencies; split_ifs <;> rfl
  · unfold validateMCP; split_ifs <;> rfl

/-- What `Matches` returns, condition by condition. -/
theorem Matches_eq_true (E : Env) (p : Policy) (requestURL : URL) (stripPort : Bool) :
    p.Matches E requestURL stripPort = true ↔
      ∃ fromURL, E.ParseAndValidateURL p.From = .ok fromURL ∧
        E.FromURLMatchesRequestURL fromURL requestURL stripPort = true ∧
        (p.Prefix = "" ∨ hasPrefix requestURL.Path p.Prefix = true) ∧
        (p.Path = "" ∨ requestURL.Path = p.Path) ∧
        (∀ re, p.compiledRegex = some re → E.regexpMatchString re requestURL.Path = true) := by
  unfold Policy.Matches
  cases hp : E.ParseAndValidateURL p.From with
  | error err => simp
  | ok fromURL =>
    simp only [Except.ok.injEq, exists_eq_left']
    cases hre : p.compiledRegex with
    | none =>
      simp only [reduceCtorEq, false_implies, implies_true, and_true]
      split_ifs <;> first | (simp_all; done) | (simp_all; tauto)
    | some re =>
      simp only [Option.some.injEq, forall_eq']
      split_ifs <;> first | (simp_all; done) | (simp_all; tauto)

/-- After `Validate` accepted, the compiled regex is what the compiler returned for the
anchored regex, or what it was for a policy without a regex; prefix, path and source are
what they were. -/
theorem Validate_match_state (E : Env) (p : Policy) (h : (p.Validate E).2 = none) :
    (p.Validate E).1.From = p.From ∧ (p.Validate E).1.Prefix = p.Prefix ∧
    (p.Validate E).1.Path = p.Path ∧
    (p.Regex ≠ "" → (p.Validate E).1.compiledRegex = E.regexpCompile (anchoredRegex p.Regex)) ∧
    (p.Regex = "" → (p.Validate E).1.compiledRegex = p.compiledRegex) := by
  have hm : (p.Validate E).1.matchFields = p.matchFields := by
    rw [Validate_eq_runChecks]
    exact runChecks_preserves Policy.matchFields _ (checks_matchFields E) p
  have hf : (p.Validate E).1.frame = p.frame := by
    rw [Validate_eq_runChecks]
    exact runChecks_preserves Policy.frame _ (checks_frame E) p
  have hregex : (p.Validate E).1.Regex = p.Regex := congrArg PolicyFrame.Regex hf
  refine ⟨congrArg PolicyFrame.From hf, congrArg (·.1) hm, congrArg (·.2.1) hm, ?_, ?_⟩
  · intro hre
    obtain ⟨q, hq, _, _, hfin⟩ := Validate_accepts_check E p h
      [validateSource E, validateAction, validateTo E, validateRedirect, validateAllowlists,
        validateClientCertificate E, validateCustomCA E, validateDownstreamClientCA E,
        validateDownstreamClientCAFile E, validateKubernetesToken, validateRewrite]
      _ (validateRegex E) rfl
    have hq' : q.Regex = p.Regex := congrArg PolicyFrame.Regex hq
    rw [hfin, runChecks_preserves (·.compiledRegex) _ (checks_after_regex E)]
    unfold validateRegex
    rw [if_pos (by rw [hq']; exact hre), hq']
  · intro hre
    have h3 := congrArg (·.2.2) hm
    simp only [Policy.matchFields, hregex, hre, if_true] at h3
    exact h3

/-- C39 (as stated, refuted): a policy whose regex `(` does not compile is accepted by
`Validate` and then matches a request of its host whatever the path, although no path
matches the anchored regex. -/
theorem Matches_counterexample :
    (routeBadRegex.Validate literalEnv).2 = none ∧
    routeBadRegex.Regex ≠ "" ∧
    literalEnv.regexpCompile (anchoredRegex routeBadRegex.Regex) = none ∧
    (routeBadRegex.Validate literalEnv).1.Matches literalEnv requestOther false = true := by
  decide

/-- C39 (amended): a policy that `Validate` accepted matches a request exactly when its
source URL matches the request URL, its prefix is empty or a prefix of the request path,
its path is empty or the request path, and it has no compiled regex or the compiled
regex matches the request path. With a regex, the compiled regex is what the compiler
returned for the anchored regex: nothing when that does not compile, and then the regex
is not tested. A policy whose source is not a valid URL matches no request. -/
theorem Matches_validated (E : Env) (p : Policy) (requestURL : URL) (stripPort : Bool)
    (h : (p.Validate E).2 = none) :
    ((p.Validate E).1.Matches E requestURL stripPort = true ↔
      ∃ fromURL, E.ParseAndValidateURL p.From = .ok fromURL ∧
        E.FromURLMatchesRequestURL fromURL requestURL stripPort = true ∧
        (p.Prefix = "" ∨ hasPrefix requestURL.Path p.Prefix = true) ∧
        (p.Path = "" ∨ requestURL.Path = p.Path) ∧
        (∀ re, (p.Validate E).1.compiledRegex = some re →
          E.regexpMatchString re requestURL.Path = true)) ∧
    (p.Regex ≠ "" → (p.Validate E).1.compiledRegex = E.regexpCompile (anchoredRegex p.Regex)) ∧
    (p.Regex = "" → (p.Validate E).1.compiledRegex = p.compiledRegex) ∧
    (∀ r : Policy, (∀ u, E.ParseAndValidateURL r.From ≠ .ok u) →
      r.Matches E requestURL stripPort = false) := by
  obtain ⟨h1, h2, h3, h4, h5⟩ := Validate_match_state E p h
  refine ⟨?_, h4, h5, ?_⟩
  · rw [Matches_eq_true, h1, h2, h3]
  · intro r hr
    unfold Policy.Matches
    cases hp : E.ParseAndValidateURL r.From with
    | error err => rfl
    | ok u => exact absurd hp (hr u)

/-- The amended C39 at a route with the regex `/health`, which matches the request for
`/health` and not the one for `/other`. -/
theorem Matches_validated_witness :
    (routeHealthRegex.Validate literalEnv).2 = none ∧
    (routeHealthRegex.Validate literalEnv).1.compiledRegex = some { content := "^/health$" } ∧
    (routeHealthRegex.Validate literalEnv).1.Matches literalEnv requestHealth false = true ∧
    (routeHealthRegex.Validate literalEnv).1.Matches literalEnv requestOther false = false :=
  ⟨by decide,
   (Matches_validated literalEnv routeHealthRegex requestHealth false (by decide)).2.1 (by decide),
   (Matches_validated literalEnv routeHealthRegex requestHealth false (by decide)).1.mpr
     ⟨{ Scheme := "https", Host := "a.example.com" }, by decide, by decide, Or.inl rfl,
      Or.inl rfl, by decide⟩,
   by decide⟩

theorem Policy_setAction_name (E : Env) (p : Policy) (pb pb' : Route)
    (h : p.setAction E pb = .ok pb') : pb'.Name = pb.Name := by
  unfold Policy.setAction at h
  split at h
  · simp only [Except.ok.injEq] at h; subst h; rfl
  · split at h
    · simp only [Except.ok.injEq] at h; subst h; rfl
    · split at h
      · simp at h
      · simp only [Except.ok.injEq] at h; subst h; rfl

/-- The name that `ToProto` writes: the name of the policy, or the two results of
`RouteID` printed one after the other. -/
theorem ToProto_name {σ : Type} (E : Env) (D : Digest σ) (p : Policy) (pb : Route)
    (h : p.ToProto E D = .ok pb) :
    (p.Name ≠ "" → pb.Name = p.Name) ∧
    (p.Name = "" → ∀ id, p.RouteID D = .ok id → pb.Name = id ++ "<nil>") := by
  unfold Policy.ToProto at h
  generalize hb : p.setAudiences (p.setOptionalStrings (p.setName E D (p.routeLiteral E))) = pb1 at h
  have hn : pb1.Name = (p.setName E D (p.routeLiteral E)).Name := by
    rw [← hb]
    have e1 : ∀ x : Route, (p.setAudiences x).Name = x.Name := by
      intro x; unfold Policy.setAudiences; split <;> rfl
    rw [e1]
    rfl
  have hl : (p.routeLiteral E).Name = p.Name := by
    cases hu : p.UpstreamTimeout <;> simp [Policy.routeLiteral, hu]
  split at h
  · simp at h
  · rename_i pb0 hact
    simp only [Except.ok.injEq] at h
    subst h
    have h1 := Policy_setAction_name E p pb1 pb0 hact
    have h2 : (p.setTrailer E pb0).Name = pb0.Name := rfl
    rw [h2, h1, hn]
    unfold Policy.setName
    rw [hl]
    constructor
    · intro hne; rw [if_neg hne]; exact hl
    · intro he id hid
      rw [if_pos he, hid]
      rfl

/-- C40: the wire name of `routeA`, which has no name, is its route ID followed by
`<nil>`, not the route ID. -/
theorem ToProto_name_nil :
    routeA.Name = "" ∧
    (routeA.RouteID plainDigest).map (· ++ "<nil>") =
      .ok (wireOf simpleEnv plainDigest routeA).Name ∧
    routeA.RouteID plainDigest ≠ .ok (wireOf simpleEnv plainDigest routeA).Name := by
  decide


/-! ## Claims on the order of the clauses and on sub-matchers -/

/-- C37 (as stated, refuted): for a `has` whose value is the string matcher object
`{starts_with: "admin-"}`, the comprehension tests each element for equality with the
object itself; the prefix predicate that `matchString` appends for this object is not
among its clauses. The same holds of `exclude` and `is`. -/
theorem matchStringList_submatcher_counterexample :
    matchStringList [] groupsTerm objectHasStartsWith =
      ([.BuiltinExpr .GreaterThan
        [.Call .Count
          [.ArrayComprehensionTerm (.BooleanTerm true)
            [.MustParseExpr "some v",
             .BuiltinExpr .Equality [.VarTerm "v", .RefTerm groupsTerm [.VarTerm "$0"]],
             .BuiltinExpr .Equal
               [.VarTerm "v", .NewTerm (.object [("starts_with", .string "admin-")])]]],
         .IntNumberTerm 0]], none) ∧
    matchString [] (.VarTerm "v") (.object [("starts_with", .string "admin-")]) =
      ([.BuiltinExpr .StartsWith [.VarTerm "v", .NewTerm (.string "admin-")]], none) ∧
    Expr.BuiltinExpr .StartsWith [.VarTerm "v", .NewTerm (.string "admin-")] ∉
      (elementBody groupsTerm (.object [("starts_with", .string "admin-")])).1 ∧
    matchStringList [] groupsTerm
        (.object [("exclude", .object [("starts_with", .string "admin-")])]) =
      ([.BuiltinExpr .Equal
        [countEqual groupsTerm (.object [("starts_with", .string "admin-")]),
         .IntNumberTerm 0]], none) ∧
    matchStringList [] groupsTerm
        (.object [("is", .object [("starts_with", .string "admin-")])]) =
      ([.BuiltinExpr .Equal [.Call .Count [groupsTerm], .IntNumberTerm 1],
        .BuiltinExpr .GreaterThan
          [countEqual groupsTerm (.object [("starts_with", .string "admin-")]),
           .IntNumberTerm 0]], none) := by
  refine ⟨rfl, rfl, ?_, rfl, rfl⟩
  simp [elementBody, matchStringIs]

/-- C37 (amended): for `has`, `exclude` and `is` with any value, a string matcher object
such as `{starts_with: s}` included, the comprehension tests each element of the list for
equality with the value itself: its body is `some v`, `v = left[_]` and `v == value`.
The object is not compiled as a matcher: the list matchers succeed on it whatever its
keys are, also where `matchString` fails on it. -/
theorem matchStringList_element_equality (dst : Body) (left : Term) (v : Value) :
    elementBody left v =
      ([.MustParseExpr "some v",
        .BuiltinExpr .Equality [.VarTerm "v", .RefTerm left [.VarTerm "$0"]],
        .BuiltinExpr .Equal [.VarTerm "v", .NewTerm v]], none) ∧
    matchStringList dst left (.object [("has", v)]) =
      (dst ++ [.BuiltinExpr .GreaterThan
        [.Call .Count
          [.ArrayComprehensionTerm (.BooleanTerm true) (elementBody left v).1],
         .IntNumberTerm 0]], none) ∧
    matchStringList dst left (.object [("exclude", v)]) =
      (dst ++ [.BuiltinExpr .Equal
        [.Call .Count
          [.ArrayComprehensionTerm (.BooleanTerm true) (elementBody left v).1],
         .IntNumberTerm 0]], none) ∧
    matchStringList dst left (.object [("is", v)]) =
      (dst ++ [.BuiltinExpr .Equal [.Call .Count [left], .IntNumberTerm 1],
        .BuiltinExpr .GreaterThan
          [.Call .Count
            [.ArrayComprehensionTerm (.BooleanTerm true) (elementBody left v).1],
           .IntNumberTerm 0]], none) ∧
    (∀ entries : List (String × Value),
      (matchStringList dst left (.object [("has", .object entries)])).2 = none ∧
      (matchStringList dst left (.object [("exclude", .object entries)])).2 = none ∧
      (matchStringList dst left (.object [("is", .object entries)])).2 = none) := by
  refine ⟨rfl, rfl, rfl, ?_, fun entries => ⟨rfl, rfl, ?_⟩⟩
  · show matchStringListIs dst left v = _
    rw [matchStringListIs_eq]
    rfl
  · show (matchStringListIs dst left (.object entries)).2 = none
    rw [matchStringListIs_eq]

/-- The amended C37 at the object `{starts_with: "admin-"}` and at an object with an
unknown operator, on which `matchString` fails and `has` does not. -/
theorem matchStringList_element_equality_witness :
    (elementBody groupsTerm (.object [("starts_with", .string "admin-")])).1 =
      [.MustParseExpr "some v",
       .BuiltinExpr .Equality [.VarTerm "v", .RefTerm groupsTerm [.VarTerm "$0"]],
       .BuiltinExpr .Equal
         [.VarTerm "v", .NewTerm (.object [("starts_with", .string "admin-")])]] ∧
    (matchString [] (.VarTerm "v") (.object [("matches", .string "admin-.*")])).2 =
      some (.unknownStringOperator "matches") ∧
    (matchStringList [] groupsTerm objectHasUnknown).2 = none :=
  ⟨congrArg Prod.fst
      (matchStringList_element_equality [] groupsTerm
        (.object [("starts_with", .string "admin-")])).1,
   rfl,
   ((matchStringList_element_equality [] groupsTerm (.string "x")).2.2.2.2
     [("matches", .string "admin-.*")]).1⟩

/-! ## Claims on the runtime flags -/

/-- C36 (as stated, refuted): declaring the flag `mcp` again, with the default `true`, is not
rejected: `runtimeFlag` returns the key, and the registered default of `mcp`, which was
`false`, is `true` afterwards. -/
theorem runtimeFlag_counterexample :
    defaultRuntimeFlags "mcp" = some false ∧
    (runtimeFlag defaultRuntimeFlags "mcp" true).1 = "mcp" ∧
    (runtimeFlag defaultRuntimeFlags "mcp" true).2 "mcp" = some true := by
  decide

/-- C36 (amended): the function `runtimeFlag` never rejects a declaration: it returns the
key and registers the default for it, in place of the default that the key had when it was
declared before, and leaves the other keys as they are. The twelve declared flags have
pairwise distinct keys, so each is registered with its declared default. -/
theorem runtimeFlag_overwrites (registry : RuntimeFlags) (txt : String) (dflt : Bool) :
    (runtimeFlag registry txt dflt).1 = txt ∧
    (runtimeFlag registry txt dflt).2 txt = some dflt ∧
    (∀ key, key ≠ txt → (runtimeFlag registry txt dflt).2 key = registry key) ∧
    (declaredRuntimeFlags.map (·.1)).Nodup ∧
    declaredRuntimeFlags.length = 12 ∧
    (∀ kd ∈ declaredRuntimeFlags, defaultRuntimeFlags kd.1 = some kd.2) ∧
    (∀ key, key ∉ declaredRuntimeFlags.map (·.1) →
      DefaultRuntimeFlags defaultRuntimeFlags key = none) := by
  refine ⟨rfl, by simp [runtimeFlag, RuntimeFlags.assign], ?_, by decide, rfl, by decide, ?_⟩
  · intro key hne
    simp [runtimeFlag, RuntimeFlags.assign, hne]
  · intro key hkey
    simp only [declaredRuntimeFlags, List.map_cons, List.map_nil, List.mem_cons,
      List.mem_singleton, List.not_mem_nil, or_false, not_or] at hkey
    obtain ⟨h1, h2, h3, h4, h5, h6, h7, h8, h9, h10, h11, h12⟩ := hkey
    simp [DefaultRuntimeFlags, defaultRuntimeFlags, declaredRuntimeFlags, runtimeFlag,
      RuntimeFlags.assign, h1, h2, h3, h4, h5, h6, h7, h8, h9, h10, h11, h12]

/-- The amended C36 at a second declaration of `mcp` and at the registered default of
another flag. -/
theorem runtimeFlag_overwrites_witness :
    (runtimeFlag defaultRuntimeFlags "mcp" true).2 "mcp" = some true ∧
    (runtimeFlag defaultRuntimeFlags "mcp" true).2 "config_hot_reload" =
      defaultRuntimeFlags "config_hot_reload" ∧
    defaultRuntimeFlags "config_hot_reload" = some true :=
  ⟨(runtimeFlag_overwrites defaultRuntimeFlags "mcp" true).2.1,
   (runtimeFlag_overwrites defaultRuntimeFlags "mcp" true).2.2.1 "config_hot_reload" (by decide),
   (runtimeFlag_overwrites defaultRuntimeFlags "mcp" true).2.2.2.2.2.1
     ("config_hot_reload", true) (by decide)⟩

/-! ## Claims on the main listener -/

theorem filterChain_ok (b : Builder) (cfg : Config) (fullyStatic useQUIC : Bool)
    (transportSocket : Option Foreign) (chain : FilterChain)
    (h : b.buildMainHTTPConnectionManagerFilterChain cfg fullyStatic useQUIC transportSocket =
      .ok chain) :
    ∃ filter, b.buildMainHTTPConnectionManagerFilter cfg fullyStatic useQUIC = .ok filter ∧
      chain = { Filters := [filter], TransportSocket := transportSocket } := by
  unfold Builder.buildMainHTTPConnectionManagerFilterChain at h
  cases hf : b.buildMainHTTPConnectionManagerFilter cfg fullyStatic useQUIC with
  | error err => rw [hf] at h; simp at h
  | ok filter =>
    rw [hf] at h
    simp only [Except.ok.injEq] at h
    exact ⟨filter, rfl, h.symm⟩

/-- What a successfully built insecure listener is. -/
theorem insecure_ok (b : Builder) (cfg : Config) (fullyStatic : Bool) (li : Listener)
    (h : b.buildMainInsecureListener cfg fullyStatic = .ok li) :
    ∃ filter, b.buildMainHTTPConnectionManagerFilter cfg fullyStatic false = .ok filter ∧
      li.Name = (b.newTCPListener "http-ingress" "http-ingress"
        (b.buildTCPAddress cfg.Options.Addr 80)).Name ∧
      li.Address = (b.newTCPListener "http-ingress" "http-ingress"
        (b.buildTCPAddress cfg.Options.Addr 80)).Address ∧
      li.ListenerFilters = (b.newTCPListener "http-ingress" "http-ingress"
          (b.buildTCPAddress cfg.Options.Addr 80)).ListenerFilters ++
        (if cfg.Options.UseProxyProtocol then [b.ProxyProtocolFilter] else []) ∧
      li.AccessLog = (b.newTCPListener "http-ingress" "http-ingress"
        (b.buildTCPAddress cfg.Options.Addr 80)).AccessLog ∧
      li.FilterChains = (b.newTCPListener "http-ingress" "http-ingress"
          (b.buildTCPAddress cfg.Options.Addr 80)).FilterChains ++
        [{ Filters := [filter], TransportSocket := none }] := by
  unfold Builder.buildMainInsecureListener at h
  cases hc : b.buildMainHTTPConnectionManagerFilterChain cfg fullyStatic false none with
  | error err => simp [hc] at h
  | ok chain =>
    obtain ⟨filter, hf, hchain⟩ := filterChain_ok b cfg fullyStatic false none chain hc
    simp only [hc, Except.ok.injEq] at h
    subst h
    subst hchain
    refine ⟨filter, hf, ?_⟩
    cases cfg.Options.UseProxyProtocol <;> simp

/-- What a successfully built QUIC listener is. -/
theorem quic_ok (b : Builder) (cfg : Config) (fullyStatic : Bool) (li : Listener)
    (h : b.buildMainQUICListener cfg fullyStatic = .ok li) :
    ∃ filter socket, b.buildMainHTTPConnectionManagerFilter cfg fullyStatic true = .ok filter ∧
      li.Name = (b.newQUICListener "quic-ingress" (b.buildUDPAddress cfg.Options.Addr 443)).Name ∧
      li.Address =
        (b.newQUICListener "quic-ingress" (b.buildUDPAddress cfg.Options.Addr 443)).Address ∧
      li.ListenerFilters =
        (b.newQUICListener "quic-ingress"
          (b.buildUDPAddress cfg.Options.Addr 443)).ListenerFilters ++
        (if cfg.Options.UseProxyProtocol then [b.ProxyProtocolFilter] else []) ∧
      li.AccessLog =
        (b.newQUICListener "quic-ingress" (b.buildUDPAddress cfg.Options.Addr 443)).AccessLog ++
        (if cfg.Options.DownstreamMTLS.Enforcement = b.MTLSEnforcementRejectConnection then
          [b.newListenerAccessLog] else []) ∧
      li.FilterChains =
        (b.newQUICListener "quic-ingress"
          (b.buildUDPAddress cfg.Options.Addr 443)).FilterChains ++
        [{ Filters := [filter], TransportSocket := some socket }] := by
  unfold Builder.buildMainQUICListener at h
  cases hcert : b.getAllCertificates cfg with
  | error err => simp [hcert] at h
  | ok certs =>
    cases hs : b.buildDownstreamQUICTransportSocket cfg certs with
    | error err => simp [hcert, hs] at h
    | ok socket =>
      cases hc : b.buildMainHTTPConnectionManagerFilterChain cfg fullyStatic true
          (some socket) with
      | error err => simp [hcert, hs, hc] at h
      | ok chain =>
        obtain ⟨filter, hf, hchain⟩ := filterChain_ok b cfg fullyStatic true _ chain hc
        simp only [hcert, hs, hc, Except.ok.injEq] at h
        subst h
        subst hchain
        refine ⟨filter, socket, hf, ?_⟩
        cases cfg.Options.UseProxyProtocol <;>
          by_cases hr : cfg.Options.DownstreamMTLS.Enforcement = b.MTLSEnforcementRejectConnection <;>
          simp [hr]

/-- What a successfully built TLS listener is. -/
theorem tls_ok (b : Builder) (cfg : Config) (fullyStatic : Bool) (li : Listener)
    (h : b.buildMainTLSListener cfg fullyStatic = .ok li) :
    ∃ filter socket, b.buildMainHTTPConnectionManagerFilter cfg fullyStatic false = .ok filter ∧
      li.Name = (b.newTCPListener "https-ingress" "https-ingress"
        (b.buildTCPAddress cfg.Options.Addr 443)).Name ∧
      li.Address = (b.newTCPListener "https-ingress" "https-ingress"
        (b.buildTCPAddress cfg.Options.Addr 443)).Address ∧
      li.ListenerFilters = (b.newTCPListener "https-ingress" "https-ingress"
          (b.buildTCPAddress cfg.Options.Addr 443)).ListenerFilters ++
        (if cfg.Options.UseProxyProtocol then [b.ProxyProtocolFilter] else []) ++
        [b.TLSInspectorFilter] ∧
      li.AccessLog = (b.newTCPListener "https-ingress" "https-ingress"
          (b.buildTCPAddress cfg.Options.Addr 443)).AccessLog ++
        (if cfg.Options.DownstreamMTLS.Enforcement = b.MTLSEnforcementRejectConnection then
          [b.newListenerAccessLog] else []) ∧
      li.FilterChains = (b.newTCPListener "https-ingress" "https-ingress"
          (b.buildTCPAddress cfg.Options.Addr 443)).FilterChains ++
        [b.buildACMETLSALPNFilterChain, { Filters := [filter], TransportSocket := some socket }] := by
  unfold Builder.buildMainTLSListener at h
  cases hcert : b.getAllCertificates cfg with
  | error err => simp [hcert] at h
  | ok certs =>
    cases hs : b.buildDownstreamTLSContextMulti cfg certs with
    | error err => simp [hcert, hs] at h
    | ok tlsContext =>
      cases hc : b.buildMainHTTPConnectionManagerFilterChain cfg fullyStatic false
          (some (b.newDownstreamTLSTransportSocket tlsContext)) with
      | error err => simp [hcert, hs, hc] at h
      | ok chain =>
        obtain ⟨filter, hf, hchain⟩ := filterChain_ok b cfg fullyStatic false _ chain hc
        simp only [hcert, hs, hc, Except.ok.injEq] at h
        subst h
        subst hchain
        refine ⟨filter, b.newDownstreamTLSTransportSocket tlsContext, hf, ?_⟩
        cases cfg.Options.UseProxyProtocol <;>
          by_cases hr : cfg.Options.DownstreamMTLS.Enforcement = b.MTLSEnforcementRejectConnection <;>
          simp [hr]

theorem simpleBuilder_fresh : simpleBuilder.Fresh :=
  ⟨fun _ _ _ => ⟨rfl, rfl, rfl, rfl, rfl⟩, fun _ _ => ⟨rfl, rfl, rfl, rfl, rfl⟩⟩

/-- C32: the function `buildMainListener` builds the QUIC listener when `useQUIC` is set,
whatever `InsecureServer` is, otherwise the insecure listener when `InsecureServer` is
set, otherwise the TLS listener. With constructors that return a fresh listener of the
name and address given, the QUIC listener is `quic-ingress` on the UDP address with
default port 443, the insecure listener `http-ingress` on the TCP address with default
port 80, with one filter chain, which has no transport socket, and the TLS listener
`https-ingress` on the TCP address with default port 443. -/
theorem buildMainListener_selection (b : Builder) (cfg : Config) (fullyStatic : Bool)
    (hfresh : b.Fresh) :
    b.buildMainListener cfg fullyStatic true = b.buildMainQUICListener cfg fullyStatic ∧
    (cfg.Options.InsecureServer = true →
      b.buildMainListener cfg fullyStatic false = b.buildMainInsecureListener cfg fullyStatic) ∧
    (cfg.Options.InsecureServer = false →
      b.buildMainListener cfg fullyStatic false = b.buildMainTLSListener cfg fullyStatic) ∧
    (∀ li, b.buildMainQUICListener cfg fullyStatic = .ok li →
      li.Name = "quic-ingress" ∧ li.Address = some (b.buildUDPAddress cfg.Options.Addr 443)) ∧
    (∀ li, b.buildMainInsecureListener cfg fullyStatic = .ok li →
      li.Name = "http-ingress" ∧ li.Address = some (b.buildTCPAddress cfg.Options.Addr 80) ∧
      ∃ chain, li.FilterChains = [chain] ∧ chain.TransportSocket = none) ∧
    (∀ li, b.buildMainTLSListener cfg fullyStatic = .ok li →
      li.Name = "https-ingress" ∧ li.Address = some (b.buildTCPAddress cfg.Options.Addr 443)) := by
  refine ⟨rfl, ?_, ?_, ?_, ?_, ?_⟩
  · intro h; simp [Builder.buildMainListener, h]
  · intro h; simp [Builder.buildMainListener, h]
  · intro li h
    obtain ⟨_, _, _, h1, h2, _⟩ := quic_ok b cfg fullyStatic li h
    obtain ⟨f1, f2, _⟩ := hfresh.2 "quic-ingress" (b.buildUDPAddress cfg.Options.Addr 443)
    exact ⟨h1.trans f1, h2.trans f2⟩
  · intro li h
    obtain ⟨filter, _, h1, h2, _, _, h5⟩ := insecure_ok b cfg fullyStatic li h
    obtain ⟨f1, f2, _, _, f5⟩ :=
      hfresh.1 "http-ingress" "http-ingress" (b.buildTCPAddress cfg.Options.Addr 80)
    refine ⟨h1.trans f1, h2.trans f2, { Filters := [filter], TransportSocket := none }, ?_, rfl⟩
    rw [h5, f5]
    rfl
  · intro li h
    obtain ⟨_, _, _, h1, h2, _⟩ := tls_ok b cfg fullyStatic li h
    obtain ⟨f1, f2, _⟩ :=
      hfresh.1 "https-ingress" "https-ingress" (b.buildTCPAddress cfg.Options.Addr 443)
    exact ⟨h1.trans f1, h2.trans f2⟩

/-- C32 at a configuration with the insecure server: with `useQUIC` the QUIC listener is
built, without it the insecure one. -/
theorem buildMainListener_selection_witness :
    (simpleBuilder.buildMainListener configInsecureReject false true).map (·.Name) =
      .ok "quic-ingress" ∧
    (simpleBuilder.buildMainListener configInsecureReject false false).map (·.Name) =
      .ok "http-ingress" ∧
    (simpleBuilder.buildMainListener configPlain false false).map (·.Name) =
      .ok "https-ingress" ∧
    simpleBuilder.buildMainListener configInsecureReject false false =
      simpleBuilder.buildMainInsecureListener configInsecureReject false :=
  ⟨by decide, by decide, by decide,
   (buildMainListener_selection simpleBuilder configInsecureReject false simpleBuilder_fresh).2.1
     rfl⟩

/-- C33: with constructors that return a fresh listener, a TLS listener that was built has
two filter chains, the ACME TLS-ALPN chain and then the chain of the main HTTP connection
manager, and its listener filters are the TLS inspector, after the proxy-protocol filter
exactly when `UseProxyProtocol` is set; an insecure or QUIC listener that was built has
one filter chain, and the proxy-protocol filter as its listener filter exactly when
`UseProxyProtocol` is set. -/
theorem listener_chains_and_filters (b : Builder) (cfg : Config) (fullyStatic : Bool)
    (hfresh : b.Fresh) :
    (∀ li, b.buildMainTLSListener cfg fullyStatic = .ok li →
      (∃ filter socket,
        b.buildMainHTTPConnectionManagerFilter cfg fullyStatic false = .ok filter ∧
        li.FilterChains = [b.buildACMETLSALPNFilterChain,
          { Filters := [filter], TransportSocket := some socket }]) ∧
      li.FilterChains.length = 2 ∧
      li.ListenerFilters =
        (if cfg.Options.UseProxyProtocol then [b.ProxyProtocolFilter] else []) ++
          [b.TLSInspectorFilter] ∧
      (li.ListenerFilters.length = 1 ∨ li.ListenerFilters.length = 2)) ∧
    (∀ li, b.buildMainInsecureListener cfg fullyStatic = .ok li →
      li.FilterChains.length = 1 ∧
      li.ListenerFilters =
        (if cfg.Options.UseProxyProtocol then [b.ProxyProtocolFilter] else [])) ∧
    (∀ li, b.buildMainQUICListener cfg fullyStatic = .ok li →
      li.FilterChains.length = 1 ∧
      li.ListenerFilters =
        (if cfg.Options.UseProxyProtocol then [b.ProxyProtocolFilter] else [])) := by
  refine ⟨?_, ?_, ?_⟩
  · intro li h
    obtain ⟨filter, socket, hf, _, _, h3, _, h5⟩ := tls_ok b cfg fullyStatic li h
    obtain ⟨_, _, f3, _, f5⟩ :=
      hfresh.1 "https-ingress" "https-ingress" (b.buildTCPAddress cfg.Options.Addr 443)
    rw [f3] at h3
    rw [f5] at h5
    refine ⟨⟨filter, socket, hf, h5⟩, by rw [h5]; rfl, by rw [h3]; rfl, ?_⟩
    rw [h3]
    cases cfg.Options.UseProxyProtocol <;> simp
  · intro li h
    obtain ⟨filter, _, _, _, h3, _, h5⟩ := insecure_ok b cfg fullyStatic li h
    obtain ⟨_, _, f3, _, f5⟩ :=
      hfresh.1 "http-ingress" "http-ingress" (b.buildTCPAddress cfg.Options.Addr 80)
    rw [f3] at h3
    rw [f5] at h5
    exact ⟨by rw [h5]; rfl, by rw [h3]; rfl⟩
  · intro li h
    obtain ⟨filter, socket, _, _, _, h3, _, h5⟩ := quic_ok b cfg fullyStatic li h
    obtain ⟨_, _, f3, _, f5⟩ :=
      hfresh.2 "quic-ingress" (b.buildUDPAddress cfg.Options.Addr 443)
    rw [f3] at h3
    rw [f5] at h5
    exact ⟨by rw [h5]; rfl, by rw [h3]; rfl⟩

/-- C33 at a TLS listener with the proxy protocol and at one without. -/
theorem listener_chains_and_filters_witness :
    (simpleBuilder.buildMainTLSListener configTLSReject false).map (·.ListenerFilters) =
      .ok [simpleBuilder.ProxyProtocolFilter, simpleBuilder.TLSInspectorFilter] ∧
    (simpleBuilder.buildMainTLSListener configPlain false).map (·.ListenerFilters) =
      .ok [simpleBuilder.TLSInspectorFilter] ∧
    (∀ li, simpleBuilder.buildMainTLSListener configTLSReject false = .ok li →
      li.FilterChains.length = 2) :=
  ⟨by decide, by decide,
   fun li h =>
    ((listener_chains_and_filters simpleBuilder configTLSReject false simpleBuilder_fresh).1
      li h).2.1⟩

/-- C34 (as stated, refuted): the insecure listener built for a configuration whose
enforcement of client certificates is to reject the connection carries no access log. -/
theorem listener_access_log_counterexample :
    configInsecureReject.Options.DownstreamMTLS.Enforcement =
      simpleBuilder.MTLSEnforcementRejectConnection ∧
    (simpleBuilder.buildMainListener configInsecureReject false false).map (·.Name) =
      .ok "http-ingress" ∧
    (simpleBuilder.buildMainListener configInsecureReject false false).map (·.AccessLog) =
      .ok [] := by
  decide

/-- C34 (amended): with constructors that return a fresh listener, a QUIC or TLS listener
that was built carries one access log, the gRPC TCP access log of `newListenerAccessLog`,
when the enforcement of client certificates is to reject the connection, and none
otherwise; an insecure listener that was built carries none, whatever the enforcement
is. -/
theorem listener_access_log (b : Builder) (cfg : Config) (fullyStatic : Bool)
    (hfresh : b.Fresh) :
    (∀ li, b.buildMainQUICListener cfg fullyStatic = .ok li →
      li.AccessLog =
        if cfg.Options.DownstreamMTLS.Enforcement = b.MTLSEnforcementRejectConnection then
          [b.newListenerAccessLog] else []) ∧
    (∀ li, b.buildMainTLSListener cfg fullyStatic = .ok li →
      li.AccessLog =
        if cfg.Options.DownstreamMTLS.Enforcement = b.MTLSEnforcementRejectConnection then
          [b.newListenerAccessLog] else []) ∧
    (∀ li, b.buildMainInsecureListener cfg fullyStatic = .ok li → li.AccessLog = []) ∧
    b.newListenerAccessLog.Name = "envoy.access_loggers.tcp_grpc" := by
  refine ⟨?_, ?_, ?_, rfl⟩
  · intro li h
    obtain ⟨_, _, _, _, _, _, h4, _⟩ := quic_ok b cfg fullyStatic li h
    obtain ⟨_, _, _, f4, _⟩ := hfresh.2 "quic-ingress" (b.buildUDPAddress cfg.Options.Addr 443)
    rw [h4, f4]; rfl
  · intro li h
    obtain ⟨_, _, _, _, _, _, h4, _⟩ := tls_ok b cfg fullyStatic li h
    obtain ⟨_, _, _, f4, _⟩ :=
      hfresh.1 "https-ingress" "https-ingress" (b.buildTCPAddress cfg.Options.Addr 443)
    rw [h4, f4]; rfl
  · intro li h
    obtain ⟨_, _, _, _, _, h4, _⟩ := insecure_ok b cfg fullyStatic li h
    obtain ⟨_, _, _, f4, _⟩ :=
      hfresh.1 "http-ingress" "http-ingress" (b.buildTCPAddress cfg.Options.Addr 80)
    rw [h4, f4]

/-- The amended C34 at a TLS listener with and without the rejection of connections. -/
theorem listener_access_log_witness :
    (simpleBuilder.buildMainTLSListener configTLSReject false).map (·.AccessLog) =
      .ok [simpleBuilder.newListenerAccessLog] ∧
    (simpleBuilder.buildMainTLSListener configPlain false).map (·.AccessLog) = .ok [] ∧
    (∀ li, simpleBuilder.buildMainInsecureListener configInsecureReject false = .ok li →
      li.AccessLog = []) :=
  ⟨by decide, by decide,
   (listener_access_log simpleBuilder configInsecureReject false simpleBuilder_fresh).2.2.1⟩

/-- C35: the HTTP filters of the main connection manager are the Lua filters that remove
the impersonation headers and set the client certificate metadata, the external
authorization, the Lua filters for the cookie of the authorization, the upstream
clean-up, the header rewrites and the type of local replies, then the Alt-Svc filter
exactly when the listener is not QUIC and the codec type is HTTP/3, then the router: 8 or
9 filters, the router last, the external authorization third. A connection manager
filter that was built wraps a manager with these filters, when `applyTracingConfig`
leaves the filters of the manager as they are. -/
theorem mainHTTPFilters_order (b : Builder) (cfg : Config) (fullyStatic useQUIC : Bool) :
    b.mainHTTPFilters cfg useQUIC =
      [b.LuaFilter b.luascripts.RemoveImpersonateHeaders,
       b.LuaFilter b.luascripts.SetClientCertificateMetadata,
       b.ExtAuthzFilter (b.grpcClientTimeout cfg),
       b.LuaFilter b.luascripts.ExtAuthzSetCookie,
       b.LuaFilter b.luascripts.CleanUpstream,
       b.LuaFilter b.luascripts.RewriteHeaders,
       b.LuaFilter b.luascripts.LocalReplyType] ++
      (if useQUIC = false ∧ cfg.Options.CodecType = b.CodecTypeHTTP3 then
        [b.newQUICAltSvcHeaderFilter cfg] else []) ++
      [b.HTTPRouterFilter] ∧
    ((b.mainHTTPFilters cfg useQUIC).length = 9 ↔
      (useQUIC = false ∧ cfg.Options.CodecType = b.CodecTypeHTTP3)) ∧
    ((b.mainHTTPFilters cfg useQUIC).length = 8 ↔
      ¬ (useQUIC = false ∧ cfg.Options.CodecType = b.CodecTypeHTTP3)) ∧
    (b.mainHTTPFilters cfg useQUIC).getLast? = some b.HTTPRouterFilter ∧
    (b.mainHTTPFilters cfg useQUIC)[2]? = some (b.ExtAuthzFilter (b.grpcClientTimeout cfg)) ∧
    (cfg.Options.GRPCClientTimeout = 0 →
      b.grpcClientTimeout cfg = b.durationpbNew 30000000000) ∧
    ((∀ mgr tracing, (b.applyTracingConfig mgr tracing).HttpFilters = mgr.HttpFilters) →
      ∀ filter, b.buildMainHTTPConnectionManagerFilter cfg fullyStatic useQUIC = .ok filter →
        ∃ mgr, filter = b.HTTPConnectionManagerFilter mgr ∧
          mgr.HttpFilters = b.mainHTTPFilters cfg useQUIC) := by
  have hlist : b.mainHTTPFilters cfg useQUIC =
      [b.LuaFilter b.luascripts.RemoveImpersonateHeaders,
       b.LuaFilter b.luascripts.SetClientCertificateMetadata,
       b.ExtAuthzFilter (b.grpcClientTimeout cfg),
       b.LuaFilter b.luascripts.ExtAuthzSetCookie,
       b.LuaFilter b.luascripts.CleanUpstream,
       b.LuaFilter b.luascripts.RewriteHeaders,
       b.LuaFilter b.luascripts.LocalReplyType] ++
      (if useQUIC = false ∧ cfg.Options.CodecType = b.CodecTypeHTTP3 then
        [b.newQUICAltSvcHeaderFilter cfg] else []) ++
      [b.HTTPRouterFilter] := by
    unfold Builder.mainHTTPFilters
    by_cases hc : useQUIC = false ∧ cfg.Options.CodecType = b.CodecTypeHTTP3
    · have hc' : ¬ useQUIC = true ∧ cfg.Options.CodecType = b.CodecTypeHTTP3 :=
        ⟨by simp [hc.1], hc.2⟩
      simp only [if_pos hc, if_pos hc']
    · have hc' : ¬ (¬ useQUIC = true ∧ cfg.Options.CodecType = b.CodecTypeHTTP3) := by
        intro h; exact hc ⟨by simpa using h.1, h.2⟩
      simp only [if_neg hc, if_neg hc']
      rfl
  refine ⟨hlist, ?_, ?_, ?_, ?_, ?_, ?_⟩
  · rw [hlist]; split_ifs with hc <;> simp [hc]
  · rw [hlist]; split_ifs with hc <;> simp [hc]
  · rw [hlist]; split_ifs <;> rfl
  · rw [hlist]; rfl
  · intro h0; simp [Builder.grpcClientTimeout, h0]
  · intro htr filter h
    unfold Builder.buildMainHTTPConnectionManagerFilter at h
    cases hm : b.mainHTTPConnectionManager cfg fullyStatic useQUIC with
    | error err => simp [hm] at h
    | ok mgr =>
      simp only [hm, Except.ok.injEq] at h
      refine ⟨mgr, h.symm, ?_⟩
      unfold Builder.mainHTTPConnectionManager at hm
      cases hl : b.BuildLocalReplyConfig cfg.Options with
      | error err => simp [hl] at hm
      | ok localReply =>
        simp only [hl] at hm
        cases fullyStatic with
        | true =>
          cases hr : b.buildMainRouteConfiguration cfg with
          | error err => simp [hr] at hm
          | ok rc =>
            simp only [hr, if_true, Except.ok.injEq] at hm
            subst hm
            show (b.applyTracingConfig _ _).HttpFilters = _
            rw [htr]
            split_ifs <;> rfl
        | false =>
          simp only [Bool.false_eq_true, if_false, Except.ok.injEq] at hm
          subst hm
          show (b.applyTracingConfig _ _).HttpFilters = _
          rw [htr]
          split_ifs <;> rfl

/-- C35 at the plain configuration, with 8 filters, and at the HTTP/3 codec, with 9 on
the listener that is not QUIC. -/
theorem mainHTTPFilters_order_witness :
    (simpleBuilder.mainHTTPFilters configPlain false).map (·.content) =
      ["lua remove-impersonate-headers", "lua set-client-certificate-metadata",
       "ext_authz 30s", "lua ext-authz-set-cookie", "lua clean-upstream",
       "lua rewrite-headers", "lua local-reply-type", "router"] ∧
    (simpleBuilder.mainHTTPFilters configTLSReject false).length = 9 ∧
    (simpleBuilder.mainHTTPFilters configTLSReject true).length = 8 ∧
    (∀ filter,
      simpleBuilder.buildMainHTTPConnectionManagerFilter configTLSReject false false =
        .ok filter →
      ∃ mgr, filter = simpleBuilder.HTTPConnectionManagerFilter mgr ∧
        mgr.HttpFilters = simpleBuilder.mainHTTPFilters configTLSReject false) :=
  ⟨by decide,
   (mainHTTPFilters_order simpleBuilder configTLSReject false false).2.1.mpr ⟨rfl, rfl⟩,
   (mainHTTPFilters_order simpleBuilder configTLSReject false true).2.2.1.mpr (by decide),
   (mainHTTPFilters_order simpleBuilder configTLSReject false false).2.2.2.2.2.2
     (fun _ _ => rfl)⟩

end Pomerium
